import Mathlib

/-!
# The arena allocator of the Memory Pool System

A shallow embedding of `code/arena.c` (placement policy, allocation, freeing,
commit limits) and of the parts of the system it stands on.

Conventions of the embedding.

* The C types `Addr`, `Size`, `Index`, `Count`, `Shift` and `ZoneSet` are
  machine words, and a `Pool` is named by a number: all are `Nat` here, with the
  wrap-around of the C operators written out (`AddrAdd`, `SizeAdd`, `SizeSub`).
* The arena is a record; every C function that mutates it becomes a function
  from the state before to its result and the state after.
* The class methods (`grow`, `pagesMarkAllocated`, `free`, `purgeSpare`,
  `reserved`) are function pointers in the source and are arguments here
  (`ArenaClass`); so are the hooks of the reservoir (`ReservoirOps`).
* `State` pairs the arena with the list of calls made so far to the class
  methods, to the index searches and to the coalescing block sets, most recent
  first.  The list is ghost data: no embedded function reads it.
* `AVER`, `AVERT` and `CHECKL` are not executed (as in the varieties of the
  system that compile them out); the telemetry `EVENT` lines are left out.
-/

namespace MPS

/-! ## Machine words -/

/-- Width of the machine word in bits; `ZoneSet` has one bit for each zone. -/
def MPS_WORD_WIDTH : Nat := 64

/-- Number of values of a machine word. -/
def WordRange : Nat := 2 ^ 64

/-- The C expression `a + b` on `Size`. -/
def SizeAdd (a b : Nat) : Nat := (a + b) % WordRange

/-- The C expression `a - b` on `Size`. -/
def SizeSub (a b : Nat) : Nat := (a + WordRange - b % WordRange) % WordRange

/-- The source macro `AddrAdd`. -/
def AddrAdd (a : Nat) (s : Nat) : Nat := (a + s) % WordRange

/-- The source macro `AddrOffset(base, limit)`. -/
def AddrOffset (base limit : Nat) : Nat := SizeSub limit base

/-- Modelled from the spec: the macro `AddrAlignUp` of `mpm.h`, the least
multiple of the alignment that is not below the address, as a machine word. -/
def AddrAlignUp (a : Nat) (align : Nat) : Nat :=
  ((a + align - 1) / align * align) % WordRange

/-- Modelled from the spec: the macro `AddrAlignDown` of `mpm.h`. -/
def AddrAlignDown (a : Nat) (align : Nat) : Nat := a / align * align

/-- Result codes. -/
inductive Res where
  | ResOK
  | ResFAIL
  | ResRESOURCE
  | ResMEMORY
  | ResLIMIT
  | ResUNIMPL
  | ResIO
  | ResCOMMIT_LIMIT
  | ResPARAM
deriving DecidableEq, Repr

open Res

/-! ## Zone sets -/

def ZoneSetEMPTY : Nat := 0

def ZoneSetUNIV : Nat := 2 ^ 64 - 1

/-- Modelled from the spec: the macro `ZoneSetUnion` of `mpm.h`. -/
def ZoneSetUnion (a b : Nat) : Nat := a ||| b

/-- Modelled from the spec: the macro `ZoneSetComp` of `mpm.h`, the complement
inside the word. -/
def ZoneSetComp (a : Nat) : Nat := ZoneSetUNIV ^^^ (a % WordRange)

/-- Modelled from the spec: the macro `ZoneSetDiff` of `mpm.h`; the spec
writes it `a − b`. -/
def ZoneSetDiff (a b : Nat) : Nat := a &&& ZoneSetComp b

/-- Modelled from the spec: the macro `ZoneSetIsMember` of `mpm.h`. -/
def ZoneSetIsMember (zs : Nat) (z : Nat) : Bool := zs.testBit z

/-- Modelled from the spec: the macro `ZoneSetSub` of `mpm.h`, `a ⊆ b`. -/
def ZoneSetSub (a b : Nat) : Bool := decide (ZoneSetDiff a b = 0)

/-- Modelled from the spec: `zone(addr) = (addr >> zoneShift) & (Z-1)`, the
macro `AddrZone` of `mpm.h`. -/
def AddrZone (zoneShift : Nat) (addr : Nat) : Nat :=
  (addr / 2 ^ zoneShift) % MPS_WORD_WIDTH

/-- The zones of `n` successive stripes, the first one having number `k`. -/
def zoneSetOfStripes (k : Nat) : Nat → Nat
  | 0 => ZoneSetEMPTY
  | n + 1 => ZoneSetUnion (2 ^ (k % MPS_WORD_WIDTH)) (zoneSetOfStripes (k + 1) n)

/-- Modelled from the spec: `zonesOf(range)`, the function `ZoneSetOfRange` of
`ref.c`: the zones of the stripes that `[base, limit)` meets. -/
def ZoneSetOfRange (zoneShift : Nat) (base limit : Nat) : Nat :=
  if limit ≤ base then ZoneSetEMPTY
  else
    let zbase := base / 2 ^ zoneShift
    let zlimit := (limit - 1) / 2 ^ zoneShift + 1
    if MPS_WORD_WIDTH ≤ zlimit - zbase then ZoneSetUNIV
    else zoneSetOfStripes zbase (zlimit - zbase)

/-! ## Ranges and coalescing block sets -/

/-- A half-open range of addresses `[base, limit)`. -/
structure RangeStruct where
  base : Nat
  limit : Nat
deriving DecidableEq, Repr

/-- The address lies in the range. -/
def RangeStruct.Mem (r : RangeStruct) (a : Nat) : Prop := r.base ≤ a ∧ a < r.limit

instance (r : RangeStruct) (a : Nat) : Decidable (r.Mem a) := by
  unfold RangeStruct.Mem; infer_instance

/-- The source macro `RangeSize`. -/
def RangeSize (r : RangeStruct) : Nat := AddrOffset r.base r.limit

/-- Modelled from the spec: a coalescing block set (`cbs.c`), "an ordered set
of non-overlapping, non-adjacent ranges"; the blocks are listed in address
order.  Its tree nodes come from the block pool of the arena, of which the
operations below see the number of units in hand. -/
abbrev CBS := List RangeStruct

/-- The address lies in a block of the set. -/
def CBS.Mem (cbs : CBS) (a : Nat) : Prop := ∃ b ∈ cbs, RangeStruct.Mem b a

instance (cbs : CBS) (a : Nat) : Decidable (CBS.Mem cbs a) := by
  unfold CBS.Mem; infer_instance

/-- The two ranges overlap or are adjacent. -/
def rangesTouch (r b : RangeStruct) : Bool := decide (b.base ≤ r.limit ∧ r.base ≤ b.limit)

/-- Place a block in an address-ordered list. -/
def cbsPlace (r : RangeStruct) : CBS → CBS
  | [] => [r]
  | b :: bs => if r.base ≤ b.base then r :: b :: bs else b :: cbsPlace r bs

/-- The range spanned by `r` and the blocks of the list. -/
def cbsHull (r : RangeStruct) : CBS → RangeStruct
  | [] => r
  | b :: bs => cbsHull ⟨min r.base b.base, max r.limit b.limit⟩ bs

/-- What the hull of a range and a list of blocks is made of. -/
structure HullOf (r : RangeStruct) (near : CBS) (h : RangeStruct) : Prop where
  base_le : h.base ≤ r.base
  limit_le : r.limit ≤ h.limit
  covers : ∀ b ∈ near, h.base ≤ b.base ∧ b.limit ≤ h.limit
  base_from : h.base = r.base ∨ ∃ b ∈ near, h.base = b.base
  limit_from : h.limit = r.limit ∨ ∃ b ∈ near, h.limit = b.limit

/-- Modelled from the spec: `CBSInsert` of `cbs.c`, "coalesce with
touching/overlapping existing ranges; fail with LIMIT if the backing block
pool is exhausted".  A range that touches no block needs a new node; one that
joins several blocks gives the nodes saved back to the pool.  The result is
the code, the coalesced range, the set and the units of the pool. -/
def CBSInsert (units : Nat) (cbs : CBS) (r : RangeStruct) : Res × RangeStruct × CBS × Nat :=
  let near := cbs.filter (fun b => rangesTouch r b)
  let far := cbs.filter (fun b => !rangesTouch r b)
  match near with
  | [] => if units = 0 then (ResLIMIT, r, cbs, units)
          else (ResOK, r, cbsPlace r far, units - 1)
  | _ :: more => (ResOK, cbsHull r near, cbsPlace (cbsHull r near) far, units + more.length)

/-- What is left of block `b` when `r` is taken out of it. -/
def cbsCut (b r : RangeStruct) : List RangeStruct :=
  (if b.base < r.base then [⟨b.base, r.base⟩] else []) ++
  (if r.limit < b.limit then [⟨r.limit, b.limit⟩] else [])

/-- The block holding `r`, and the list with `r` cut out of that block. -/
def cbsTake (r : RangeStruct) : CBS → Option (RangeStruct × CBS)
  | [] => none
  | b :: bs =>
    if b.base ≤ r.base ∧ r.limit ≤ b.limit then some (b, cbsCut b r ++ bs)
    else match cbsTake r bs with
      | none => none
      | some (old, rest) => some (old, b :: rest)

/-- Modelled from the spec: `CBSDelete` of `cbs.c`, "`r` must be fully covered
by existing ranges; splits existing ranges as needed; can also fail with LIMIT
when a split needs a new node".  The result is the code, the block that held
the range, the set and the units of the pool. -/
def CBSDelete (units : Nat) (cbs : CBS) (r : RangeStruct) : Res × RangeStruct × CBS × Nat :=
  match cbsTake r cbs with
  | none => (ResFAIL, r, cbs, units)
  | some (old, rest) =>
    if (cbsCut old r).length = 2 then
      if units = 0 then (ResLIMIT, old, cbs, units) else (ResOK, old, rest, units - 1)
    else (ResOK, old, rest, units + (1 - (cbsCut old r).length))

/-- The leftmost block of length at least `size`. -/
def cbsFirstFit (size : Nat) : CBS → Option RangeStruct
  | [] => none
  | b :: bs => if b.base ≤ b.limit ∧ size ≤ b.limit - b.base then some b else cbsFirstFit size bs

/-- Modelled from the spec: `CBSFindFirst` of `cbs.c` with `FindDeleteLOW`,
"leftmost range of length ≥ size; returns the chosen sub-range (LOW policy
consumes its low end)".  The result, when a block is found, is the chosen
range, the block it was in, the set and the units of the pool. -/
def CBSFindFirst (units : Nat) (cbs : CBS) (size : Nat) :
    Option (RangeStruct × RangeStruct × CBS × Nat) :=
  match cbsFirstFit size cbs with
  | none => none
  | some b =>
    match CBSDelete units cbs ⟨b.base, b.base + size⟩ with
    | (ResOK, old, rest, units1) => some (⟨b.base, b.base + size⟩, old, rest, units1)
    | _ => none

/-- The first address `c`, among `lo` and the stripe boundaries above it, such
that `[c, c + size)` ends by `hi` and meets only zones of `zones`. -/
def zoneFit (zoneShift : Nat) (zones : Nat) (size : Nat) (hi : Nat) : Nat → Nat → Option Nat
  | 0, _ => none
  | fuel + 1, c =>
    if hi < c + size then none
    else if ZoneSetSub (ZoneSetOfRange zoneShift c (c + size)) zones then some c
    else zoneFit zoneShift zones size hi fuel (AddrAlignDown (c + 2 ^ zoneShift) (2 ^ zoneShift))

/-- The leftmost block with a sub-range of `size` bytes inside `zones`, and
that sub-range. -/
def cbsZoneFit (zoneShift : Nat) (zones : Nat) (size : Nat) : CBS → Option (RangeStruct × RangeStruct)
  | [] => none
  | b :: bs =>
    match zoneFit zoneShift zones size b.limit ((b.limit - b.base) / 2 ^ zoneShift + 2) b.base with
    | some c => some (b, ⟨c, c + size⟩)
    | none => cbsZoneFit zoneShift zones size bs

/-- Modelled from the spec: `CBSFindFirstInZones` of `cbs.c`, "leftmost range
whose chosen sub-range lies entirely within the given zone mask"; the chosen
sub-range is deleted from the set (the caller's failure path says of it "We
only just deleted it"), and nothing is found when that deletion needs a node
the pool cannot give. -/
def CBSFindFirstInZones (units : Nat) (cbs : CBS) (size : Nat) (zoneShift : Nat)
    (zones : Nat) : Option (RangeStruct × RangeStruct × CBS × Nat) :=
  match cbsZoneFit zoneShift zones size cbs with
  | none => none
  | some (_, r) =>
    match CBSDelete units cbs r with
    | (ResOK, old, rest, units1) => some (r, old, rest, units1)
    | _ => none

/-! ## Chunks, tracts and the arena -/

/-- The part of a segment preference that the arena reads. -/
structure SegPrefStruct where
  zones : Nat
  avoid : Nat
  high : Bool
deriving DecidableEq, Repr

/-- A page descriptor, named by the chunk it lives in (its place in the chunk
ring) and its index in the page table of that chunk.  A tract is the
descriptor of an allocated page. -/
structure Tract where
  chunk : Nat
  index : Nat
deriving DecidableEq, Repr

/-- Modelled from the spec: the chunk structure of `tract.h`.  "pool == null
distinguishes a free tract; pages in allocTable mirror allocation state": the
bit of a page in `allocTable` is set exactly when `pageTable` has a pool for
it. -/
structure Chunk where
  base : Nat
  limit : Nat
  pageSize : Nat
  allocBase : Nat
  pages : Nat
  pageTable : Nat → Option Nat

instance : Inhabited Chunk := ⟨⟨0, 0, 0, 0, 0, fun _ => none⟩⟩

/-- Modelled from the spec: the macro `PageIndexBase` of `tract.h`,
`base = chunk.base + index * pageSize`. -/
def PageIndexBase (chunk : Chunk) (i : Nat) : Nat := AddrAdd chunk.base (i * chunk.pageSize)

/-- Modelled from the spec: the macro `INDEX_OF_ADDR` of `tract.h`. -/
def INDEX_OF_ADDR (chunk : Chunk) (addr : Nat) : Nat := (addr - chunk.base) / chunk.pageSize

/-- Modelled from the spec: the macro `ChunkSizeToPages` of `tract.h`. -/
def ChunkSizeToPages (chunk : Chunk) (size : Nat) : Nat := size / chunk.pageSize

/-- Modelled from the spec: the fixed-size block pool of `poolmfs.c` that
holds the nodes of the block sets; it "does not recursively allocate from the
arena", so all that matters of it here is how many units it has in hand. -/
structure MFSStruct where
  pool : Nat
  unitSize : Nat
  units : Nat
deriving DecidableEq, Repr

/-- Modelled from the spec: `MFSExtend` of `poolmfs.c`, giving the pool a
block of memory to cut into units. -/
def MFSExtend (mfs : MFSStruct) (size : Nat) : MFSStruct :=
  { mfs with units := mfs.units + size / mfs.unitSize }

/-- The fields of `ArenaStruct` that `arena.c` reads or writes. -/
structure Arena where
  committed : Nat
  commitLimit : Nat
  spareCommitted : Nat
  spareCommitLimit : Nat
  alignment : Nat
  zoneShift : Nat
  poolReady : Bool
  lastTract : Option Tract
  lastTractBase : Nat
  hasFreeCBS : Bool
  freeZones : Nat
  primary : Option Nat
  chunkRing : List Chunk
  freeRing : Nat → List Tract
  freeCBS : CBS
  zoneCBS : Nat → CBS
  cbsBlockPoolStruct : MFSStruct

/-- The chunk at a place of the chunk ring; a place outside the ring gives
the blank chunk, standing for the indeterminate value the C code would read. -/
def Arena.chunk (arena : Arena) (i : Nat) : Chunk := arena.chunkRing.getD i default

def ArenaAlign (arena : Arena) : Nat := arena.alignment

/-- Modelled from the spec: `tract->base`, which `TractInit` sets to the base
of the page of the tract. -/
def TractBase (arena : Arena) (tract : Tract) : Nat :=
  PageIndexBase (arena.chunk tract.chunk) tract.index

/-- The place in the ring of the first chunk that holds the address. -/
def chunkIndexOfAddr (addr : Nat) : List Chunk → Option Nat
  | [] => none
  | c :: cs =>
    if c.base ≤ addr ∧ addr < c.limit then some 0
    else match chunkIndexOfAddr addr cs with
      | none => none
      | some i => some (i + 1)

/-- Modelled from the spec: the macro `CHUNK_OF_ADDR` of `tract.h`.  When no
chunk holds the address the result is a place outside the ring. -/
def CHUNK_OF_ADDR (arena : Arena) (addr : Nat) : Nat :=
  (chunkIndexOfAddr addr arena.chunkRing).getD arena.chunkRing.length

/-- Replace the chunk at a place of the ring. -/
def Arena.setChunk (arena : Arena) (i : Nat) (c : Chunk) : Arena :=
  { arena with chunkRing := arena.chunkRing.set i c }

/-- Set the owner of one page of a chunk. -/
def Chunk.setPage (c : Chunk) (i : Nat) (p : Option Nat) : Chunk :=
  { c with pageTable := fun j => if j = i then p else c.pageTable j }

/-- Replace one of the zone block sets. -/
def Arena.setZoneCBS (arena : Arena) (z : Nat) (cbs : CBS) : Arena :=
  { arena with zoneCBS := fun i => if i = z then cbs else arena.zoneCBS i }

/-- The class methods that `arena.c` calls through `arena->class`. -/
structure ArenaClass where
  grow : Arena → SegPrefStruct → Nat → Res × Arena
  pagesMarkAllocated : Arena → Nat → Nat → Nat → Nat → Res × Arena
  free : Arena → Nat → Nat → Nat → Arena
  purgeSpare : Arena → Nat → Nat × Arena
  reserved : Arena → Nat

/-- The entry points of the reservoir (`reserv.c`) that `arena.c` calls.
`deposit` gives back what is left of the range: its new base and size. -/
structure ReservoirOps where
  pool : Nat
  ensureFull : Arena → Res × Arena
  withdraw : Arena → Nat → Nat → Res × Tract × Arena
  deposit : Arena → Nat → Nat → Bool × Nat × Nat × Arena

/-- Which block set of the arena a call was made on. -/
inductive WhichCBS where
  | free
  | zone (z : Nat)
deriving DecidableEq, Repr

/-- The calls that the ghost list records. -/
inductive Call where
  | search (zones : Nat) (size : Nat)
  | grow (pref : SegPrefStruct) (size : Nat)
  | pagesMarkAllocated (chunk : Nat) (baseIndex : Nat) (pages : Nat) (pool : Nat)
  | free (base : Nat) (size : Nat) (pool : Nat)
  | purgeSpare (size : Nat)
  | cbsInsert (which : WhichCBS) (range : RangeStruct) (res : Res)
  | cbsDelete (which : WhichCBS) (range : RangeStruct) (res : Res)
  | mfsExtend (base : Nat) (size : Nat)
  | tractInit (base : Nat) (pool : Nat)
deriving DecidableEq, Repr

/-- The arena together with the calls made so far, most recent first. -/
structure State where
  arena : Arena
  calls : List Call

def State.log (st : State) (c : Call) : State := { st with calls := c :: st.calls }

def State.set (st : State) (arena : Arena) : State := { st with arena := arena }

/-! ## Calls on the block sets and the class, with their record -/

/-- The block set of the arena that `which` names. -/
def Arena.cbs (arena : Arena) : WhichCBS → CBS
  | .free => arena.freeCBS
  | .zone z => arena.zoneCBS z

/-- Store a block set and the units left in the block pool. -/
def Arena.setCBS (arena : Arena) (which : WhichCBS) (cbs : CBS) (units : Nat) : Arena :=
  match which with
  | .free =>
    { arena with freeCBS := cbs,
                 cbsBlockPoolStruct := { arena.cbsBlockPoolStruct with units := units } }
  | .zone z =>
    { arena.setZoneCBS z cbs with
      cbsBlockPoolStruct := { arena.cbsBlockPoolStruct with units := units } }

/-- A call of `CBSInsert` on a block set of the arena. -/
def arenaCBSInsert (which : WhichCBS) (r : RangeStruct) (st : State) : Res × RangeStruct × State :=
  let out := CBSInsert st.arena.cbsBlockPoolStruct.units (st.arena.cbs which) r
  (out.1, out.2.1,
   (st.set (st.arena.setCBS which out.2.2.1 out.2.2.2)).log (Call.cbsInsert which r out.1))

/-- A call of `CBSDelete` on a block set of the arena. -/
def arenaCBSDelete (which : WhichCBS) (r : RangeStruct) (st : State) : Res × RangeStruct × State :=
  let out := CBSDelete st.arena.cbsBlockPoolStruct.units (st.arena.cbs which) r
  (out.1, out.2.1,
   (st.set (st.arena.setCBS which out.2.2.1 out.2.2.2)).log (Call.cbsDelete which r out.1))

/-- A call of the class method `pagesMarkAllocated`. -/
def callPagesMarkAllocated (cls : ArenaClass) (chunk : Nat) (baseIndex : Nat) (pages : Nat)
    (pool : Nat) (st : State) : Res × State :=
  let out := cls.pagesMarkAllocated st.arena chunk baseIndex pages pool
  (out.1, (st.set out.2).log (Call.pagesMarkAllocated chunk baseIndex pages pool))

/-- A call of the class method `grow`. -/
def callGrow (cls : ArenaClass) (pref : SegPrefStruct) (size : Nat) (st : State) : Res × State :=
  let out := cls.grow st.arena pref size
  (out.1, (st.set out.2).log (Call.grow pref size))

/-- A call of the class method `free`. -/
def callFree (cls : ArenaClass) (base : Nat) (size : Nat) (pool : Nat) (st : State) : State :=
  (st.set (cls.free st.arena base size pool)).log (Call.free base size pool)

/-- A call of the class method `purgeSpare`. -/
def callPurgeSpare (cls : ArenaClass) (size : Nat) (st : State) : Nat × State :=
  let out := cls.purgeSpare st.arena size
  (out.1, (st.set out.2).log (Call.purgeSpare size))

/-! ## The bootstrap page allocator and `ArenaFreeCBSInsert` -/

/-- Modelled from the spec: `BTFindShortResRange` of `bt.c` for a run of one
bit, "scans chunk bitmaps directly for an unallocated page": the first index
from `i` on, below `limit`, whose page has no pool. -/
def btFindRes (table : Nat → Option Nat) (limit : Nat) : Nat → Nat → Option Nat
  | 0, _ => none
  | fuel + 1, i =>
    if limit ≤ i then none
    else if (table i).isNone then some i
    else btFindRes table limit fuel (i + 1)

/-- The source function `arenaAllocPageInChunk`. -/
def arenaAllocPageInChunk (cls : ArenaClass) (chunk : Nat) (pool : Nat) (st : State) :
    Res × Nat × State :=
  let c := st.arena.chunk chunk
  match btFindRes c.pageTable c.pages (c.pages - c.allocBase) c.allocBase with
  | none => (ResRESOURCE, 0, st)
  | some basePageIndex =>
    let out := callPagesMarkAllocated cls chunk basePageIndex 1 pool st
    if out.1 ≠ ResOK then (out.1, 0, out.2)
    else (ResOK, PageIndexBase (out.2.arena.chunk chunk) basePageIndex, out.2)

/-- The `RING_FOR` loop of `arenaAllocPage` over the places of the chunk ring. -/
def arenaAllocPageRing (cls : ArenaClass) (pool : Nat) (primary : Nat) :
    List Nat → Res × Nat × State → Res × Nat × State
  | [], acc => acc
  | i :: is, acc =>
    if i ≠ primary then
      let out := arenaAllocPageInChunk cls i pool acc.2.2
      if out.1 = ResOK then out else arenaAllocPageRing cls pool primary is out
    else arenaAllocPageRing cls pool primary is acc

/-- The source function `arenaAllocPage`. -/
def arenaAllocPage (cls : ArenaClass) (pool : Nat) (st : State) : Res × Nat × State :=
  let primary := st.arena.primary.getD st.arena.chunkRing.length
  let out := arenaAllocPageInChunk cls primary pool st
  if out.1 ≠ ResOK then
    arenaAllocPageRing cls pool primary (List.range st.arena.chunkRing.length) out
  else out

/-- The effect of `MFSExtend(pool, base, size)` on the block pool of the arena. -/
def arenaMFSExtend (base : Nat) (size : Nat) (st : State) : State :=
  (st.set { st.arena with cbsBlockPoolStruct := MFSExtend st.arena.cbsBlockPoolStruct size }).log
    (Call.mfsExtend base size)

/-- The source function `ArenaFreeCBSInsert`. -/
def ArenaFreeCBSInsert (cls : ArenaClass) (base limit : Nat) (st : State) : Res × State :=
  let pool := st.arena.cbsBlockPoolStruct.pool
  let ins := arenaCBSInsert .free ⟨base, limit⟩ st
  if ins.1 = ResLIMIT then
    let page := arenaAllocPage cls pool ins.2.2
    if page.1 ≠ ResOK then (page.1, page.2.2)
    else
      let pageBase := page.2.1
      let st1 := arenaMFSExtend pageBase page.2.2.arena.alignment page.2.2
      let ins1 := arenaCBSInsert .free ins.2.1 st1
      let del := arenaCBSDelete .free ⟨pageBase, AddrAdd pageBase ins1.2.2.arena.alignment⟩ ins1.2.2
      (ResOK, del.2.2)
  else (ResOK, ins.2.2)

/-! ## Searching the indices -/

/-- The loop of `arenaAllocFindSpare` over the free rings, from ring `i` on. -/
def findSpareFrom (arena : Arena) (zones : Nat) : Nat → Nat → Option Tract
  | 0, _ => none
  | n + 1, i =>
    match arena.freeRing i with
    | page :: _ => if ZoneSetIsMember zones i then some page else findSpareFrom arena zones n (i + 1)
    | [] => findSpareFrom arena zones n (i + 1)

/-- The source function `arenaAllocFindSpare`: the chunk, the base index and
the number of pages of a spare page in the zones. -/
def arenaAllocFindSpare (arena : Arena) (zones : Nat) (size : Nat) :
    Option (Nat × Nat × Nat) :=
  if size = ArenaAlign arena then
    match findSpareFrom arena zones MPS_WORD_WIDTH 0 with
    | some page => some (page.chunk, page.index, 1)
    | none => none
  else none

/-- The loop of `arenaAllocFindInZoneCBS` over the zone block sets, from set
`i` on. -/
def findInZoneCBSFrom (st : State) (zones : Nat) (size : Nat) :
    Nat → Nat → Option (RangeStruct × State)
  | 0, _ => none
  | n + 1, i =>
    if ZoneSetIsMember zones i then
      match CBSFindFirst st.arena.cbsBlockPoolStruct.units (st.arena.zoneCBS i) size with
      | some (range, _, rest, units) => some (range, st.set (st.arena.setCBS (.zone i) rest units))
      | none => findInZoneCBSFrom st zones size n (i + 1)
    else findInZoneCBSFrom st zones size n (i + 1)

/-- The source function `arenaAllocFindInZoneCBS`. -/
def arenaAllocFindInZoneCBS (st : State) (zones : Nat) (size : Nat) :
    Option (RangeStruct × State) :=
  findInZoneCBSFrom st zones size MPS_WORD_WIDTH 0

/-- The block of `arenaAllocFindInFreeCBS` under `if (allocLimit < limit)`:
the tail `[allocLimit, limit)` is deleted from the free block set and inserted
into the block set of its zone; neither result is acted on. -/
def arenaMoveTail (allocLimit limit : Nat) (st : State) : State :=
  if allocLimit < limit then
    let restRange : RangeStruct := ⟨allocLimit, limit⟩
    let del := arenaCBSDelete .free restRange st
    (arenaCBSInsert (.zone (AddrZone del.2.2.arena.zoneShift restRange.base)) restRange
      del.2.2).2.2
  else st

/-- The source function `arenaAllocFindInFreeCBS`. -/
def arenaAllocFindInFreeCBS (st : State) (zones : Nat) (size : Nat) :
    Option (RangeStruct × State) :=
  match CBSFindFirstInZones st.arena.cbsBlockPoolStruct.units st.arena.freeCBS size
      st.arena.zoneShift zones with
  | none => none
  | some (range, oldRange, rest, units) =>
    let st1 := st.set (st.arena.setCBS .free rest units)
    let allocLimit := range.limit
    let stripeLimit := AddrAlignUp allocLimit (2 ^ st1.arena.zoneShift % WordRange)
    let oldLimit := oldRange.limit
    let limit := if oldLimit < stripeLimit then oldLimit else stripeLimit
    some (range, arenaMoveTail allocLimit limit st1)

/-! ## Allocation -/

/-- What a successful search gives: the tract of the first page and, as ghost
data, the range that was chosen. -/
structure Found where
  tract : Tract
  range : RangeStruct
deriving DecidableEq, Repr

/-- The first half of `arenaAllocFromCBS`: the search of the free rings, the
zone block sets and the free block set, giving the chunk, the base index, the
number of pages and the range. -/
def arenaAllocFind (zones : Nat) (size : Nat) (st : State) :
    Option (Nat × Nat × Nat × RangeStruct × State) :=
  match arenaAllocFindSpare st.arena zones size with
  | some (chunk, baseIndex, pages) =>
    let base := PageIndexBase (st.arena.chunk chunk) baseIndex
    some (chunk, baseIndex, pages,
          ⟨base, AddrAdd base ((st.arena.chunk chunk).pageSize * pages)⟩, st)
  | none =>
    match arenaAllocFindInZoneCBS st zones size with
    | some (range, st1) =>
      let chunk := CHUNK_OF_ADDR st1.arena range.base
      some (chunk, INDEX_OF_ADDR (st1.arena.chunk chunk) range.base,
            ChunkSizeToPages (st1.arena.chunk chunk) (RangeSize range), range, st1)
    | none =>
      match arenaAllocFindInFreeCBS st zones size with
      | some (range, st1) =>
        let chunk := CHUNK_OF_ADDR st1.arena range.base
        some (chunk, INDEX_OF_ADDR (st1.arena.chunk chunk) range.base,
              ChunkSizeToPages (st1.arena.chunk chunk) (RangeSize range), range, st1)
      | none => none

/-- The source function `arenaAllocFromCBS`.  After the label `failMark` the
range is put into the free block set, whichever index it was found in. -/
def arenaAllocFromCBS (cls : ArenaClass) (zones : Nat) (size : Nat) (pool : Nat)
    (st : State) : Res × Option Found × State :=
  match arenaAllocFind zones size (st.log (Call.search zones size)) with
  | none => (ResRESOURCE, none, st.log (Call.search zones size))
  | some (chunk, baseIndex, pages, range, st1) =>
    let mark := callPagesMarkAllocated cls chunk baseIndex pages pool st1
    if mark.1 ≠ ResOK then
      (mark.1, none, (arenaCBSInsert .free range mark.2).2.2)
    else
      let arena := mark.2.arena
      (ResOK, some ⟨⟨chunk, baseIndex⟩, range⟩,
       mark.2.set { arena with
         freeZones := ZoneSetDiff arena.freeZones
                        (ZoneSetOfRange arena.zoneShift range.base range.limit) })

/-- The test at the head of `arenaAllocPolicy`: the allocation "would
definitely exceed the commit limit". -/
def commitGate (arena : Arena) (size : Nat) : Bool :=
  if arena.spareCommitted < size then
    let necessaryCommitIncrease := SizeSub size arena.spareCommitted
    decide (SizeAdd arena.committed necessaryCommitIncrease > arena.commitLimit
            ∨ SizeAdd arena.committed necessaryCommitIncrease < arena.committed)
  else false

/-- An attempt, or what was reached before it when that was a success. -/
def orTry (r : Res × Option Found × State) (attempt : State → Res × Option Found × State) :
    Res × Option Found × State :=
  if r.1 = ResOK then r else attempt r.2.2

/-- The last resort of `arenaAllocPolicy`: "try anywhere". -/
def policyLast (cls : ArenaClass) (size : Nat) (pool : Nat) (st : State) :
    Res × Option Found × State :=
  arenaAllocFromCBS cls ZoneSetUNIV size pool st

/-- Plan D of `arenaAllocPolicy` and what follows it. -/
def policyPlanD (cls : ArenaClass) (pref : SegPrefStruct) (size : Nat) (pool : Nat)
    (moreZones : Nat) (st : State) : Res × Option Found × State :=
  let evenMoreZones := ZoneSetUnion moreZones (ZoneSetDiff ZoneSetUNIV pref.avoid)
  if evenMoreZones ≠ moreZones then
    orTry (arenaAllocFromCBS cls evenMoreZones size pool st) (policyLast cls size pool)
  else policyLast cls size pool st

/-- The second search of Plan C.  The source computes the union of the zones
with the free zones that are not avoided into `zones` and then searches
`moreZones`. -/
def policyPlanCAgain (cls : ArenaClass) (pref : SegPrefStruct) (size : Nat) (pool : Nat)
    (moreZones : Nat) (st : State) : Res × Option Found × State :=
  let zones := pref.zones
  if moreZones ≠ zones then
    let _zones := ZoneSetUnion zones (ZoneSetDiff st.arena.freeZones pref.avoid)
    orTry (arenaAllocFromCBS cls moreZones size pool st) (policyPlanD cls pref size pool moreZones)
  else policyPlanD cls pref size pool moreZones st

/-- Plan C of `arenaAllocPolicy` and what follows it. -/
def policyPlanC (cls : ArenaClass) (pref : SegPrefStruct) (size : Nat) (pool : Nat)
    (moreZones : Nat) (st : State) : Res × Option Found × State :=
  if moreZones ≠ ZoneSetEMPTY then
    let grown := callGrow cls pref size st
    if grown.1 ≠ ResOK then (grown.1, none, grown.2)
    else
      let zones := pref.zones
      if zones ≠ ZoneSetEMPTY then
        orTry (arenaAllocFromCBS cls zones size pool grown.2)
          (policyPlanCAgain cls pref size pool moreZones)
      else policyPlanCAgain cls pref size pool moreZones grown.2
  else policyPlanD cls pref size pool moreZones st

/-- Plan B of `arenaAllocPolicy` and what follows it. -/
def policyPlanB (cls : ArenaClass) (pref : SegPrefStruct) (size : Nat) (pool : Nat)
    (st : State) : Res × Option Found × State :=
  let zones := pref.zones
  let moreZones := ZoneSetUnion zones (ZoneSetDiff st.arena.freeZones pref.avoid)
  if moreZones ≠ zones then
    orTry (arenaAllocFromCBS cls moreZones size pool st) (policyPlanC cls pref size pool moreZones)
  else policyPlanC cls pref size pool moreZones st

/-- Plan A of `arenaAllocPolicy` and what follows it: the search ladder. -/
def policyPlanA (cls : ArenaClass) (pref : SegPrefStruct) (size : Nat) (pool : Nat)
    (st : State) : Res × Option Found × State :=
  let zones := pref.zones
  if zones ≠ ZoneSetEMPTY then
    orTry (arenaAllocFromCBS cls zones size pool st) (policyPlanB cls pref size pool)
  else policyPlanB cls pref size pool st

/-- The source function `arenaAllocPolicy`. -/
def arenaAllocPolicy (cls : ArenaClass) (pref : SegPrefStruct) (size : Nat) (pool : Nat)
    (st : State) : Res × Option Found × State :=
  if commitGate st.arena size then (ResCOMMIT_LIMIT, none, st)
  else policyPlanA cls pref size pool st

/-- The tail of `ArenaAlloc` from `base = TractBase(tract)` on. -/
def arenaAllocDone (tract : Tract) (st : State) : Res × Option Nat × State :=
  let base := TractBase st.arena tract
  (ResOK, some base,
   st.set { st.arena with lastTract := some tract, lastTractBase := base })

instance : Inhabited Found := ⟨⟨⟨0, 0⟩, ⟨0, 0⟩⟩⟩

/-- The source function `ArenaAlloc`, from the call of the policy on.  The
policy gives a tract whenever it gives `ResOK`. -/
def arenaAllocBody (cls : ArenaClass) (rsv : ReservoirOps) (pref : SegPrefStruct) (size : Nat)
    (pool : Nat) (withReservoirPermit : Bool) (st : State) : Res × Option Nat × State :=
  let out := arenaAllocPolicy cls pref size pool st
  if out.1 ≠ ResOK then
    if withReservoirPermit then
      let got := rsv.withdraw out.2.2.arena size pool
      if got.1 ≠ ResOK then (out.1, none, out.2.2.set got.2.2)
      else arenaAllocDone got.2.1 (out.2.2.set got.2.2)
    else (out.1, none, out.2.2)
  else arenaAllocDone (out.2.1.getD default).tract out.2.2

/-- The source function `ArenaAlloc`. -/
def ArenaAlloc (cls : ArenaClass) (rsv : ReservoirOps) (pref : SegPrefStruct) (size : Nat)
    (pool : Nat) (withReservoirPermit : Bool) (st : State) : Res × Option Nat × State :=
  if pool ≠ rsv.pool then
    let full := rsv.ensureFull st.arena
    if full.1 ≠ ResOK ∧ withReservoirPermit = false then (full.1, none, st.set full.2)
    else arenaAllocBody cls rsv pref size pool withReservoirPermit (st.set full.2)
  else arenaAllocBody cls rsv pref size pool withReservoirPermit st

/-! ## Freeing -/

/-- The effect of `TractFinish(tract); TractInit(tract, pool, base)` on the
tract that `TractOfBaseAddr(arena, base)` gives: the page at `base` now belongs
to `pool`. -/
def arenaTractInit (base : Nat) (pool : Nat) (st : State) : State :=
  let chunk := CHUNK_OF_ADDR st.arena base
  let c := st.arena.chunk chunk
  (st.set (st.arena.setChunk chunk (c.setPage (INDEX_OF_ADDR c base) (some pool)))).log
    (Call.tractInit base pool)

/-- The source function `ArenaFree`, from the insertion into the index on:
the range `[base, limit)` of `size` bytes goes to the zone block set of its
base; when that fails, its first page goes to the block pool and the rest to
the free block set. -/
def arenaFreeInsert (cls : ArenaClass) (base : Nat) (size : Nat) (limit : Nat) (pool : Nat)
    (st : State) : State :=
  let ins := arenaCBSInsert (.zone (AddrZone st.arena.zoneShift base)) ⟨base, limit⟩ st
  if ins.1 ≠ ResOK then
    let mfs := ins.2.2.arena.cbsBlockPoolStruct.pool
    let st1 := arenaTractInit base mfs ins.2.2
    let st2 := arenaMFSExtend base (ArenaAlign st1.arena) st1
    let base1 := AddrAdd base (ArenaAlign st2.arena)
    let size1 := SizeSub size (ArenaAlign st2.arena)
    if size1 = 0 then st2
    else
      let ins1 := arenaCBSInsert .free ⟨base1, limit⟩ st2
      callFree cls base1 size1 pool ins1.2.2
  else callFree cls base size pool ins.2.2

/-- The source function `ArenaFree`. -/
def ArenaFree (cls : ArenaClass) (rsv : ReservoirOps) (base : Nat) (size : Nat) (pool : Nat)
    (st : State) : State :=
  let limit := AddrAdd base size
  let st1 :=
    if st.arena.lastTractBase ≥ base ∧ st.arena.lastTractBase < limit then
      st.set { st.arena with lastTract := none, lastTractBase := 0 }
    else st
  if pool ≠ rsv.pool then
    let full := rsv.ensureFull st1.arena
    if full.1 ≠ ResOK then
      let dep := rsv.deposit full.2 base size
      if dep.1 = false then st1.set dep.2.2.2
      else arenaFreeInsert cls dep.2.1 dep.2.2.1 limit pool (st1.set dep.2.2.2)
    else arenaFreeInsert cls base size limit pool (st1.set full.2)
  else arenaFreeInsert cls base size limit pool st1

/-! ## Commit limits -/

/-- The source function `ArenaSetSpareCommitLimit`. -/
def ArenaSetSpareCommitLimit (cls : ArenaClass) (limit : Nat) (st : State) : State :=
  let st1 := st.set { st.arena with spareCommitLimit := limit }
  if st1.arena.spareCommitLimit < st1.arena.spareCommitted then
    let excess := SizeSub st1.arena.spareCommitted st1.arena.spareCommitLimit
    (callPurgeSpare cls excess st1).2
  else st1

/-- The source function `ArenaNoPurgeSpare`. -/
def ArenaNoPurgeSpare (arena : Arena) (_size : Nat) : Nat × Arena := (0, arena)

/-- The source function `ArenaNoGrow`. -/
def ArenaNoGrow (arena : Arena) (_pref : SegPrefStruct) (_size : Nat) : Res × Arena :=
  (ResRESOURCE, arena)

/-- The source function `ArenaSetCommitLimit`. -/
def ArenaSetCommitLimit (cls : ArenaClass) (limit : Nat) (st : State) : Res × State :=
  let committed := st.arena.committed
  if limit < committed then
    if limit ≥ SizeSub committed st.arena.spareCommitted then
      let excess := SizeSub committed limit
      let st1 := (callPurgeSpare cls excess st).2
      (ResOK, st1.set { st1.arena with commitLimit := limit })
    else (ResFAIL, st)
  else (ResOK, st.set { st.arena with commitLimit := limit })

/-- The source function `ArenaAvail`. -/
def ArenaAvail (cls : ArenaClass) (arena : Arena) : Nat :=
  let sSwap := cls.reserved arena
  let sSwap1 := if sSwap > arena.commitLimit then arena.commitLimit else sSwap
  SizeAdd (SizeSub sSwap1 arena.committed) arena.spareCommitted

/-! ## Initialisation -/

/-- What `ArenaInit` gets from outside `arena.c`: the constants of `config.h`,
the identity and unit size of the block pool, and the results of the
initialisers it calls. -/
structure InitEnv where
  ARENA_INIT_SPARE_COMMIT_LIMIT : Nat
  ARENA_ZONESHIFT : Nat
  cbsBlockPool : Nat
  cbsBlockSize : Nat
  globalsInit : Res
  cbsInit : Res
  reservoirInit : Res

/-- The source function `ArenaInit`: the assignments to the fields of the
arena, over whatever the memory of the descriptor held, and the result. -/
def ArenaInit (env : InitEnv) (alignment : Nat) (arena : Arena) : Res × Arena :=
  let arena1 : Arena :=
    { arena with
      committed := 0
      commitLimit := WordRange - 1
      spareCommitted := 0
      spareCommitLimit := env.ARENA_INIT_SPARE_COMMIT_LIMIT
      alignment := alignment
      zoneShift := env.ARENA_ZONESHIFT
      poolReady := false
      lastTract := none
      lastTractBase := 0
      hasFreeCBS := false
      freeZones := ZoneSetUNIV
      primary := none
      chunkRing := []
      freeRing := fun _ => [] }
  if env.globalsInit ≠ ResOK then (env.globalsInit, arena1)
  else
    let arena2 : Arena :=
      { arena1 with
        cbsBlockPoolStruct := ⟨env.cbsBlockPool, env.cbsBlockSize, 0⟩
        freeCBS := []
        zoneCBS := fun _ => [] }
    if env.cbsInit ≠ ResOK then (env.cbsInit, arena2)
    else if env.reservoirInit ≠ ResOK then (env.reservoirInit, arena2)
    else (ResOK, arena2)

/-! ## Sequences of calls -/

/-- A call of the core interface by a pool. -/
inductive Op where
  | alloc (pref : SegPrefStruct) (size : Nat) (pool : Nat) (withReservoirPermit : Bool)
  | free (base : Nat) (size : Nat) (pool : Nat)
deriving DecidableEq, Repr

/-- The state after one call. -/
def step (cls : ArenaClass) (rsv : ReservoirOps) (st : State) : Op → State
  | .alloc pref size pool permit => (ArenaAlloc cls rsv pref size pool permit st).2.2
  | .free base size pool => ArenaFree cls rsv base size pool st

/-- The state after a sequence of calls. -/
def run (cls : ArenaClass) (rsv : ReservoirOps) (st : State) (ops : List Op) : State :=
  ops.foldl (step cls rsv) st

/-! ## Properties of the arena -/

/-- The address is free according to the indices: it lies in the free block
set or in one of the zone block sets. -/
def Arena.FreeAddr (arena : Arena) (a : Nat) : Prop :=
  arena.freeCBS.Mem a ∨ ∃ z, z < MPS_WORD_WIDTH ∧ (arena.zoneCBS z).Mem a

instance (arena : Arena) (a : Nat) : Decidable (arena.FreeAddr a) := by
  unfold Arena.FreeAddr; infer_instance

/-- The address lies in a page that the page table of its chunk gives to a
pool. -/
def Arena.AllocatedAddr (arena : Arena) (a : Nat) : Prop :=
  ((arena.chunk (CHUNK_OF_ADDR arena a)).pageTable
    (INDEX_OF_ADDR (arena.chunk (CHUNK_OF_ADDR arena a)) a)).isSome = true

/-- Commit accounting: `spareCommitted ≤ committed ≤ commitLimit`. -/
def Arena.CommitInv (arena : Arena) : Prop :=
  arena.spareCommitted ≤ arena.committed ∧ arena.committed ≤ arena.commitLimit

/-- Zone confinement of the zone block sets: every address of a block of
`zoneCBS[z]` is in zone `z`. -/
def Arena.ZoneConfined (arena : Arena) : Prop :=
  ∀ z b a, b ∈ arena.zoneCBS z → RangeStruct.Mem b a → AddrZone arena.zoneShift a = z

/-- Zone confinement of the free rings: every address of a page on
`freeRing[z]` is in zone `z`. -/
def Arena.RingConfined (arena : Arena) : Prop :=
  ∀ z page a, page ∈ arena.freeRing z →
    PageIndexBase (arena.chunk page.chunk) page.index ≤ a →
    a < PageIndexBase (arena.chunk page.chunk) page.index + (arena.chunk page.chunk).pageSize →
    AddrZone arena.zoneShift a = z

/-- The place and page size of a chunk. -/
def Chunk.geom (c : Chunk) : Nat × Nat × Nat := (c.base, c.limit, c.pageSize)

/-- The second arena has the indices of the first (block sets, block pool,
free rings, free zones), its alignment and zone shift, and its chunks in the
same places. -/
def Arena.SameIndices (a a1 : Arena) : Prop :=
  a1.freeCBS = a.freeCBS ∧ a1.zoneCBS = a.zoneCBS
  ∧ a1.cbsBlockPoolStruct = a.cbsBlockPoolStruct ∧ a1.freeRing = a.freeRing
  ∧ a1.freeZones = a.freeZones ∧ a1.zoneShift = a.zoneShift ∧ a1.alignment = a.alignment
  ∧ a1.chunkRing.map Chunk.geom = a.chunkRing.map Chunk.geom

/-- The methods of the class leave the indices of the arena alone: they work
on the page tables and the commit accounts only.  For `grow` this says that it
adds no address space. -/
def ClassKeepsIndices (cls : ArenaClass) : Prop :=
  (∀ (a : Arena) pref size, a.SameIndices (cls.grow a pref size).2)
  ∧ (∀ (a : Arena) chunk baseIndex pages pool,
      a.SameIndices (cls.pagesMarkAllocated a chunk baseIndex pages pool).2)
  ∧ (∀ (a : Arena) base size pool, a.SameIndices (cls.free a base size pool))

/-- The reservoir is full and stays so: `ReservoirEnsureFull` gives `ResOK`
and changes nothing. -/
def ReservoirIdle (rsv : ReservoirOps) : Prop := ∀ a, rsv.ensureFull a = (ResOK, a)

/-- A block of a block set is made of pages of chunks of the arena. -/
def BlockAligned (alignment : Nat) (geoms : List (Nat × Nat × Nat)) (b : RangeStruct) : Prop :=
  alignment ∣ b.base ∧ alignment ∣ b.limit ∧ b.limit < WordRange
  ∧ ∀ x, b.Mem x → ∃ g ∈ geoms, g.1 ≤ x ∧ x < g.2.1

/-- The indices are well formed: the alignment is positive and divides the
stripe size, the zone shift is less than the width of the word, the chunks
start on a page boundary and have pages of the size of the alignment, the
blocks of the block sets are made of pages of the chunks, and the free rings
are empty. -/
def Arena.IndexAligned (a : Arena) : Prop :=
  0 < a.alignment ∧ a.zoneShift < MPS_WORD_WIDTH ∧ a.alignment ∣ 2 ^ a.zoneShift
  ∧ (∀ g ∈ a.chunkRing.map Chunk.geom, g.2.2 = a.alignment ∧ a.alignment ∣ g.1)
  ∧ (∀ which b, b ∈ a.cbs which → BlockAligned a.alignment (a.chunkRing.map Chunk.geom) b)
  ∧ (∀ z, a.freeRing z = [])

/-- No `CBSInsert` on record reported `ResLIMIT`. -/
def NoLimit (calls : List Call) : Prop :=
  ∀ which range, Call.cbsInsert which range ResLIMIT ∉ calls

/-- The block sets that the arena has: the free one and those of the zones. -/
def WhichCBS.Valid : WhichCBS → Prop
  | .free => True
  | .zone z => z < MPS_WORD_WIDTH

/-- A passage from one state to another that leaves the free address space as
it was, unless a `CBSInsert` reported `ResLIMIT` on the way: failed searches
for `size` bytes, and calls of class methods that keep the indices. -/
def Quiet (size : Nat) (st st1 : State) : Prop :=
  st.calls <:+ st1.calls
  ∧ (NoLimit st1.calls → st.arena.IndexAligned → st.arena.alignment ∣ size →
      st1.arena.IndexAligned
      ∧ st1.arena.zoneShift = st.arena.zoneShift
      ∧ (∀ x, st1.arena.FreeAddr x ↔ st.arena.FreeAddr x)
      ∧ st1.arena.freeZones = st.arena.freeZones
      ∧ st1.arena.alignment = st.arena.alignment)

/-- A passage from one state to another that takes `found.range`, of `size`
bytes, out of the free address space, unless a `CBSInsert` reported `ResLIMIT`
on the way: a successful search. -/
def Took (size : Nat) (found : Found) (st st1 : State) : Prop :=
  st.calls <:+ st1.calls
  ∧ (NoLimit st1.calls → st.arena.IndexAligned → st.arena.alignment ∣ size →
      st1.arena.IndexAligned
      ∧ st1.arena.zoneShift = st.arena.zoneShift
      ∧ (∀ x, st.arena.FreeAddr x ↔ st1.arena.FreeAddr x ∨ found.range.Mem x)
      ∧ st1.arena.freeZones
          = ZoneSetDiff st.arena.freeZones
              (ZoneSetOfRange st.arena.zoneShift found.range.base found.range.limit)
      ∧ TractBase st1.arena found.tract = found.range.base
      ∧ found.range.limit = found.range.base + size
      ∧ found.range.limit < WordRange)

/-- A search of an index that picks `range`, of `size` bytes, out of the free
address space, unless a `CBSInsert` reported `ResLIMIT` on the way. -/
def Picked (size : Nat) (range : RangeStruct) (st st1 : State) : Prop :=
  st.calls <:+ st1.calls
  ∧ (NoLimit st1.calls → st.arena.IndexAligned → st.arena.alignment ∣ size →
      st1.arena.IndexAligned
      ∧ st1.arena.zoneShift = st.arena.zoneShift
      ∧ st1.arena.freeZones = st.arena.freeZones
      ∧ st1.arena.alignment = st.arena.alignment
      ∧ st1.arena.chunkRing = st.arena.chunkRing
      ∧ (∀ x, st.arena.FreeAddr x ↔ st1.arena.FreeAddr x ∨ range.Mem x)
      ∧ BlockAligned st.arena.alignment (st.arena.chunkRing.map Chunk.geom) range
      ∧ range.limit = range.base + size)

/-- What a plan of the policy comes to: a range taken when it gives `ResOK`,
a quiet passage otherwise. -/
def Outcome (size : Nat) (st : State) (r : Res × Option Found × State) : Prop :=
  (r.1 = ResOK → ∃ found, r.2.1 = some found ∧ Took size found st r.2.2)
  ∧ (r.1 ≠ ResOK → Quiet size st r.2.2)

/-! ## Arenas and classes to run the code on -/

/-- The method `pagesMarkAllocated` of a class without spare memory: the pages
get the pool and are committed. -/
def plainMark (arena : Arena) (chunk baseIndex pages pool : Nat) : Res × Arena :=
  let c := arena.chunk chunk
  (ResOK,
   { arena.setChunk chunk
       { c with pageTable := fun j =>
           if baseIndex ≤ j ∧ j < baseIndex + pages then some pool else c.pageTable j } with
     committed := SizeAdd arena.committed (pages * c.pageSize) })

/-- The method `free` of a class without spare memory: the pages lose their
pool and their memory is given back. -/
def plainFree (arena : Arena) (base size _pool : Nat) : Arena :=
  let chunk := CHUNK_OF_ADDR arena base
  let c := arena.chunk chunk
  let baseIndex := INDEX_OF_ADDR c base
  { arena.setChunk chunk
      { c with pageTable := fun j =>
          if baseIndex ≤ j ∧ j < baseIndex + size / c.pageSize then none else c.pageTable j } with
    committed := SizeSub arena.committed size }

/-- The address space reserved: the sizes of the chunks. -/
def plainReserved (arena : Arena) : Nat := (arena.chunkRing.map (fun c => c.limit - c.base)).sum

/-- A class without spare memory that cannot grow. -/
def plainClass : ArenaClass where
  grow := ArenaNoGrow
  pagesMarkAllocated := plainMark
  free := plainFree
  purgeSpare := ArenaNoPurgeSpare
  reserved := plainReserved

/-- A reservoir of limit zero: it is always full, holds nothing and takes
nothing. -/
def noReservoir : ReservoirOps where
  pool := 1000
  ensureFull := fun arena => (ResOK, arena)
  withdraw := fun arena _ _ => (ResRESOURCE, ⟨0, 0⟩, arena)
  deposit := fun arena base size => (true, base, size, arena)

/-- Memory of a descriptor before `ArenaInit`. -/
def blankArena : Arena :=
  ⟨0, 0, 0, 0, 0, 0, false, none, 0, false, 0, none, [], fun _ => [], [], fun _ => [],
   ⟨0, 0, 0⟩⟩

/-- Constants for `ArenaInit`: block pool 1001 with blocks of 48 bytes. -/
def plainEnv : InitEnv := ⟨0, 20, 1001, 48, ResOK, ResOK, ResOK⟩

/-- The arena as the `init` method of a class leaves it: `ArenaInit` with pages
of 4096 bytes, then the zone shift, and one chunk at `0x10000` of `pages`
pages whose first page holds the page table. -/
def classInitArena (zoneShift pages : Nat) : Arena :=
  { (ArenaInit plainEnv 4096 blankArena).2 with
    zoneShift := zoneShift
    primary := some 0
    chunkRing := [⟨0x10000, 0x10000 + pages * 4096, 4096, 1, pages,
                   fun j => if j < 1 then some 1002 else none⟩]
    committed := 4096 }

/-- The arena as `ArenaCreate` leaves it after the class `init`: the free
space of the primary chunk is put into the free block set. -/
def createdArena (cls : ArenaClass) (zoneShift pages : Nat) : State :=
  (ArenaFreeCBSInsert cls
    (PageIndexBase ((classInitArena zoneShift pages).chunk 0)
      ((classInitArena zoneShift pages).chunk 0).allocBase)
    ((classInitArena zoneShift pages).chunk 0).limit
    ⟨{ classInitArena zoneShift pages with hasFreeCBS := true }, []⟩).2

/-- A class that keeps freed pages as spare memory and purges whole pages of
it, as many as fit in the bytes asked for. -/
def pagePurge (arena : Arena) (size : Nat) : Nat × Arena :=
  let released := min (size / 4096 * 4096) (arena.spareCommitted / 4096 * 4096)
  (released,
   { arena with committed := arena.committed - released,
                spareCommitted := arena.spareCommitted - released })

/-- The class of `pagePurge`. -/
def pagePurgeClass : ArenaClass := { plainClass with purgeSpare := pagePurge }

/-- A purge that releases the bytes asked for, or all the spare memory when
that is less. -/
def exactPurge (arena : Arena) (size : Nat) : Nat × Arena :=
  (min size arena.spareCommitted,
   { arena with committed := arena.committed - min size arena.spareCommitted,
                spareCommitted := arena.spareCommitted - min size arena.spareCommitted })

/-- The class of `exactPurge`. -/
def exactPurgeClass : ArenaClass := { plainClass with purgeSpare := exactPurge }

/-- The contract of `purgeSpare` as the spec words it: "Release up to `bytes`
of spare; return amount released", committed and spare memory going down by
the amount returned and the commit limit staying. -/
def PurgeUpTo (cls : ArenaClass) : Prop :=
  ∀ arena size,
    (cls.purgeSpare arena size).1 ≤ size ∧
    (cls.purgeSpare arena size).1 ≤ arena.spareCommitted ∧
    (cls.purgeSpare arena size).2.committed = arena.committed - (cls.purgeSpare arena size).1 ∧
    (cls.purgeSpare arena size).2.spareCommitted
      = arena.spareCommitted - (cls.purgeSpare arena size).1 ∧
    (cls.purgeSpare arena size).2.commitLimit = arena.commitLimit

/-- The contract of `purgeSpare` that `ArenaSetCommitLimit` relies on: the
method releases at least the bytes asked for when that much memory is spare,
and never more than is spare. -/
def PurgeAtLeast (cls : ArenaClass) : Prop :=
  ∀ arena size,
    (size ≤ arena.spareCommitted → size ≤ (cls.purgeSpare arena size).1) ∧
    (cls.purgeSpare arena size).1 ≤ arena.spareCommitted ∧
    (cls.purgeSpare arena size).2.committed = arena.committed - (cls.purgeSpare arena size).1 ∧
    (cls.purgeSpare arena size).2.spareCommitted
      = arena.spareCommitted - (cls.purgeSpare arena size).1 ∧
    (cls.purgeSpare arena size).2.commitLimit = arena.commitLimit

/-- An arena with two pages committed, one of them spare, and no commit limit
to speak of. -/
def spareArena : State :=
  ⟨{ (classInitArena 13 16) with committed := 8192, spareCommitted := 4096 }, []⟩

/-- A created arena of one chunk of 16 pages with stripes of two pages: the
free space `[0x12000, 0x20000)` lies in zones 9 to 15; the record of calls is
empty. -/
def freshArena : State := ⟨(createdArena plainClass 13 16).arena, []⟩

/-- A class whose backing store holds three pages: `pagesMarkAllocated` gives
`ResMEMORY`, changing nothing, when more would be committed. -/
def budgetClass : ArenaClass :=
  { plainClass with
    pagesMarkAllocated := fun arena chunk baseIndex pages pool =>
      if arena.committed + pages * (arena.chunk chunk).pageSize > 12288 then (ResMEMORY, arena)
      else plainMark arena chunk baseIndex pages pool }

/-- A `grow` method that adds a chunk of 16 pages at `0x40000`, puts its free
space into the free block set and marks its zones free. -/
def zoneGrow (arena : Arena) (_pref : SegPrefStruct) (_size : Nat) : Res × Arena :=
  (ResOK,
   { arena with
     chunkRing := arena.chunkRing ++
       [⟨0x40000, 0x50000, 4096, 1, 16, fun j => if j < 1 then some 1002 else none⟩]
     freeCBS :=
       (CBSInsert arena.cbsBlockPoolStruct.units arena.freeCBS ⟨0x41000, 0x50000⟩).2.2.1
     cbsBlockPoolStruct :=
       { arena.cbsBlockPoolStruct with
         units :=
           (CBSInsert arena.cbsBlockPoolStruct.units arena.freeCBS ⟨0x41000, 0x50000⟩).2.2.2 }
     freeZones := ZoneSetUnion arena.freeZones (ZoneSetOfRange arena.zoneShift 0x41000 0x50000) })

/-- The class of `zoneGrow`. -/
def zoneGrowClass : ArenaClass := { plainClass with grow := zoneGrow }

/-- An arena with a page of zone 10 (page 5 of the chunk, at `0x15000`) on the
free ring of zone 0, and empty zone block sets. -/
def ringArena : State :=
  ⟨{ classInitArena 13 16 with freeRing := fun z => if z = 0 then [⟨0, 5⟩] else [] }, []⟩

/-- The calls that use up the block pool of a created arena of 256 pages: 168
pages are allocated one by one, the first page of each of the 84 stripes they
fill is freed, and three pages are asked for. -/
def lostTailOps : List Op :=
  List.replicate 168 (Op.alloc ⟨ZoneSetUNIV, 0, false⟩ 4096 7 false)
  ++ (List.range 84).map (fun k => Op.free (0x12000 + k * 0x2000) 4096 7)
  ++ [Op.alloc ⟨ZoneSetUNIV, 0, false⟩ 12288 7 false]

/-- The method `free` of a class that keeps freed pages as spare memory: the
pages lose their pool and stay committed. -/
def spareFree (arena : Arena) (base size _pool : Nat) : Arena :=
  let chunk := CHUNK_OF_ADDR arena base
  let c := arena.chunk chunk
  let baseIndex := INDEX_OF_ADDR c base
  { arena.setChunk chunk
      { c with pageTable := fun j =>
          if baseIndex ≤ j ∧ j < baseIndex + size / c.pageSize then none else c.pageTable j } with
    spareCommitted := SizeAdd arena.spareCommitted size }

/-- A class that keeps freed pages as spare memory. -/
def spareClass : ArenaClass := { plainClass with free := spareFree }

/-! ## States and classes for the free path, the bootstrap and the limits -/

/-- The created arena after a pool has allocated four pages: it got
`[0x12000, 0x16000)`, the stripes of zones 9 and 10. -/
def crossAllocated : State :=
  (ArenaAlloc plainClass noReservoir ⟨ZoneSetUNIV, 0, false⟩ 16384 7 false freshArena).2.2

/-- The state after the pool has freed the four pages in one call. -/
def crossFreed : State := ArenaFree plainClass noReservoir 0x12000 16384 7 crossAllocated

/-- The calls that use up the block pool of a created arena of 256 pages: 172
pages (86 stripes) are allocated in one call, and the first page of each of the
first 84 stripes is freed; each free takes a block for the block set of a
zone. -/
def drainOps : List Op :=
  Op.alloc ⟨ZoneSetUNIV, 0, false⟩ (172 * 4096) 7 false
  :: (List.range 84).map (fun k => Op.free (0x12000 + k * 0x2000) 4096 7)

/-- A created arena of 256 pages after `drainOps`: the block pool, which got
one page of 85 blocks, has none left; the free block set is
`[0xBE000, 0x110000)`. -/
def drainedArena : State := run plainClass noReservoir (createdArena plainClass 13 256) drainOps

/-- The block of `ArenaFree` under "uncache the tract if in range". -/
def arenaUncache (base size : Nat) (st : State) : State :=
  if st.arena.lastTractBase ≥ base ∧ st.arena.lastTractBase < AddrAdd base size then
    st.set { st.arena with lastTract := none, lastTractBase := 0 }
  else st

/-- The arena of `drainedArena` to which a class has added a second chunk, of
16 pages at `0x200000`, its first page holding its page table; the free space
of the chunk has yet to be put into the free block set. -/
def secondChunkArena : State :=
  ⟨{ drainedArena.arena with
     chunkRing := drainedArena.arena.chunkRing ++
       [⟨0x200000, 0x210000, 4096, 1, 16, fun j => if j < 1 then some 1002 else none⟩] }, []⟩

/-! ## The last-tract cache -/

/-- What the invariant of the last-tract cache reads of the arena: the cached
tract, the cached base, and the base of the cached tract. -/
def Arena.cache (a : Arena) : Option Tract × Nat × Option Nat :=
  (a.lastTract, a.lastTractBase, a.lastTract.map (TractBase a))

/-- The invariant of the last-tract cache: `lastTract` is null iff
`lastTractBase` is 0, and otherwise `lastTractBase` is the base of `lastTract`. -/
def Arena.CacheInv (a : Arena) : Prop :=
  (a.lastTract = none ↔ a.lastTractBase = 0)
  ∧ ∀ tract, a.lastTract = some tract → a.lastTractBase = TractBase a tract

/-- The methods of the class leave the last-tract cache alone, and the cached
tract where it is. -/
def ClassKeepsCache (cls : ArenaClass) : Prop :=
  (∀ (a : Arena) pref size, (cls.grow a pref size).2.cache = a.cache)
  ∧ (∀ (a : Arena) chunk baseIndex pages pool,
      (cls.pagesMarkAllocated a chunk baseIndex pages pool).2.cache = a.cache)
  ∧ (∀ (a : Arena) base size pool, (cls.free a base size pool).cache = a.cache)

/-- The entry points of the reservoir leave the last-tract cache alone, and
the cached tract where it is. -/
def ReservoirKeepsCache (rsv : ReservoirOps) : Prop :=
  (∀ a, (rsv.ensureFull a).2.cache = a.cache)
  ∧ (∀ a size pool, (rsv.withdraw a size pool).2.2.cache = a.cache)
  ∧ (∀ a base size, (rsv.deposit a base size).2.2.2.cache = a.cache)

/-! ## The record of the search ladder -/

/-- The steps of the search ladder on record, the first one first: `some zones`
for a search of the indices in the mask `zones`, `none` for a call of the class
method `grow`. -/
def ladderSteps (calls : List Call) : List (Option Nat) :=
  calls.reverse.filterMap (fun c =>
    match c with
    | Call.search zones _ => some (some zones)
    | Call.grow _ _ => some none
    | _ => none)

/-- The mask of Plan B as the spec words it: `more = pref.zones ∪ (freeZones −
pref.avoid)`. -/
def planBMask (pref : SegPrefStruct) (freeZones : Nat) : Nat :=
  ZoneSetUnion pref.zones (ZoneSetDiff freeZones pref.avoid)

/-- The mask of Plan D as the spec words it: `even = more ∪ (ALL − pref.avoid)`. -/
def planDMask (pref : SegPrefStruct) (more : Nat) : Nat :=
  ZoneSetUnion more (ZoneSetDiff ZoneSetUNIV pref.avoid)

/-- A class whose `grow` succeeds and adds nothing. -/
def idleGrowClass : ArenaClass := { plainClass with grow := fun arena _ _ => (ResOK, arena) }

/-- An arena with nothing in its indices and zone 2 marked free. -/
def emptyIndexArena : State := ⟨{ classInitArena 13 16 with freeZones := 4 }, []⟩

/-! ## Range trees -/

/-- Modelled from the spec: the results of a comparison, `LESS`, `EQUAL` and
`GREATER`, the type `Compare` of `mpmtypes.h`. -/
inductive Compare where
  | CompareLESS
  | CompareEQUAL
  | CompareGREATER
deriving DecidableEq, Repr

open Compare

/-- The source function `RangeTreeCompare`: the node of the tree holds the
range `[base2, limit2)`, and the key points to the address `base1`. -/
def RangeTreeCompare (block : RangeStruct) (key : Nat) : Compare :=
  let base1 := key
  let base2 := block.base
  let limit2 := block.limit
  if base1 < base2 then CompareLESS
  else if base1 ≥ limit2 then CompareGREATER
  else CompareEQUAL

/-- The source function `RangeTreeKey`: the key of a node is the base of its
range. -/
def RangeTreeKey (block : RangeStruct) : Nat := block.base

/-- The method `pagesMarkAllocated` of a class that keeps spare memory: the
pages get the pool, and only the bytes that the spare memory does not cover
are newly committed. -/
def reuseMark (arena : Arena) (chunk baseIndex pages pool : Nat) : Res × Arena :=
  let c := arena.chunk chunk
  let fromSpare := min (pages * c.pageSize) arena.spareCommitted
  (ResOK,
   { arena.setChunk chunk
       { c with pageTable := fun j =>
           if baseIndex ≤ j ∧ j < baseIndex + pages then some pool else c.pageTable j } with
     committed := SizeAdd arena.committed (pages * c.pageSize - fromSpare)
     spareCommitted := arena.spareCommitted - fromSpare })

/-- A class that keeps freed pages as spare memory and uses them again. -/
def reuseClass : ArenaClass := { spareClass with pagesMarkAllocated := reuseMark }

/-- The created arena after a pool has allocated two pages and freed them to a
class that keeps them as spare memory: 16384 bytes are committed, 8192 of them
spare. -/
def twoSpareArena : State :=
  run reuseClass noReservoir freshArena
    [Op.alloc ⟨ZoneSetUNIV, 0, false⟩ 8192 7 false, Op.free 0x12000 8192 7]

/-- The fresh arena after `ArenaAlloc` of one page, which gave `0x12000`, and
`ArenaFree` of that page, with an empty record: zone 9 has left the free zones,
the block set of zone 9 is `[0x12000, 0x14000)` and the free block set is
`[0x14000, 0x20000)`. -/
def freedPageArena : State :=
  ⟨(ArenaFree plainClass noReservoir 0x12000 4096 7
      (ArenaAlloc plainClass noReservoir ⟨ZoneSetUNIV, 0, false⟩ 4096 7 false
        freshArena).2.2).arena, []⟩

/-! ## Block sets in address order -/

/-- The blocks of a block set are not empty and lie apart, in address order:
"an ordered set of non-overlapping, non-adjacent ranges". -/
def CBS.Separated (cbs : CBS) : Prop :=
  (∀ b ∈ cbs, b.base < b.limit) ∧ cbs.Pairwise (fun a b => a.limit < b.base)

/-- The method `pagesMarkAllocated` of the class always succeeds. -/
def ClassAlwaysMarks (cls : ArenaClass) : Prop :=
  ∀ (arena : Arena) chunk baseIndex pages pool,
    (cls.pagesMarkAllocated arena chunk baseIndex pages pool).1 = ResOK

/-- A range that a search of `zones` for `size` bytes has just taken is at
hand again once it is put back into the zone block set of its base: the zone
of its base is in `zones`, no zone block set of `zones` before that one has a
block of `size` bytes, and `CBSInsert` of the range into that zone block set,
unless it reports `ResLIMIT`, leaves a set whose first block of `size` bytes
begins at the base of the range. -/
def Arena.Returnable (a : Arena) (zones size : Nat) (range : RangeStruct) : Prop :=
  ZoneSetIsMember zones (AddrZone a.zoneShift range.base) = true
  ∧ (∀ i, i < AddrZone a.zoneShift range.base → ZoneSetIsMember zones i = true →
      cbsFirstFit size (a.zoneCBS i) = none)
  ∧ ∀ units,
      (CBSInsert units (a.zoneCBS (AddrZone a.zoneShift range.base)) range).1 ≠ ResLIMIT →
      ∃ blk,
        cbsFirstFit size
            (CBSInsert units (a.zoneCBS (AddrZone a.zoneShift range.base)) range).2.2.1
          = some blk
        ∧ blk.base = range.base

/-! ## Creation -/

/-- What `ArenaCreate` gets from outside `arena.c`: the result of the class
method `init` and the arena it made, and the results of the initialisers of the
control pool (`PoolInit` in `ControlInit`) and of the globals. -/
structure CreateEnv where
  classInit : Res × Arena
  controlPoolInit : Res
  globalsCompleteCreate : Res

/-- The steps of `ArenaCreate` outside the block sets, for its record. -/
inductive CreateCall where
  | classInit
  | classFinish
  | controlInit
  | controlFinish
  | globalsCompleteCreate
deriving DecidableEq, Repr

/-- The source function `ControlInit`. -/
def ControlInit (env : CreateEnv) (arena : Arena) : Res × Arena :=
  if env.controlPoolInit ≠ ResOK then (env.controlPoolInit, arena)
  else (ResOK, { arena with poolReady := true })

/-- The source function `ControlFinish`. -/
def ControlFinish (arena : Arena) : Arena := { arena with poolReady := false }

/-- The source function `ArenaCreate` from the test of the result of
`ArenaFreeCBSInsert` on: `ins` is that result and the state the call left. -/
def arenaCreateRest (env : CreateEnv) (ins : Res × State) : Res × State × List CreateCall :=
  if ins.1 ≠ ResOK then
    (ins.1, ins.2, [CreateCall.classFinish, CreateCall.classInit])
  else
    let control := ControlInit env ins.2.arena
    if control.1 ≠ ResOK then
      (control.1, ins.2.set control.2,
       [CreateCall.classFinish, CreateCall.controlInit, CreateCall.classInit])
    else if env.globalsCompleteCreate ≠ ResOK then
      (env.globalsCompleteCreate, ins.2.set (ControlFinish control.2),
       [CreateCall.classFinish, CreateCall.controlFinish, CreateCall.globalsCompleteCreate,
        CreateCall.controlInit, CreateCall.classInit])
    else
      (ResOK, ins.2.set control.2,
       [CreateCall.globalsCompleteCreate, CreateCall.controlInit, CreateCall.classInit])

/-- The source function `ArenaCreate`: its result, the arena with the record of
the calls on the block sets and the class, and the record of its other steps,
most recent first.  After a failure the arena is the one that the class method
`finish` was given. -/
def ArenaCreate (env : CreateEnv) (cls : ArenaClass) : Res × State × List CreateCall :=
  let arena := env.classInit.2
  if env.classInit.1 ≠ ResOK then (env.classInit.1, ⟨arena, []⟩, [CreateCall.classInit])
  else if arena.alignment > 2 ^ arena.zoneShift % WordRange then
    (ResMEMORY, ⟨arena, []⟩, [CreateCall.classFinish, CreateCall.classInit])
  else
    let arena1 := { arena with hasFreeCBS := true }
    let primary := arena1.chunk (arena1.primary.getD arena1.chunkRing.length)
    arenaCreateRest env
      (ArenaFreeCBSInsert cls (PageIndexBase primary primary.allocBase) primary.limit
        ⟨arena1, []⟩)

/-- A class `init` that succeeds and makes the arena of `classInitArena`, with
initialisers that succeed. -/
def plainCreateEnv (zoneShift pages : Nat) : CreateEnv :=
  ⟨(ResOK, classInitArena zoneShift pages), ResOK, ResOK⟩

/-- The page that `ArenaFreeCBSInsert` takes for the block pool when its first
`CBSInsert` reports `ResLIMIT`, the range `[pageBase, pageBase + alignment)`
that the source function deletes from the free block set at its end. -/
def arenaFreeCBSInsertPage (cls : ArenaClass) (base limit : Nat) (st : State) : RangeStruct :=
  let ins := arenaCBSInsert .free ⟨base, limit⟩ st
  let page := arenaAllocPage cls st.arena.cbsBlockPoolStruct.pool ins.2.2
  let st1 := arenaMFSExtend page.2.1 page.2.2.arena.alignment page.2.2
  let ins1 := arenaCBSInsert .free ins.2.1 st1
  ⟨page.2.1, AddrAdd page.2.1 ins1.2.2.arena.alignment⟩

/-! ## `ArenaFreeCBSInsert` after its first insertion -/

/-- The source function `ArenaFreeCBSInsert` from the test `if (res == ResLIMIT)`
on: `pool` is the block pool of the arena and `ins` is what the first
`CBSInsert` gave, its result, the range it returned and the state it left. -/
def arenaFreeCBSInsertRest (cls : ArenaClass) (pool : Nat) (ins : Res × RangeStruct × State) :
    Res × State :=
  if ins.1 = ResLIMIT then
    let page := arenaAllocPage cls pool ins.2.2
    if page.1 ≠ ResOK then (page.1, page.2.2)
    else
      let pageBase := page.2.1
      let st1 := arenaMFSExtend pageBase page.2.2.arena.alignment page.2.2
      let ins1 := arenaCBSInsert .free ins.2.1 st1
      let del := arenaCBSDelete .free ⟨pageBase, AddrAdd pageBase ins1.2.2.arena.alignment⟩ ins1.2.2
      (ResOK, del.2.2)
  else (ResOK, ins.2.2)

/-! ## Machine arithmetic -/

theorem wordRange_eq : WordRange = 18446744073709551616 := by
  unfold WordRange; norm_num

theorem SizeSub_of_le {a b : Nat} (ha : a < WordRange) (hb : b ≤ a) : SizeSub a b = a - b := by
  unfold SizeSub
  simp only [wordRange_eq] at *
  omega

theorem SizeAdd_of_lt {a b : Nat} (h : a + b < WordRange) : SizeAdd a b = a + b := by
  unfold SizeAdd
  exact Nat.mod_eq_of_lt h

theorem SizeAdd_wrap {a b : Nat} (ha : a < WordRange) (hb : b < WordRange)
    (h : WordRange ≤ a + b) : SizeAdd a b = a + b - WordRange := by
  unfold SizeAdd
  simp only [wordRange_eq] at *
  omega

/-! ## C1: the commit gate -/

/-- C1. When the spare committed memory is less than the size asked for and
`committed + (size - spareCommitted)` exceeds the commit limit or wraps round
the word, `arenaAllocPolicy` gives `ResCOMMIT_LIMIT` and the state, its record
of calls included, is the state before: no search, no `grow`, no
`pagesMarkAllocated`.  When the spare memory covers the size the gate does not
reject, and the policy is its search ladder. -/
theorem arenaAllocPolicy_commit_gate (cls : ArenaClass) (pref : SegPrefStruct) (size pool : Nat)
    (st : State) (hsize : size < WordRange) (hcommitted : st.arena.committed < WordRange) :
    (st.arena.spareCommitted < size →
      (st.arena.commitLimit < st.arena.committed + (size - st.arena.spareCommitted)
        ∨ WordRange ≤ st.arena.committed + (size - st.arena.spareCommitted)) →
      arenaAllocPolicy cls pref size pool st = (ResCOMMIT_LIMIT, none, st))
    ∧ (size ≤ st.arena.spareCommitted →
        commitGate st.arena size = false
        ∧ arenaAllocPolicy cls pref size pool st = policyPlanA cls pref size pool st) := by
  constructor
  · intro hlt hover
    have hgate : commitGate st.arena size = true := by
      unfold commitGate
      rw [if_pos hlt, SizeSub_of_le hsize (Nat.le_of_lt hlt)]
      simp only [decide_eq_true_eq, gt_iff_lt]
      by_cases hw : WordRange ≤ st.arena.committed + (size - st.arena.spareCommitted)
      · right
        rw [SizeAdd_wrap hcommitted (by omega) hw]
        omega
      · left
        rw [SizeAdd_of_lt (by omega)]
        omega
    unfold arenaAllocPolicy
    rw [if_pos hgate]
  · intro hge
    have hgate : commitGate st.arena size = false := by
      unfold commitGate
      rw [if_neg (by omega)]
    refine ⟨hgate, ?_⟩
    unfold arenaAllocPolicy
    simp [hgate]

/-- C1, at an arena with two pages committed, one spare, and a commit limit of
three pages, asked for four pages. -/
theorem arenaAllocPolicy_commit_gate_witness :
    (16384 < WordRange ∧ (8192 : Nat) < WordRange) ∧
    arenaAllocPolicy plainClass ⟨ZoneSetUNIV, 0, false⟩ 16384 7
        ⟨{ spareArena.arena with commitLimit := 12288 }, []⟩
      = (ResCOMMIT_LIMIT, none, ⟨{ spareArena.arena with commitLimit := 12288 }, []⟩) :=
  ⟨⟨by decide, by decide⟩,
   (arenaAllocPolicy_commit_gate plainClass ⟨ZoneSetUNIV, 0, false⟩ 16384 7
      ⟨{ spareArena.arena with commitLimit := 12288 }, []⟩ (by decide) (by decide)).1
      (by decide) (by decide)⟩

/-! ## C2: the disjoint cover -/

set_option maxRecDepth 1000000 in
set_option maxHeartbeats 0 in
/-- C2 fails on the code.  From a created arena of 256 pages (whose block pool
got one page, 85 blocks of 48 bytes), 168 pages are allocated and 84 of them
freed, each free taking a block; the pool is then empty.  The next `ArenaAlloc`,
of three pages, succeeds, taking `[0xBA000, 0xBD000)` from the free block set;
the tail `[0xBD000, 0xBE000)` of the stripe is deleted from the free block set
and its insertion into the block set of zone 30 reports `ResLIMIT`.  The
address `0xBD000` lies in the chunk above its `allocBase` and is then in no
block set and in no allocated page. -/
theorem lost_tail_breaks_cover :
    (run plainClass noReservoir (createdArena plainClass 13 256) lostTailOps).calls.take 3
      = [Call.pagesMarkAllocated 0 170 3 7,
         Call.cbsInsert (.zone 30) ⟨0xBD000, 0xBE000⟩ ResLIMIT,
         Call.cbsDelete .free ⟨0xBD000, 0xBE000⟩ ResOK]
    ∧ CHUNK_OF_ADDR (run plainClass noReservoir (createdArena plainClass 13 256)
        lostTailOps).arena 0xBD000 = 0
    ∧ ((run plainClass noReservoir (createdArena plainClass 13 256)
        lostTailOps).arena.chunk 0).allocBase
        ≤ INDEX_OF_ADDR ((run plainClass noReservoir (createdArena plainClass 13 256)
            lostTailOps).arena.chunk 0) 0xBD000
    ∧ ¬ (run plainClass noReservoir (createdArena plainClass 13 256)
        lostTailOps).arena.FreeAddr 0xBD000
    ∧ ¬ (run plainClass noReservoir (createdArena plainClass 13 256)
        lostTailOps).arena.AllocatedAddr 0xBD000 := by
  unfold Arena.AllocatedAddr
  decide!

/-! ## C3: failure of `pagesMarkAllocated` -/

/-- C3 fails on the code.  After one page has been allocated, the tail
`[0x13000, 0x14000)` of its stripe is in the block set of zone 9 and the free
block set starts at `0x14000`.  The class cannot back another page, so in the
next `ArenaAlloc` the page found in the block set of zone 9 fails
`pagesMarkAllocated`; the call gives `ResRESOURCE`, and leaves the block set of
zone 9 empty and the page in the free block set. -/
theorem ArenaAlloc_failure_moves_range :
    (ArenaAlloc budgetClass noReservoir ⟨ZoneSetUNIV, 0, false⟩ 4096 7 false freshArena).1 = ResOK
    ∧ (ArenaAlloc budgetClass noReservoir ⟨ZoneSetUNIV, 0, false⟩ 4096 7 false
        freshArena).2.2.arena.zoneCBS 9 = [⟨0x13000, 0x14000⟩]
    ∧ (ArenaAlloc budgetClass noReservoir ⟨ZoneSetUNIV, 0, false⟩ 4096 7 false
        freshArena).2.2.arena.freeCBS = [⟨0x14000, 0x20000⟩]
    ∧ (ArenaAlloc budgetClass noReservoir ⟨ZoneSetUNIV, 0, false⟩ 4096 7 false
        (ArenaAlloc budgetClass noReservoir ⟨ZoneSetUNIV, 0, false⟩ 4096 7 false
          freshArena).2.2).1 = ResRESOURCE
    ∧ (ArenaAlloc budgetClass noReservoir ⟨ZoneSetUNIV, 0, false⟩ 4096 7 false
        (ArenaAlloc budgetClass noReservoir ⟨ZoneSetUNIV, 0, false⟩ 4096 7 false
          freshArena).2.2).2.2.arena.zoneCBS 9 = []
    ∧ (ArenaAlloc budgetClass noReservoir ⟨ZoneSetUNIV, 0, false⟩ 4096 7 false
        (ArenaAlloc budgetClass noReservoir ⟨ZoneSetUNIV, 0, false⟩ 4096 7 false
          freshArena).2.2).2.2.arena.freeCBS = [⟨0x13000, 0x20000⟩] := by
  refine ⟨by decide, by decide, by decide, by decide, by decide, by decide⟩

/-! ## C4: the ladder when `grow` fails -/

/-- C4 fails on the code when `grow` fails.  The class cannot grow
(`ArenaNoGrow`); the pool asks for one page in zone 0, avoiding zones 8 to 15,
of an arena whose free space is all in zones 9 to 15.  Plans A and B find
nothing, the failure of `grow` in Plan C is returned at once, and neither Plan
D nor the search of `ZoneSetUNIV` is made, though that search succeeds in the
same state. -/
theorem arenaAllocPolicy_grow_failure_skips_last_resort :
    (arenaAllocPolicy plainClass ⟨1, 0xFF00, false⟩ 4096 7 freshArena).1 = ResRESOURCE
    ∧ (arenaAllocPolicy plainClass ⟨1, 0xFF00, false⟩ 4096 7 freshArena).2.2.calls
        = [Call.grow ⟨1, 0xFF00, false⟩ 4096,
           Call.search (ZoneSetUnion 1 (ZoneSetDiff ZoneSetUNIV 0xFF00)) 4096,
           Call.search 1 4096]
    ∧ (policyLast plainClass 4096 7 freshArena).1 = ResOK := by
  refine ⟨by decide, by decide, by decide⟩

/-! ## C5: the second search of Plan C -/

/-- C5 fails on the code when `grow` changes the free zones.  The arena has
zone 1 marked free and the pool asks for a page in zone 0; `zoneGrow` succeeds
and marks zones 32 to 39 free.  After it the code searches zone 0 and then the
mask computed before the grow (zones 0 and 1), not the union of the zones
asked for with the free zones after the grow; the page then comes from Plan D,
in zone 9. -/
theorem policyPlanC_searches_stale_mask :
    (arenaAllocPolicy zoneGrowClass ⟨1, 0, false⟩ 4096 7
        ⟨{ freshArena.arena with freeZones := 2 }, []⟩).2.2.calls.reverse.take 6
      = [Call.search 1 4096, Call.search 3 4096, Call.grow ⟨1, 0, false⟩ 4096,
         Call.search 1 4096, Call.search 3 4096, Call.search ZoneSetUNIV 4096]
    ∧ ZoneSetUnion 1 (ZoneSetDiff
        (callGrow zoneGrowClass ⟨1, 0, false⟩ 4096
          ⟨{ freshArena.arena with freeZones := 2 }, []⟩).2.arena.freeZones 0)
        = 0xFF00000003
    ∧ (arenaAllocPolicy zoneGrowClass ⟨1, 0, false⟩ 4096 7
        ⟨{ freshArena.arena with freeZones := 2 }, []⟩).2.1
      = some ⟨⟨0, 2⟩, ⟨0x12000, 0x13000⟩⟩
    ∧ ((arenaAllocFromCBS zoneGrowClass 0xFF00000003 4096 7
        (callGrow zoneGrowClass ⟨1, 0, false⟩ 4096
          ⟨{ freshArena.arena with freeZones := 2 }, []⟩).2).2.1.map Found.range)
      = some ⟨0x41000, 0x42000⟩ := by
  refine ⟨by decide, by decide, by decide, by decide⟩

/-! ## C6: the blacklist in Plan A -/

/-- C6 fails on the code when the zones asked for are also avoided.  The pool
asks for one page with `zones = avoid = {9}`: Plan A, the only search made,
gives `[0x12000, 0x13000)`, which is in zone 9. -/
theorem planA_allocates_in_avoided_zone :
    (arenaAllocPolicy plainClass ⟨2 ^ 9, 2 ^ 9, false⟩ 4096 7 freshArena).1 = ResOK
    ∧ (arenaAllocPolicy plainClass ⟨2 ^ 9, 2 ^ 9, false⟩ 4096 7 freshArena).2.1
        = some ⟨⟨0, 2⟩, ⟨0x12000, 0x13000⟩⟩
    ∧ (arenaAllocPolicy plainClass ⟨2 ^ 9, 2 ^ 9, false⟩ 4096 7 freshArena).2.2.calls.filter
          (fun c => match c with
            | Call.search _ _ => true
            | _ => false)
        = [Call.search (2 ^ 9) 4096]
    ∧ ZoneSetIsMember (2 ^ 9) (AddrZone freshArena.arena.zoneShift 0x12000) = true := by
  refine ⟨by decide, by decide, by decide, by decide⟩

/-! ## Zone sets and ranges -/

theorem zoneSetUNIV_testBit {i : Nat} (h : i < MPS_WORD_WIDTH) : ZoneSetUNIV.testBit i = true := by
  unfold ZoneSetUNIV
  rw [Nat.testBit_two_pow_sub_one]
  exact decide_eq_true h

theorem addrZone_lt (zoneShift a : Nat) : AddrZone zoneShift a < MPS_WORD_WIDTH := by
  unfold AddrZone
  exact Nat.mod_lt _ (by decide)

theorem zoneSetSub_testBit {x y i : Nat} (hsub : ZoneSetSub x y = true)
    (hi : i < MPS_WORD_WIDTH) (hx : x.testBit i = true) : y.testBit i = true := by
  unfold ZoneSetSub at hsub
  have h0 : ZoneSetDiff x y = 0 := of_decide_eq_true hsub
  have hbit : (ZoneSetDiff x y).testBit i = false := by rw [h0]; exact Nat.zero_testBit i
  unfold ZoneSetDiff ZoneSetComp at hbit
  rw [Nat.testBit_and, Nat.testBit_xor, zoneSetUNIV_testBit hi, hx] at hbit
  have hmod : (y % WordRange).testBit i = y.testBit i := by
    unfold WordRange
    rw [Nat.testBit_mod_two_pow]
    have : i < 64 := hi
    simp [this]
  rw [hmod] at hbit
  cases hy : y.testBit i
  · rw [hy] at hbit; simp at hbit
  · rfl

theorem zoneSetOfStripes_testBit (n : Nat) : ∀ k0 k, k0 ≤ k → k < k0 + n →
    (zoneSetOfStripes k0 n).testBit (k % MPS_WORD_WIDTH) = true := by
  induction n with
  | zero => intro k0 k h1 h2; omega
  | succ n ih =>
    intro k0 k h1 h2
    unfold zoneSetOfStripes ZoneSetUnion
    rw [Nat.testBit_or]
    by_cases hk : k = k0
    · subst hk
      rw [Nat.testBit_two_pow_self]
      rfl
    · rw [ih (k0 + 1) k (by omega) (by omega)]
      simp

theorem zoneSetOfRange_testBit {zoneShift base limit a : Nat} (h1 : base ≤ a) (h2 : a < limit) :
    (ZoneSetOfRange zoneShift base limit).testBit (AddrZone zoneShift a) = true := by
  unfold ZoneSetOfRange
  rw [if_neg (by omega)]
  simp only
  have hlo : base / 2 ^ zoneShift ≤ a / 2 ^ zoneShift := Nat.div_le_div_right h1
  have hhi : a / 2 ^ zoneShift ≤ (limit - 1) / 2 ^ zoneShift :=
    Nat.div_le_div_right (by omega)
  split_ifs with hw
  · exact zoneSetUNIV_testBit (addrZone_lt _ _)
  · unfold AddrZone
    exact zoneSetOfStripes_testBit _ _ _ hlo (by omega)

/-! ## What the searches give -/

theorem findSpareFrom_some {arena : Arena} {zones : Nat} {page : Tract} (n : Nat) :
    ∀ i, findSpareFrom arena zones n i = some page →
      ∃ z, ZoneSetIsMember zones z = true ∧ page ∈ arena.freeRing z := by
  induction n with
  | zero => intro i h; simp [findSpareFrom] at h
  | succ n ih =>
    intro i h
    unfold findSpareFrom at h
    cases hring : arena.freeRing i with
    | nil => rw [hring] at h; exact ih _ h
    | cons p ps =>
      rw [hring] at h
      simp only at h
      by_cases hm : ZoneSetIsMember zones i = true
      · rw [if_pos hm] at h
        refine ⟨i, hm, ?_⟩
        rw [hring]
        have : p = page := Option.some.inj h
        rw [this]
        exact List.mem_cons_self _ _
      · rw [if_neg hm] at h
        exact ih _ h

theorem cbsFirstFit_some {size : Nat} {b : RangeStruct} :
    ∀ cbs : CBS, cbsFirstFit size cbs = some b →
      b ∈ cbs ∧ b.base ≤ b.limit ∧ size ≤ b.limit - b.base := by
  intro cbs
  induction cbs with
  | nil => intro h; simp [cbsFirstFit] at h
  | cons c cs ih =>
    intro h
    unfold cbsFirstFit at h
    split_ifs at h with hc
    · have : c = b := Option.some.inj h
      subst this
      exact ⟨List.mem_cons_self _ _, hc.1, hc.2⟩
    · obtain ⟨h1, h2⟩ := ih h
      exact ⟨List.mem_cons_of_mem _ h1, h2⟩

theorem CBSFindFirst_some {units size : Nat} {cbs : CBS} {range old : RangeStruct} {rest : CBS}
    {units1 : Nat} (h : CBSFindFirst units cbs size = some (range, old, rest, units1)) :
    ∃ b, b ∈ cbs ∧ b.base ≤ b.limit ∧ size ≤ b.limit - b.base
      ∧ range = ⟨b.base, b.base + size⟩ := by
  unfold CBSFindFirst at h
  cases hfit : cbsFirstFit size cbs with
  | none => rw [hfit] at h; simp at h
  | some b =>
    rw [hfit] at h
    simp only at h
    refine ⟨b, (cbsFirstFit_some cbs hfit).1, (cbsFirstFit_some cbs hfit).2.1,
      (cbsFirstFit_some cbs hfit).2.2, ?_⟩
    split at h
    · simp only [Option.some.injEq, Prod.mk.injEq] at h
      exact h.1.symm
    · simp at h

theorem findInZoneCBSFrom_some {st st1 : State} {zones size : Nat} {range : RangeStruct}
    (n : Nat) : ∀ i, findInZoneCBSFrom st zones size n i = some (range, st1) →
      ∃ z b, ZoneSetIsMember zones z = true ∧ b ∈ st.arena.zoneCBS z ∧ b.base ≤ b.limit
        ∧ size ≤ b.limit - b.base ∧ range = ⟨b.base, b.base + size⟩ := by
  induction n with
  | zero => intro i h; simp [findInZoneCBSFrom] at h
  | succ n ih =>
    intro i h
    unfold findInZoneCBSFrom at h
    by_cases hm : ZoneSetIsMember zones i = true
    · rw [if_pos hm] at h
      cases hf : CBSFindFirst st.arena.cbsBlockPoolStruct.units (st.arena.zoneCBS i) size with
      | none => rw [hf] at h; exact ih _ h
      | some out =>
        obtain ⟨r, old, rest, units1⟩ := out
        rw [hf] at h
        simp only [Option.some.injEq, Prod.mk.injEq] at h
        obtain ⟨b, hb1, hb2, hb3, hb4⟩ := CBSFindFirst_some hf
        exact ⟨i, b, hm, hb1, hb2, hb3, by rw [← h.1]; exact hb4⟩
    · rw [if_neg hm] at h
      exact ih _ h

theorem zoneFit_some {zoneShift zones size hi c : Nat} (fuel : Nat) :
    ∀ lo, zoneFit zoneShift zones size hi fuel lo = some c →
      ZoneSetSub (ZoneSetOfRange zoneShift c (c + size)) zones = true := by
  induction fuel with
  | zero => intro lo h; simp [zoneFit] at h
  | succ fuel ih =>
    intro lo h
    unfold zoneFit at h
    split_ifs at h with h1 h2
    · have : lo = c := Option.some.inj h
      rw [← this]
      exact h2
    · exact ih _ h

theorem cbsZoneFit_some {zoneShift zones size : Nat} {b r : RangeStruct} :
    ∀ cbs : CBS, cbsZoneFit zoneShift zones size cbs = some (b, r) →
      ZoneSetSub (ZoneSetOfRange zoneShift r.base r.limit) zones = true := by
  intro cbs
  induction cbs with
  | nil => intro h; simp [cbsZoneFit] at h
  | cons c cs ih =>
    intro h
    unfold cbsZoneFit at h
    split at h
    · rename_i c0 hc0
      simp only [Option.some.injEq, Prod.mk.injEq] at h
      rw [← h.2]
      exact zoneFit_some _ _ hc0
    · exact ih h

theorem CBSFindFirstInZones_some {units size zoneShift zones : Nat} {cbs : CBS}
    {range old : RangeStruct} {rest : CBS} {units1 : Nat}
    (h : CBSFindFirstInZones units cbs size zoneShift zones = some (range, old, rest, units1)) :
    ZoneSetSub (ZoneSetOfRange zoneShift range.base range.limit) zones = true := by
  unfold CBSFindFirstInZones at h
  split at h
  · simp at h
  · rename_i b r hfit
    split at h
    · simp only [Option.some.injEq, Prod.mk.injEq] at h
      rw [← h.1]
      exact cbsZoneFit_some cbs hfit
    · simp at h

theorem arenaAllocFindInFreeCBS_some {st st1 : State} {zones size : Nat} {range : RangeStruct}
    (h : arenaAllocFindInFreeCBS st zones size = some (range, st1)) :
    ZoneSetSub (ZoneSetOfRange st.arena.zoneShift range.base range.limit) zones = true := by
  unfold arenaAllocFindInFreeCBS at h
  split at h
  · simp at h
  · rename_i r old rest units1 hfind
    have hr := CBSFindFirstInZones_some hfind
    simp only [Option.some.injEq, Prod.mk.injEq] at h
    rw [← h.1]
    exact hr

theorem arenaAllocFind_in_zones {s st1 : State} {zones size chunk baseIndex pages : Nat}
    {range : RangeStruct} (hzone : s.arena.ZoneConfined) (hring : s.arena.RingConfined)
    (h : arenaAllocFind zones size s = some (chunk, baseIndex, pages, range, st1)) :
    ∀ a, range.Mem a → ZoneSetIsMember zones (AddrZone s.arena.zoneShift a) = true := by
  intro a ha
  unfold arenaAllocFind at h
  split at h
  · rename_i c bi n hspare
    simp only [Option.some.injEq, Prod.mk.injEq] at h
    obtain ⟨hc, hbi, hn, hr, _⟩ := h
    unfold arenaAllocFindSpare at hspare
    split_ifs at hspare
    split at hspare
    · rename_i page hpage
      simp only [Option.some.injEq, Prod.mk.injEq] at hspare
      obtain ⟨e1, e2, e3⟩ := hspare
      obtain ⟨z, hz, hmem⟩ := findSpareFrom_some _ _ hpage
      rw [← hr] at ha
      obtain ⟨ha1, ha2⟩ := ha
      simp only at ha1 ha2
      rw [← e1, ← e2] at ha1 ha2
      rw [← e3] at ha2
      have hlt : AddrAdd (PageIndexBase (s.arena.chunk page.chunk) page.index)
          ((s.arena.chunk page.chunk).pageSize * 1)
          ≤ PageIndexBase (s.arena.chunk page.chunk) page.index
              + (s.arena.chunk page.chunk).pageSize := by
        unfold AddrAdd
        rw [Nat.mul_one]
        exact Nat.mod_le _ _
      rw [hring z page a hmem ha1 (by omega)]
      exact hz
    · simp at hspare
  · split at h
    · rename_i r s1 hfind
      simp only [Option.some.injEq, Prod.mk.injEq] at h
      obtain ⟨_, _, _, hr, _⟩ := h
      obtain ⟨z, b, hz, hb, hb1, hb2, hb3⟩ := findInZoneCBSFrom_some _ _ hfind
      rw [← hr, hb3] at ha
      obtain ⟨ha1, ha2⟩ := ha
      simp only at ha1 ha2
      rw [hzone z b a hb ⟨ha1, by omega⟩]
      exact hz
    · split at h
      · rename_i r s1 hfind
        simp only [Option.some.injEq, Prod.mk.injEq] at h
        obtain ⟨_, _, _, hr, _⟩ := h
        have hsub := arenaAllocFindInFreeCBS_some hfind
        rw [← hr] at ha
        exact zoneSetSub_testBit hsub (addrZone_lt _ _) (zoneSetOfRange_testBit ha.1 ha.2)
      · simp at h

theorem arenaAllocFromCBS_ok {cls : ArenaClass} {zones size pool : Nat} {st st1 : State}
    {found : Found} (h : arenaAllocFromCBS cls zones size pool st = (ResOK, some found, st1)) :
    ∃ chunk baseIndex pages st2,
      arenaAllocFind zones size (st.log (Call.search zones size))
        = some (chunk, baseIndex, pages, found.range, st2) := by
  unfold arenaAllocFromCBS at h
  split at h
  · simp at h
  · rename_i chunk baseIndex pages range st2 hfind
    simp only at h
    split_ifs at h with hm
    · simp only [Prod.mk.injEq] at h
      exact absurd h.1 hm
    · simp only [Prod.mk.injEq, Option.some.injEq, true_and] at h
      refine ⟨chunk, baseIndex, pages, st2, ?_⟩
      rw [← h.1]
      exact hfind

/-! ## C7: the zones of Plan A -/

/-- C7 fails as stated.  The zone block sets of the arena are empty, so zone
confinement of the zone block sets holds; page 5 of the chunk, which is in
zone 10, is on the free ring of zone 0.  The search of zone 0 for one page
gives that page. -/
theorem planA_ring_page_outside_zones :
    ringArena.arena.ZoneConfined
    ∧ (arenaAllocFromCBS plainClass 1 4096 7 ringArena).1 = ResOK
    ∧ (arenaAllocFromCBS plainClass 1 4096 7 ringArena).2.1
        = some ⟨⟨0, 5⟩, ⟨0x15000, 0x16000⟩⟩
    ∧ ZoneSetIsMember 1 (AddrZone ringArena.arena.zoneShift 0x15000) = false := by
  refine ⟨?_, by decide, by decide, by decide⟩
  intro z b a hb
  exact absurd hb (List.not_mem_nil b)

/-- C7, amended.  For every arena in which the zone block sets and also the
free rings are zone-confined, and every preference with `pref.zones` not
empty: if the Plan A call `arenaAllocFromCBS(pref.zones, size)` succeeds then
the policy returns its result, and every address of the range it chose is in a
zone of `pref.zones`. -/
theorem planA_range_in_zones (cls : ArenaClass) (pref : SegPrefStruct) (size pool : Nat)
    (st st1 : State) (found : Found)
    (hzone : st.arena.ZoneConfined) (hring : st.arena.RingConfined)
    (hzones : pref.zones ≠ ZoneSetEMPTY)
    (hok : arenaAllocFromCBS cls pref.zones size pool st = (ResOK, some found, st1)) :
    policyPlanA cls pref size pool st = (ResOK, some found, st1)
    ∧ ∀ a, found.range.Mem a →
        ZoneSetIsMember pref.zones (AddrZone st.arena.zoneShift a) = true := by
  constructor
  · unfold policyPlanA
    simp only
    rw [if_pos hzones, hok]
    rfl
  · obtain ⟨chunk, baseIndex, pages, st2, hfind⟩ := arenaAllocFromCBS_ok hok
    exact arenaAllocFind_in_zones (s := st.log (Call.search pref.zones size)) hzone hring hfind

theorem freshArena_zoneConfined : freshArena.arena.ZoneConfined := by
  intro z b a hb
  exact absurd hb (List.not_mem_nil b)

theorem freshArena_ringConfined : freshArena.arena.RingConfined := by
  intro z page a hp
  exact absurd hp (List.not_mem_nil page)

/-- C7 amended, at the fresh arena asked for one page in zone 9. -/
theorem planA_range_in_zones_witness :
    (freshArena.arena.ZoneConfined ∧ freshArena.arena.RingConfined
      ∧ (⟨2 ^ 9, 0, false⟩ : SegPrefStruct).zones ≠ ZoneSetEMPTY
      ∧ (arenaAllocFromCBS plainClass 512 4096 7 freshArena).1 = ResOK)
    ∧ ZoneSetIsMember (2 ^ 9) (AddrZone freshArena.arena.zoneShift 0x12800) = true :=
  ⟨⟨freshArena_zoneConfined, freshArena_ringConfined, by decide, by decide⟩,
   (planA_range_in_zones plainClass ⟨2 ^ 9, 0, false⟩ 4096 7 freshArena
      (arenaAllocFromCBS plainClass 512 4096 7 freshArena).2.2
      ⟨⟨0, 2⟩, ⟨0x12000, 0x13000⟩⟩ freshArena_zoneConfined freshArena_ringConfined
      (by decide)
      (Prod.ext (by decide) (Prod.ext (by decide) rfl))).2 0x12800 ⟨by decide, by decide⟩⟩

/-! ## Block sets as sets of addresses -/

theorem cbsPlace_mem {r b : RangeStruct} : ∀ cbs : CBS, b ∈ cbsPlace r cbs ↔ b = r ∨ b ∈ cbs := by
  intro cbs
  induction cbs with
  | nil => simp [cbsPlace]
  | cons c cs ih =>
    unfold cbsPlace
    split_ifs
    · simp
    · simp only [List.mem_cons, ih]
      tauto

theorem cbsHull_hullOf : ∀ (near : CBS) (r : RangeStruct), HullOf r near (cbsHull r near) := by
  intro near
  induction near with
  | nil =>
    intro r
    exact ⟨le_refl _, le_refl _, fun b hb => absurd hb (List.not_mem_nil b), Or.inl rfl, Or.inl rfl⟩
  | cons c cs ih =>
    intro r
    have h := ih ⟨min r.base c.base, max r.limit c.limit⟩
    unfold cbsHull
    refine ⟨?_, ?_, ?_, ?_, ?_⟩
    · exact le_trans h.base_le (Nat.min_le_left _ _)
    · exact le_trans (Nat.le_max_left _ _) h.limit_le
    · intro b hb
      rcases List.mem_cons.mp hb with hb | hb
      · subst hb
        exact ⟨le_trans h.base_le (Nat.min_le_right _ _),
               le_trans (Nat.le_max_right _ _) h.limit_le⟩
      · exact h.covers b hb
    · rcases h.base_from with hb | ⟨b, hb, hb1⟩
      · simp only at hb
        rcases Nat.le_total r.base c.base with hle | hle
        · left; rw [hb, Nat.min_eq_left hle]
        · right; exact ⟨c, List.mem_cons_self _ _, by rw [hb, Nat.min_eq_right hle]⟩
      · right; exact ⟨b, List.mem_cons_of_mem _ hb, hb1⟩
    · rcases h.limit_from with hb | ⟨b, hb, hb1⟩
      · simp only at hb
        rcases Nat.le_total r.limit c.limit with hle | hle
        · right; exact ⟨c, List.mem_cons_self _ _, by rw [hb, Nat.max_eq_right hle]⟩
        · left; rw [hb, Nat.max_eq_left hle]
      · right; exact ⟨b, List.mem_cons_of_mem _ hb, hb1⟩

theorem hull_mem {r h : RangeStruct} {near : CBS} (hh : HullOf r near h)
    (htouch : ∀ b ∈ near, rangesTouch r b = true) (x : Nat) :
    h.Mem x ↔ r.Mem x ∨ ∃ b ∈ near, RangeStruct.Mem b x := by
  unfold RangeStruct.Mem
  constructor
  · intro ⟨h1, h2⟩
    by_cases hx : r.base ≤ x ∧ x < r.limit
    · exact Or.inl hx
    · right
      by_cases hlow : x < r.base
      · rcases hh.base_from with hb | ⟨b, hb, hb1⟩
        · omega
        · have ht := htouch b hb
          unfold rangesTouch at ht
          have ht1 := of_decide_eq_true ht
          exact ⟨b, hb, by omega, by omega⟩
      · rcases hh.limit_from with hb | ⟨b, hb, hb1⟩
        · omega
        · have ht := htouch b hb
          unfold rangesTouch at ht
          have ht1 := of_decide_eq_true ht
          exact ⟨b, hb, by omega, by omega⟩
  · intro hx
    rcases hx with hx | ⟨b, hb, hx⟩
    · have := hh.base_le
      have := hh.limit_le
      omega
    · have := hh.covers b hb
      omega

theorem hull_aligned {alignment : Nat} {geoms : List (Nat × Nat × Nat)} {r h : RangeStruct}
    {near : CBS} (hh : HullOf r near h) (htouch : ∀ b ∈ near, rangesTouch r b = true)
    (hr : BlockAligned alignment geoms r) (hnear : ∀ b ∈ near, BlockAligned alignment geoms b) :
    BlockAligned alignment geoms h := by
  refine ⟨?_, ?_, ?_, ?_⟩
  · rcases hh.base_from with hb | ⟨b, hb, hb1⟩
    · rw [hb]; exact hr.1
    · rw [hb1]; exact (hnear b hb).1
  · rcases hh.limit_from with hb | ⟨b, hb, hb1⟩
    · rw [hb]; exact hr.2.1
    · rw [hb1]; exact (hnear b hb).2.1
  · rcases hh.limit_from with hb | ⟨b, hb, hb1⟩
    · rw [hb]; exact hr.2.2.1
    · rw [hb1]; exact (hnear b hb).2.2.1
  · intro x hx
    rcases (hull_mem hh htouch x).mp hx with hx | ⟨b, hb, hx⟩
    · exact hr.2.2.2 x hx
    · exact (hnear b hb).2.2.2 x hx

/-- What `CBSInsert` does to the set of addresses and to the blocks. -/
theorem CBSInsert_effect (units : Nat) (cbs : CBS) (r : RangeStruct) :
    ((CBSInsert units cbs r).1 = ResOK ∨
      ((CBSInsert units cbs r).1 = ResLIMIT ∧ (CBSInsert units cbs r).2.2.1 = cbs))
    ∧ ((CBSInsert units cbs r).1 = ResOK →
        (∀ x, CBS.Mem (CBSInsert units cbs r).2.2.1 x ↔ CBS.Mem cbs x ∨ r.Mem x)
        ∧ ∀ alignment geoms, BlockAligned alignment geoms r →
            (∀ b ∈ cbs, BlockAligned alignment geoms b) →
            ∀ b ∈ (CBSInsert units cbs r).2.2.1, BlockAligned alignment geoms b) := by
  have hnear : ∀ b ∈ cbs.filter (fun b => rangesTouch r b), rangesTouch r b = true := by
    intro b hb
    exact (List.mem_filter.mp hb).2
  have hsplit : ∀ b, b ∈ cbs ↔ b ∈ cbs.filter (fun b => rangesTouch r b)
      ∨ b ∈ cbs.filter (fun b => !rangesTouch r b) := by
    intro b
    simp only [List.mem_filter, Bool.not_eq_true']
    cases rangesTouch r b <;> simp
  have hmain : ∀ h, HullOf r (cbs.filter (fun b => rangesTouch r b)) h →
      (∀ x, CBS.Mem (cbsPlace h (cbs.filter (fun b => !rangesTouch r b))) x
          ↔ CBS.Mem cbs x ∨ r.Mem x)
      ∧ ∀ alignment geoms, BlockAligned alignment geoms r →
          (∀ b ∈ cbs, BlockAligned alignment geoms b) →
          ∀ b ∈ cbsPlace h (cbs.filter (fun b => !rangesTouch r b)),
            BlockAligned alignment geoms b := by
    intro h hh
    constructor
    · intro x
      unfold CBS.Mem
      constructor
      · rintro ⟨b, hb, hx⟩
        rcases (cbsPlace_mem _).mp hb with hb | hb
        · subst hb
          rcases (hull_mem hh hnear x).mp hx with hx | ⟨b, hb, hx⟩
          · exact Or.inr hx
          · exact Or.inl ⟨b, (hsplit b).mpr (Or.inl hb), hx⟩
        · exact Or.inl ⟨b, (hsplit b).mpr (Or.inr hb), hx⟩
      · rintro (⟨b, hb, hx⟩ | hx)
        · rcases (hsplit b).mp hb with hb | hb
          · exact ⟨h, (cbsPlace_mem _).mpr (Or.inl rfl),
              (hull_mem hh hnear x).mpr (Or.inr ⟨b, hb, hx⟩)⟩
          · exact ⟨b, (cbsPlace_mem _).mpr (Or.inr hb), hx⟩
        · exact ⟨h, (cbsPlace_mem _).mpr (Or.inl rfl), (hull_mem hh hnear x).mpr (Or.inl hx)⟩
    · intro alignment geoms hr hcbs b hb
      rcases (cbsPlace_mem _).mp hb with hb | hb
      · subst hb
        exact hull_aligned hh hnear hr
          (fun b hb => hcbs b ((hsplit b).mpr (Or.inl hb)))
      · exact hcbs b ((hsplit b).mpr (Or.inr hb))
  cases hn : cbs.filter (fun b => rangesTouch r b) with
  | nil =>
    have hh : HullOf r (cbs.filter (fun b => rangesTouch r b)) r := by
      rw [hn]
      exact cbsHull_hullOf [] r
    have e : CBSInsert units cbs r
        = if units = 0 then (ResLIMIT, r, cbs, units)
          else (ResOK, r, cbsPlace r (cbs.filter (fun b => !rangesTouch r b)), units - 1) := by
      unfold CBSInsert
      simp only [hn]
    rw [e]
    split_ifs with hu
    · exact ⟨Or.inr ⟨rfl, rfl⟩, fun h => absurd h (by decide)⟩
    · exact ⟨Or.inl rfl, fun _ => hmain r hh⟩
  | cons c cs =>
    have hh := cbsHull_hullOf (cbs.filter (fun b => rangesTouch r b)) r
    have e : CBSInsert units cbs r
        = (ResOK, cbsHull r (cbs.filter (fun b => rangesTouch r b)),
           cbsPlace (cbsHull r (cbs.filter (fun b => rangesTouch r b)))
             (cbs.filter (fun b => !rangesTouch r b)), units + cs.length) := by
      unfold CBSInsert
      simp only [hn]
    rw [e]
    exact ⟨Or.inl rfl, fun _ => hmain _ hh⟩

theorem cbsCut_mem {old r b : RangeStruct} (hb : b ∈ cbsCut old r) :
    (b = ⟨old.base, r.base⟩ ∧ old.base < r.base) ∨ (b = ⟨r.limit, old.limit⟩ ∧ r.limit < old.limit) := by
  unfold cbsCut at hb
  rcases List.mem_append.mp hb with h | h
  · split_ifs at h with h1
    · left
      exact ⟨List.mem_singleton.mp h, h1⟩
    · exact absurd h (List.not_mem_nil b)
  · split_ifs at h with h1
    · right
      exact ⟨List.mem_singleton.mp h, h1⟩
    · exact absurd h (List.not_mem_nil b)

theorem cbsCut_cover {old r : RangeStruct} {x : Nat} (hx : old.Mem x) :
    r.Mem x ∨ ∃ b ∈ cbsCut old r, RangeStruct.Mem b x := by
  unfold RangeStruct.Mem at *
  by_cases h : r.base ≤ x ∧ x < r.limit
  · exact Or.inl h
  · right
    by_cases hlow : x < r.base
    · refine ⟨⟨old.base, r.base⟩, ?_, by simp only; omega⟩
      unfold cbsCut
      rw [if_pos (by omega)]
      simp
    · refine ⟨⟨r.limit, old.limit⟩, ?_, by simp only; omega⟩
      unfold cbsCut
      rw [if_pos (show r.limit < old.limit by omega)]
      simp

theorem cbsCut_sub {old r b : RangeStruct} {x : Nat} (hr : r.base ≤ r.limit)
    (hin : old.base ≤ r.base ∧ r.limit ≤ old.limit) (hb : b ∈ cbsCut old r)
    (hx : RangeStruct.Mem b x) : old.Mem x := by
  unfold RangeStruct.Mem at *
  rcases cbsCut_mem hb with ⟨h, _⟩ | ⟨h, _⟩
  · subst h
    simp only at hx
    omega
  · subst h
    simp only at hx
    omega

theorem cbsCut_aligned {alignment : Nat} {geoms : List (Nat × Nat × Nat)} {old r b : RangeStruct}
    (hr : r.base ≤ r.limit) (hin : old.base ≤ r.base ∧ r.limit ≤ old.limit)
    (h1 : alignment ∣ r.base) (h2 : alignment ∣ r.limit) (hold : BlockAligned alignment geoms old)
    (hb : b ∈ cbsCut old r) : BlockAligned alignment geoms b := by
  have hsub : ∀ x, RangeStruct.Mem b x → ∃ g ∈ geoms, g.1 ≤ x ∧ x < g.2.1 :=
    fun x hx => hold.2.2.2 x (cbsCut_sub hr hin hb hx)
  have hlim := hold.2.2.1
  rcases cbsCut_mem hb with ⟨h, _⟩ | ⟨h, _⟩
  · subst h
    exact ⟨hold.1, h1, by simp only; omega, hsub⟩
  · subst h
    exact ⟨h2, hold.2.1, hlim, hsub⟩

theorem cbsTake_effect {r old : RangeStruct} (hr : r.base ≤ r.limit) :
    ∀ (cbs rest : CBS), cbsTake r cbs = some (old, rest) →
      (old ∈ cbs ∧ old.base ≤ r.base ∧ r.limit ≤ old.limit)
      ∧ (∀ x, CBS.Mem rest x → CBS.Mem cbs x)
      ∧ (∀ x, CBS.Mem cbs x → CBS.Mem rest x ∨ r.Mem x)
      ∧ (∀ b ∈ rest, b ∈ cbs ∨ b ∈ cbsCut old r) := by
  intro cbs
  induction cbs with
  | nil => intro rest h; simp [cbsTake] at h
  | cons c cs ih =>
    intro rest h
    unfold cbsTake at h
    split_ifs at h with hc
    · simp only [Option.some.injEq, Prod.mk.injEq] at h
      obtain ⟨e1, e2⟩ := h
      subst e1
      subst e2
      refine ⟨⟨List.mem_cons_self _ _, hc.1, hc.2⟩, ?_, ?_, ?_⟩
      · rintro x ⟨b, hb, hx⟩
        rcases List.mem_append.mp hb with hb | hb
        · exact ⟨c, List.mem_cons_self _ _, cbsCut_sub hr hc hb hx⟩
        · exact ⟨b, List.mem_cons_of_mem _ hb, hx⟩
      · rintro x ⟨b, hb, hx⟩
        rcases List.mem_cons.mp hb with hb | hb
        · subst hb
          rcases cbsCut_cover (r := r) hx with h | ⟨p, hp, hpx⟩
          · exact Or.inr h
          · exact Or.inl ⟨p, List.mem_append_left _ hp, hpx⟩
        · exact Or.inl ⟨b, List.mem_append_right _ hb, hx⟩
      · intro b hb
        rcases List.mem_append.mp hb with hb | hb
        · exact Or.inr hb
        · exact Or.inl (List.mem_cons_of_mem _ hb)
    · cases ht : cbsTake r cs with
      | none => rw [ht] at h; simp at h
      | some out =>
        obtain ⟨old1, rest1⟩ := out
        rw [ht] at h
        simp only [Option.some.injEq, Prod.mk.injEq] at h
        obtain ⟨e1, e2⟩ := h
        subst e1
        subst e2
        obtain ⟨⟨i1, i2, i3⟩, i4, i5, i6⟩ := ih rest1 ht
        refine ⟨⟨List.mem_cons_of_mem _ i1, i2, i3⟩, ?_, ?_, ?_⟩
        · rintro x ⟨b, hb, hx⟩
          rcases List.mem_cons.mp hb with hb | hb
          · subst hb
            exact ⟨b, List.mem_cons_self _ _, hx⟩
          · obtain ⟨b1, hb1, hx1⟩ := i4 x ⟨b, hb, hx⟩
            exact ⟨b1, List.mem_cons_of_mem _ hb1, hx1⟩
        · rintro x ⟨b, hb, hx⟩
          rcases List.mem_cons.mp hb with hb | hb
          · subst hb
            exact Or.inl ⟨b, List.mem_cons_self _ _, hx⟩
          · rcases i5 x ⟨b, hb, hx⟩ with ⟨b1, hb1, hx1⟩ | h
            · exact Or.inl ⟨b1, List.mem_cons_of_mem _ hb1, hx1⟩
            · exact Or.inr h
        · intro b hb
          rcases List.mem_cons.mp hb with hb | hb
          · subst hb
            exact Or.inl (List.mem_cons_self _ _)
          · rcases i6 b hb with h | h
            · exact Or.inl (List.mem_cons_of_mem _ h)
            · exact Or.inr h

/-- What `CBSDelete` does to the set of addresses and to the blocks. -/
theorem CBSDelete_effect (units : Nat) (cbs : CBS) (r : RangeStruct) (hr : r.base ≤ r.limit) :
    (∀ x, CBS.Mem (CBSDelete units cbs r).2.2.1 x → CBS.Mem cbs x)
    ∧ (∀ x, CBS.Mem cbs x → CBS.Mem (CBSDelete units cbs r).2.2.1 x ∨ r.Mem x)
    ∧ (∀ alignment geoms, alignment ∣ r.base → alignment ∣ r.limit →
        (∀ b ∈ cbs, BlockAligned alignment geoms b) →
        ∀ b ∈ (CBSDelete units cbs r).2.2.1, BlockAligned alignment geoms b)
    ∧ ((CBSDelete units cbs r).1 = ResOK →
        (CBSDelete units cbs r).2.1 ∈ cbs ∧ (CBSDelete units cbs r).2.1.base ≤ r.base
        ∧ r.limit ≤ (CBSDelete units cbs r).2.1.limit) := by
  have hsame : (∀ x, CBS.Mem cbs x → CBS.Mem cbs x)
      ∧ (∀ x, CBS.Mem cbs x → CBS.Mem cbs x ∨ r.Mem x)
      ∧ (∀ alignment geoms, alignment ∣ r.base → alignment ∣ r.limit →
          (∀ b ∈ cbs, BlockAligned alignment geoms b) →
          ∀ b ∈ cbs, BlockAligned alignment geoms b) :=
    ⟨fun _ h => h, fun _ h => Or.inl h, fun _ _ _ _ h => h⟩
  cases ht : cbsTake r cbs with
  | none =>
    have e : CBSDelete units cbs r = (ResFAIL, r, cbs, units) := by
      unfold CBSDelete
      simp only [ht]
    rw [e]
    exact ⟨hsame.1, hsame.2.1, hsame.2.2, fun h => by cases h⟩
  | some out =>
    obtain ⟨old, rest⟩ := out
    obtain ⟨⟨i1, i2, i3⟩, i4, i5, i6⟩ := cbsTake_effect hr cbs rest ht
    have hrest : (∀ x, CBS.Mem rest x → CBS.Mem cbs x)
        ∧ (∀ x, CBS.Mem cbs x → CBS.Mem rest x ∨ r.Mem x)
        ∧ (∀ alignment geoms, alignment ∣ r.base → alignment ∣ r.limit →
            (∀ b ∈ cbs, BlockAligned alignment geoms b) →
            ∀ b ∈ rest, BlockAligned alignment geoms b) := by
      refine ⟨i4, i5, ?_⟩
      intro alignment geoms h1 h2 hcbs b hb
      rcases i6 b hb with h | h
      · exact hcbs b h
      · exact cbsCut_aligned hr ⟨i2, i3⟩ h1 h2 (hcbs old i1) h
    have e : CBSDelete units cbs r
        = if (cbsCut old r).length = 2 then
            if units = 0 then (ResLIMIT, old, cbs, units) else (ResOK, old, rest, units - 1)
          else (ResOK, old, rest, units + (1 - (cbsCut old r).length)) := by
      unfold CBSDelete
      simp only [ht]
    rw [e]
    split_ifs
    · exact ⟨hsame.1, hsame.2.1, hsame.2.2, fun h => by cases h⟩
    · exact ⟨hrest.1, hrest.2.1, hrest.2.2, fun _ => ⟨i1, i2, i3⟩⟩
    · exact ⟨hrest.1, hrest.2.1, hrest.2.2, fun _ => ⟨i1, i2, i3⟩⟩

/-! ## The free address space of the arena -/

theorem noLimit_of_suffix {l l1 : List Call} (h : l <:+ l1) (hn : NoLimit l1) : NoLimit l := by
  intro which range hmem
  exact hn which range (h.subset hmem)

theorem quiet_refl (size : Nat) (st : State) : Quiet size st st :=
  ⟨List.suffix_refl _, fun _ h _ => ⟨h, rfl, fun _ => Iff.rfl, rfl, rfl⟩⟩

theorem quiet_trans {size : Nat} {st st1 st2 : State} (h1 : Quiet size st st1)
    (h2 : Quiet size st1 st2) : Quiet size st st2 := by
  refine ⟨h1.1.trans h2.1, fun hn hwf hal => ?_⟩
  obtain ⟨a1, a2, a3, a4, a5⟩ := h1.2 (noLimit_of_suffix h2.1 hn) hwf hal
  obtain ⟨b1, b2, b3, b4, b5⟩ := h2.2 hn a1 (by rw [a5]; exact hal)
  exact ⟨b1, b2.trans a2, fun x => (b3 x).trans (a3 x), b4.trans a4, b5.trans a5⟩

theorem took_after {size : Nat} {found : Found} {st st1 st2 : State} (h1 : Quiet size st st1)
    (h2 : Took size found st1 st2) : Took size found st st2 := by
  refine ⟨h1.1.trans h2.1, fun hn hwf hal => ?_⟩
  obtain ⟨a1, a2, a3, a4, a5⟩ := h1.2 (noLimit_of_suffix h2.1 hn) hwf hal
  obtain ⟨b1, b2, b3, b4, b5, b6, b7⟩ := h2.2 hn a1 (by rw [a5]; exact hal)
  refine ⟨b1, b2.trans a2, fun x => (a3 x).symm.trans (b3 x), ?_, b5, b6, b7⟩
  rw [b4, a4, a2]

theorem outcome_after {size : Nat} {st st1 : State} {r : Res × Option Found × State}
    (h1 : Quiet size st st1) (h2 : Outcome size st1 r) : Outcome size st r := by
  refine ⟨fun hok => ?_, fun hno => quiet_trans h1 (h2.2 hno)⟩
  obtain ⟨found, hf, ht⟩ := h2.1 hok
  exact ⟨found, hf, took_after h1 ht⟩

theorem outcome_orTry {size : Nat} {st : State} {r : Res × Option Found × State}
    {attempt : State → Res × Option Found × State} (h : Outcome size st r)
    (hnext : ∀ st1, Quiet size st st1 → Outcome size st (attempt st1)) :
    Outcome size st (orTry r attempt) := by
  unfold MPS.orTry
  split_ifs with hok
  · exact h
  · exact hnext _ (h.2 hok)

theorem freeAddr_iff (a : Arena) (x : Nat) :
    a.FreeAddr x ↔ ∃ w : WhichCBS, w.Valid ∧ CBS.Mem (a.cbs w) x := by
  unfold Arena.FreeAddr
  constructor
  · rintro (h | ⟨z, hz, h⟩)
    · exact ⟨.free, trivial, h⟩
    · exact ⟨.zone z, hz, h⟩
  · rintro ⟨w, hw, h⟩
    cases w with
    | free => exact Or.inl h
    | zone z => exact Or.inr ⟨z, hw, h⟩

theorem setCBS_cbs (a : Arena) (w w1 : WhichCBS) (cbs : CBS) (units : Nat) :
    (a.setCBS w cbs units).cbs w1 = if w1 = w then cbs else a.cbs w1 := by
  cases w <;> cases w1 <;> simp [Arena.setCBS, Arena.cbs, Arena.setZoneCBS]

theorem setCBS_sub {a : Arena} {w : WhichCBS} {cbs : CBS} {units : Nat}
    (hsub : ∀ x, CBS.Mem cbs x → CBS.Mem (a.cbs w) x) (hw : w.Valid) (x : Nat) :
    (a.setCBS w cbs units).FreeAddr x → a.FreeAddr x := by
  rw [freeAddr_iff, freeAddr_iff]
  rintro ⟨w1, hw1, h⟩
  rw [setCBS_cbs] at h
  split_ifs at h with e
  · exact ⟨w, hw, hsub x h⟩
  · exact ⟨w1, hw1, h⟩

theorem setCBS_sup {a : Arena} {w : WhichCBS} {cbs : CBS} {units : Nat} {P : Nat → Prop}
    (hsup : ∀ x, CBS.Mem (a.cbs w) x → CBS.Mem cbs x ∨ P x) (hw : w.Valid) (x : Nat) :
    a.FreeAddr x → (a.setCBS w cbs units).FreeAddr x ∨ P x := by
  rw [freeAddr_iff, freeAddr_iff]
  rintro ⟨w1, hw1, h⟩
  by_cases e : w1 = w
  · subst e
    rcases hsup x h with h1 | h1
    · exact Or.inl ⟨w1, hw1, by rw [setCBS_cbs, if_pos rfl]; exact h1⟩
    · exact Or.inr h1
  · exact Or.inl ⟨w1, hw1, by rw [setCBS_cbs, if_neg e]; exact h⟩

theorem setCBS_mem {a : Arena} {w : WhichCBS} {cbs : CBS} {units : Nat} (hw : w.Valid)
    {x : Nat} (h : CBS.Mem cbs x) : (a.setCBS w cbs units).FreeAddr x := by
  rw [freeAddr_iff]
  exact ⟨w, hw, by rw [setCBS_cbs, if_pos rfl]; exact h⟩

theorem setCBS_fields (a : Arena) (w : WhichCBS) (cbs : CBS) (units : Nat) :
    (a.setCBS w cbs units).alignment = a.alignment
    ∧ (a.setCBS w cbs units).zoneShift = a.zoneShift
    ∧ (a.setCBS w cbs units).chunkRing = a.chunkRing
    ∧ (a.setCBS w cbs units).freeRing = a.freeRing
    ∧ (a.setCBS w cbs units).freeZones = a.freeZones := by
  cases w <;> simp [Arena.setCBS, Arena.setZoneCBS]

theorem setCBS_aligned {a : Arena} {w : WhichCBS} {cbs : CBS} {units : Nat}
    (ha : a.IndexAligned)
    (hcbs : ∀ b ∈ cbs, BlockAligned a.alignment (a.chunkRing.map Chunk.geom) b) :
    (a.setCBS w cbs units).IndexAligned := by
  obtain ⟨f1, f2, f3, f4, f5⟩ := setCBS_fields a w cbs units
  obtain ⟨h1, h0, h2, h3, h4, h5⟩ := ha
  unfold Arena.IndexAligned
  rw [f1, f2, f3, f4]
  refine ⟨h1, h0, h2, h3, ?_, h5⟩
  intro w1 b hb
  rw [setCBS_cbs] at hb
  split_ifs at hb
  · exact hcbs b hb
  · exact h4 w1 b hb

theorem sameIndices_quiet {s : State} {a1 : Arena} (size : Nat) (c : Call)
    (h : s.arena.SameIndices a1) : Quiet size s ((s.set a1).log c) := by
  refine ⟨List.suffix_cons _ _, fun _ hwf _ => ?_⟩
  obtain ⟨e1, e2, e3, e4, e5, e6, e7, e8⟩ := h
  obtain ⟨h1, h0, h2, h3, h4, h5⟩ := hwf
  have hcbs : ∀ w, a1.cbs w = s.arena.cbs w := by
    intro w
    cases w with
    | free => exact e1
    | zone z => simp only [Arena.cbs]; rw [e2]
  refine ⟨⟨?_, ?_, ?_, ?_, ?_, ?_⟩, e6, ?_, e5, e7⟩
  · show 0 < a1.alignment
    rw [e7]; exact h1
  · show a1.zoneShift < MPS_WORD_WIDTH
    rw [e6]; exact h0
  · show a1.alignment ∣ 2 ^ a1.zoneShift
    rw [e7, e6]; exact h2
  · show ∀ g ∈ a1.chunkRing.map Chunk.geom, g.2.2 = a1.alignment ∧ a1.alignment ∣ g.1
    rw [e7, e8]; exact h3
  · show ∀ w b, b ∈ a1.cbs w → BlockAligned a1.alignment (a1.chunkRing.map Chunk.geom) b
    intro w b hb
    rw [e7, e8]
    rw [hcbs] at hb
    exact h4 w b hb
  · show ∀ z, a1.freeRing z = []
    rw [e4]; exact h5
  · intro x
    show a1.FreeAddr x ↔ s.arena.FreeAddr x
    unfold Arena.FreeAddr
    rw [e1, e2]

theorem arenaCBSInsert_calls (w : WhichCBS) (r : RangeStruct) (st : State) :
    (arenaCBSInsert w r st).2.2.calls
      = Call.cbsInsert w r (arenaCBSInsert w r st).1 :: st.calls := rfl

theorem arenaCBSInsert_ok {w : WhichCBS} {r : RangeStruct} {st : State}
    (hn : NoLimit (arenaCBSInsert w r st).2.2.calls) : (arenaCBSInsert w r st).1 = ResOK := by
  rcases (CBSInsert_effect st.arena.cbsBlockPoolStruct.units (st.arena.cbs w) r).1 with h | h
  · exact h
  · exfalso
    apply hn w r
    rw [arenaCBSInsert_calls]
    have : (arenaCBSInsert w r st).1 = ResLIMIT := h.1
    rw [this]
    exact List.mem_cons_self _ _

theorem arenaCBSInsert_effect {w : WhichCBS} (hw : w.Valid) (r : RangeStruct) (st : State)
    (hok : (arenaCBSInsert w r st).1 = ResOK) :
    (arenaCBSInsert w r st).2.2.arena.zoneShift = st.arena.zoneShift
    ∧ (arenaCBSInsert w r st).2.2.arena.freeZones = st.arena.freeZones
    ∧ (∀ x, (arenaCBSInsert w r st).2.2.arena.FreeAddr x ↔ st.arena.FreeAddr x ∨ r.Mem x)
    ∧ (st.arena.IndexAligned →
        BlockAligned st.arena.alignment (st.arena.chunkRing.map Chunk.geom) r →
        (arenaCBSInsert w r st).2.2.arena.IndexAligned) := by
  obtain ⟨hmem, hal⟩ :=
    (CBSInsert_effect st.arena.cbsBlockPoolStruct.units (st.arena.cbs w) r).2 hok
  have harena : (arenaCBSInsert w r st).2.2.arena
      = st.arena.setCBS w (CBSInsert st.arena.cbsBlockPoolStruct.units (st.arena.cbs w) r).2.2.1
          (CBSInsert st.arena.cbsBlockPoolStruct.units (st.arena.cbs w) r).2.2.2 := rfl
  rw [harena]
  obtain ⟨f1, f2, f3, f4, f5⟩ := setCBS_fields st.arena w
    (CBSInsert st.arena.cbsBlockPoolStruct.units (st.arena.cbs w) r).2.2.1
    (CBSInsert st.arena.cbsBlockPoolStruct.units (st.arena.cbs w) r).2.2.2
  refine ⟨f2, f5, fun x => ⟨fun h => ?_, fun h => ?_⟩, fun hwf hr => ?_⟩
  · rw [freeAddr_iff] at h
    obtain ⟨w1, hw1, h⟩ := h
    rw [setCBS_cbs] at h
    split_ifs at h with e
    · rcases (hmem x).mp h with h1 | h1
      · exact Or.inl ((freeAddr_iff _ _).mpr ⟨w, hw, h1⟩)
      · exact Or.inr h1
    · exact Or.inl ((freeAddr_iff _ _).mpr ⟨w1, hw1, h⟩)
  · rcases h with h | h
    · rcases setCBS_sup (P := fun _ => False)
          (fun x hx => Or.inl ((hmem x).mpr (Or.inl hx))) hw x h with h1 | h1
      · exact h1
      · exact absurd h1 id
    · exact setCBS_mem hw ((hmem x).mpr (Or.inr h))
  · exact setCBS_aligned hwf (hal _ _ hr (hwf.2.2.2.2.1 w))

theorem arenaCBSDelete_effect {w : WhichCBS} (hw : w.Valid) (r : RangeStruct) (st : State)
    (hr : r.base ≤ r.limit) :
    (arenaCBSDelete w r st).2.2.calls
      = Call.cbsDelete w r (arenaCBSDelete w r st).1 :: st.calls
    ∧ (arenaCBSDelete w r st).2.2.arena.zoneShift = st.arena.zoneShift
    ∧ (arenaCBSDelete w r st).2.2.arena.freeZones = st.arena.freeZones
    ∧ (arenaCBSDelete w r st).2.2.arena.alignment = st.arena.alignment
    ∧ (arenaCBSDelete w r st).2.2.arena.chunkRing = st.arena.chunkRing
    ∧ (∀ x, (arenaCBSDelete w r st).2.2.arena.FreeAddr x → st.arena.FreeAddr x)
    ∧ (∀ x, st.arena.FreeAddr x → (arenaCBSDelete w r st).2.2.arena.FreeAddr x ∨ r.Mem x)
    ∧ (st.arena.IndexAligned → st.arena.alignment ∣ r.base → st.arena.alignment ∣ r.limit →
        (arenaCBSDelete w r st).2.2.arena.IndexAligned) := by
  obtain ⟨hsub, hsup, hal, _⟩ :=
    CBSDelete_effect st.arena.cbsBlockPoolStruct.units (st.arena.cbs w) r hr
  have harena : (arenaCBSDelete w r st).2.2.arena
      = st.arena.setCBS w (CBSDelete st.arena.cbsBlockPoolStruct.units (st.arena.cbs w) r).2.2.1
          (CBSDelete st.arena.cbsBlockPoolStruct.units (st.arena.cbs w) r).2.2.2 := rfl
  rw [harena]
  obtain ⟨f1, f2, f3, f4, f5⟩ := setCBS_fields st.arena w
    (CBSDelete st.arena.cbsBlockPoolStruct.units (st.arena.cbs w) r).2.2.1
    (CBSDelete st.arena.cbsBlockPoolStruct.units (st.arena.cbs w) r).2.2.2
  refine ⟨rfl, f2, f5, f1, f3, setCBS_sub hsub hw, setCBS_sup hsup hw, fun hwf h1 h2 => ?_⟩
  exact setCBS_aligned hwf (hal _ _ h1 h2 (hwf.2.2.2.2.1 w))

theorem addrZone_valid (zoneShift a : Nat) : (WhichCBS.zone (AddrZone zoneShift a)).Valid :=
  addrZone_lt zoneShift a

/-! ## What the searches take -/

theorem CBSFindFirst_effect {units size : Nat} {cbs : CBS} {range old : RangeStruct} {rest : CBS}
    {units1 : Nat} (h : CBSFindFirst units cbs size = some (range, old, rest, units1)) :
    range.limit = range.base + size
    ∧ (∀ x, range.Mem x → CBS.Mem cbs x)
    ∧ (∀ x, CBS.Mem rest x → CBS.Mem cbs x)
    ∧ (∀ x, CBS.Mem cbs x → CBS.Mem rest x ∨ range.Mem x)
    ∧ (∀ alignment geoms, alignment ∣ size → (∀ b ∈ cbs, BlockAligned alignment geoms b) →
        (∀ b ∈ rest, BlockAligned alignment geoms b) ∧ BlockAligned alignment geoms range) := by
  obtain ⟨b, hb, hb1, hb2, hb3⟩ := CBSFindFirst_some h
  unfold CBSFindFirst at h
  cases hfit : cbsFirstFit size cbs with
  | none => rw [hfit] at h; simp at h
  | some b1 =>
    rw [hfit] at h
    simp only at h
    split at h
    · rename_i old1 rest1 units2 hdel
      simp only [Option.some.injEq, Prod.mk.injEq] at h
      obtain ⟨e1, e2, e3, e4⟩ := h
      have hr : range.base ≤ range.limit := by rw [hb3]; simp
      rw [e1] at hdel
      obtain ⟨d1, d2, d3, _⟩ := CBSDelete_effect units cbs range hr
      rw [hdel] at d1 d2 d3
      simp only at d1 d2 d3
      rw [e3] at d1 d2 d3
      have hsub : ∀ x, range.Mem x → RangeStruct.Mem b x := by
        intro x hx
        rw [hb3] at hx
        unfold RangeStruct.Mem at *
        simp only at hx
        omega
      refine ⟨by rw [hb3], fun x hx => ⟨b, hb, hsub x hx⟩, d1, d2, ?_⟩
      intro alignment geoms hal hcbs
      have hbal := hcbs b hb
      have hral : BlockAligned alignment geoms range := by
        refine ⟨by rw [hb3]; exact hbal.1, by rw [hb3]; exact Nat.dvd_add hbal.1 hal, ?_,
          fun x hx => hbal.2.2.2 x (hsub x hx)⟩
        have := hbal.2.2.1
        rw [hb3]
        simp only
        omega
      exact ⟨d3 alignment geoms hral.1 hral.2.1 hcbs, hral⟩
    · simp at h

theorem zoneFit_aligned {zoneShift zones size hi c alignment : Nat} (fuel : Nat)
    (hal : alignment ∣ 2 ^ zoneShift) :
    ∀ lo, alignment ∣ lo → zoneFit zoneShift zones size hi fuel lo = some c → alignment ∣ c := by
  induction fuel with
  | zero => intro lo _ h; simp [zoneFit] at h
  | succ fuel ih =>
    intro lo hlo h
    unfold zoneFit at h
    split_ifs at h with h1 h2
    · have : lo = c := Option.some.inj h
      rw [← this]
      exact hlo
    · refine ih _ ?_ h
      unfold AddrAlignDown
      exact Dvd.dvd.mul_left hal _

theorem cbsZoneFit_effect {zoneShift zones size : Nat} {b r : RangeStruct} :
    ∀ cbs : CBS, cbsZoneFit zoneShift zones size cbs = some (b, r) →
      b ∈ cbs ∧ r.limit = r.base + size
      ∧ ∀ alignment, alignment ∣ 2 ^ zoneShift → alignment ∣ b.base → alignment ∣ r.base := by
  intro cbs
  induction cbs with
  | nil => intro h; simp [cbsZoneFit] at h
  | cons c cs ih =>
    intro h
    unfold cbsZoneFit at h
    split at h
    · rename_i c0 hc0
      simp only [Option.some.injEq, Prod.mk.injEq] at h
      obtain ⟨e1, e2⟩ := h
      subst e1
      subst e2
      exact ⟨List.mem_cons_self _ _, rfl, fun alignment h1 h2 => zoneFit_aligned _ h1 _ h2 hc0⟩
    · obtain ⟨i1, i2⟩ := ih h
      exact ⟨List.mem_cons_of_mem _ i1, i2⟩

theorem CBSFindFirstInZones_effect {units size zoneShift zones : Nat} {cbs : CBS}
    {range old : RangeStruct} {rest : CBS} {units1 : Nat}
    (h : CBSFindFirstInZones units cbs size zoneShift zones = some (range, old, rest, units1)) :
    range.limit = range.base + size
    ∧ (old ∈ cbs ∧ old.base ≤ range.base ∧ range.limit ≤ old.limit)
    ∧ (∀ x, CBS.Mem rest x → CBS.Mem cbs x)
    ∧ (∀ x, CBS.Mem cbs x → CBS.Mem rest x ∨ range.Mem x)
    ∧ (∀ alignment geoms, alignment ∣ size → alignment ∣ 2 ^ zoneShift →
        (∀ b ∈ cbs, BlockAligned alignment geoms b) →
        (∀ b ∈ rest, BlockAligned alignment geoms b) ∧ BlockAligned alignment geoms range) := by
  unfold CBSFindFirstInZones at h
  split at h
  · simp at h
  · rename_i b r hfit
    obtain ⟨z1, z2, z3⟩ := cbsZoneFit_effect cbs hfit
    split at h
    · rename_i old1 rest1 units2 hdel
      simp only [Option.some.injEq, Prod.mk.injEq] at h
      obtain ⟨e1, e2, e3, e4⟩ := h
      subst e1
      have hr : r.base ≤ r.limit := by rw [z2]; simp
      obtain ⟨d1, d2, d3, d4⟩ := CBSDelete_effect units cbs r hr
      rw [hdel] at d1 d2 d3 d4
      simp only at d1 d2 d3 d4
      rw [e3] at d1 d2 d3
      rw [e2] at d4
      have d4 := d4 trivial
      refine ⟨z2, d4, d1, d2, ?_⟩
      intro alignment geoms hal hshift hcbs
      have hold := hcbs old d4.1
      have hb := hcbs b z1
      have hlim := hold.2.2.1
      have hral : BlockAligned alignment geoms r := by
        refine ⟨z3 alignment hshift hb.1, by rw [z2]; exact Nat.dvd_add (z3 alignment hshift hb.1) hal,
          by omega, fun x hx => hold.2.2.2 x ?_⟩
        unfold RangeStruct.Mem at *
        omega
      exact ⟨d3 alignment geoms hral.1 hral.2.1 hcbs, hral⟩
    · simp at h

theorem findSpareFrom_none {arena : Arena} {zones : Nat} (h : ∀ z, arena.freeRing z = []) (n : Nat) :
    ∀ i, findSpareFrom arena zones n i = none := by
  induction n with
  | zero => intro i; rfl
  | succ n ih =>
    intro i
    unfold findSpareFrom
    rw [h i]
    exact ih _

theorem findInZoneCBSFrom_effect {st st1 : State} {zones size : Nat} {range : RangeStruct}
    (n : Nat) : ∀ i, i + n ≤ MPS_WORD_WIDTH →
      findInZoneCBSFrom st zones size n i = some (range, st1) →
      ∃ z old rest units1, z < MPS_WORD_WIDTH
        ∧ CBSFindFirst st.arena.cbsBlockPoolStruct.units (st.arena.zoneCBS z) size
            = some (range, old, rest, units1)
        ∧ st1 = st.set (st.arena.setCBS (.zone z) rest units1) := by
  induction n with
  | zero => intro i _ h; simp [findInZoneCBSFrom] at h
  | succ n ih =>
    intro i hi h
    unfold findInZoneCBSFrom at h
    by_cases hm : ZoneSetIsMember zones i = true
    · rw [if_pos hm] at h
      cases hf : CBSFindFirst st.arena.cbsBlockPoolStruct.units (st.arena.zoneCBS i) size with
      | none => rw [hf] at h; exact ih _ (by omega) h
      | some out =>
        obtain ⟨r, old, rest, units1⟩ := out
        rw [hf] at h
        simp only [Option.some.injEq, Prod.mk.injEq] at h
        obtain ⟨e1, e2⟩ := h
        subst e1
        exact ⟨i, old, rest, units1, by omega, hf, e2.symm⟩
    · rw [if_neg hm] at h
      exact ih _ (by omega) h

theorem arenaAllocFindInZoneCBS_picked {st st1 : State} {zones size : Nat} {range : RangeStruct}
    (h : arenaAllocFindInZoneCBS st zones size = some (range, st1)) :
    Picked size range st st1 := by
  unfold arenaAllocFindInZoneCBS at h
  obtain ⟨z, old, rest, units1, hz, hfind, hst⟩ :=
    findInZoneCBSFrom_effect MPS_WORD_WIDTH 0 (by omega) h
  obtain ⟨c1, c2, c3, c4, c5⟩ := CBSFindFirst_effect hfind
  subst hst
  have hw : (WhichCBS.zone z).Valid := hz
  obtain ⟨f1, f2, f3, f4, f5⟩ := setCBS_fields st.arena (.zone z) rest units1
  refine ⟨List.suffix_refl _, fun _ hwf hal => ?_⟩
  obtain ⟨g1, g2⟩ := c5 st.arena.alignment (st.arena.chunkRing.map Chunk.geom) hal
    (hwf.2.2.2.2.1 (.zone z))
  refine ⟨setCBS_aligned hwf g1, f2, f5, f1, f3, fun x => ⟨?_, ?_⟩, g2, c1⟩
  · exact setCBS_sup (w := .zone z) c4 hw x
  · rintro (hx | hx)
    · exact setCBS_sub (w := .zone z) c3 hw x hx
    · exact (freeAddr_iff _ _).mpr ⟨.zone z, hw, c2 x hx⟩

theorem addrAlignUp_dvd {alignment zoneShift x : Nat} (hs : zoneShift < MPS_WORD_WIDTH)
    (hal : alignment ∣ 2 ^ zoneShift) :
    alignment ∣ AddrAlignUp x (2 ^ zoneShift % WordRange) := by
  have hW : alignment ∣ WordRange := by
    unfold WordRange
    exact hal.trans (pow_dvd_pow 2 (Nat.le_of_lt hs))
  have hS : alignment ∣ 2 ^ zoneShift % WordRange := (Nat.dvd_mod_iff hW).mpr hal
  unfold AddrAlignUp
  exact (Nat.dvd_mod_iff hW).mpr (Dvd.dvd.mul_left hS _)

/-- Moving a tail that is free leaves the free address space as it was. -/
theorem arenaMoveTail_quiet (allocLimit limit : Nat) (st : State) :
    st.calls <:+ (arenaMoveTail allocLimit limit st).calls
    ∧ (NoLimit (arenaMoveTail allocLimit limit st).calls → st.arena.IndexAligned →
        BlockAligned st.arena.alignment (st.arena.chunkRing.map Chunk.geom) ⟨allocLimit, limit⟩ →
        (∀ x, RangeStruct.Mem ⟨allocLimit, limit⟩ x → st.arena.FreeAddr x) →
        (arenaMoveTail allocLimit limit st).arena.IndexAligned
        ∧ (arenaMoveTail allocLimit limit st).arena.zoneShift = st.arena.zoneShift
        ∧ (arenaMoveTail allocLimit limit st).arena.freeZones = st.arena.freeZones
        ∧ (arenaMoveTail allocLimit limit st).arena.alignment = st.arena.alignment
        ∧ (arenaMoveTail allocLimit limit st).arena.chunkRing = st.arena.chunkRing
        ∧ ∀ x, (arenaMoveTail allocLimit limit st).arena.FreeAddr x ↔ st.arena.FreeAddr x) := by
  unfold arenaMoveTail
  split_ifs with htail
  · simp only
    have hr : (⟨allocLimit, limit⟩ : RangeStruct).base ≤ (⟨allocLimit, limit⟩ : RangeStruct).limit :=
      Nat.le_of_lt htail
    obtain ⟨d1, d2, d3, d4, d5, d6, d7, d8⟩ :=
      arenaCBSDelete_effect (w := .free) trivial ⟨allocLimit, limit⟩ st hr
    refine ⟨?_, fun hn hwf hrest hfree => ?_⟩
    · rw [arenaCBSInsert_calls, d1]
      exact (List.suffix_cons _ _).trans (List.suffix_cons _ _)
    · have hok := arenaCBSInsert_ok hn
      have hwf2 := d8 hwf hrest.1 hrest.2.1
      obtain ⟨i1, i2, i3, i4⟩ := arenaCBSInsert_effect (addrZone_valid _ _) _ _ hok
      have hwf3 := i4 hwf2 (by rw [d4, d5]; exact hrest)
      have hal : (arenaCBSInsert
          (.zone (AddrZone (arenaCBSDelete .free ⟨allocLimit, limit⟩ st).2.2.arena.zoneShift
            allocLimit)) ⟨allocLimit, limit⟩
          (arenaCBSDelete .free ⟨allocLimit, limit⟩ st).2.2).2.2.arena.alignment
          = st.arena.alignment := d4
      have hring : (arenaCBSInsert
          (.zone (AddrZone (arenaCBSDelete .free ⟨allocLimit, limit⟩ st).2.2.arena.zoneShift
            allocLimit)) ⟨allocLimit, limit⟩
          (arenaCBSDelete .free ⟨allocLimit, limit⟩ st).2.2).2.2.arena.chunkRing
          = st.arena.chunkRing := d5
      refine ⟨hwf3, i1.trans d2, i2.trans d3, ?_, ?_, fun x => ?_⟩
      · exact hal
      · exact hring
      · rw [i3 x]
        constructor
        · rintro (hx | hx)
          · exact d6 x hx
          · exact hfree x hx
        · intro hx
          exact d7 x hx
  · exact ⟨List.suffix_refl _, fun _ hwf _ _ => ⟨hwf, rfl, rfl, rfl, rfl, fun _ => Iff.rfl⟩⟩

theorem arenaAllocFindInFreeCBS_picked {st st1 : State} {zones size : Nat} {range : RangeStruct}
    (h : arenaAllocFindInFreeCBS st zones size = some (range, st1)) :
    Picked size range st st1 := by
  unfold arenaAllocFindInFreeCBS at h
  split at h
  · simp at h
  · rename_i r old rest units1 hfind
    obtain ⟨c1, ⟨c2a, c2b, c2c⟩, c3, c4, c5⟩ := CBSFindFirstInZones_effect hfind
    obtain ⟨f1, f2, f3, f4, f5⟩ := setCBS_fields st.arena .free rest units1
    have hw : WhichCBS.free.Valid := trivial
    have hP1 : ∀ x, st.arena.FreeAddr x
        ↔ (st.arena.setCBS .free rest units1).FreeAddr x ∨ r.Mem x := by
      intro x
      constructor
      · exact setCBS_sup (w := .free) c4 hw x
      · rintro (hx | hx)
        · exact setCBS_sub (w := .free) c3 hw x hx
        · have : old.Mem x := by
            unfold RangeStruct.Mem at *
            omega
          exact (freeAddr_iff _ _).mpr ⟨.free, hw, ⟨old, c2a, this⟩⟩
    simp only [Option.some.injEq, Prod.mk.injEq] at h
    obtain ⟨e1, e2⟩ := h
    subst e1
    obtain ⟨t1, t2⟩ := arenaMoveTail_quiet r.limit
      (if old.limit < AddrAlignUp r.limit
          (2 ^ (st.set (st.arena.setCBS .free rest units1)).arena.zoneShift % WordRange)
        then old.limit
        else AddrAlignUp r.limit
          (2 ^ (st.set (st.arena.setCBS .free rest units1)).arena.zoneShift % WordRange))
      (st.set (st.arena.setCBS .free rest units1))
    rw [e2] at t1 t2
    refine ⟨t1, fun hn hwf hal => ?_⟩
    obtain ⟨g1, g2⟩ := c5 st.arena.alignment (st.arena.chunkRing.map Chunk.geom) hal
      hwf.2.2.1 (hwf.2.2.2.2.1 .free)
    have hold := hwf.2.2.2.2.1 .free old c2a
    have hwf1 : (st.arena.setCBS .free rest units1).IndexAligned := setCBS_aligned hwf g1
    have hlimit : (if old.limit < AddrAlignUp r.limit
          (2 ^ (st.set (st.arena.setCBS .free rest units1)).arena.zoneShift % WordRange)
        then old.limit
        else AddrAlignUp r.limit
          (2 ^ (st.set (st.arena.setCBS .free rest units1)).arena.zoneShift % WordRange))
        ≤ old.limit
        ∧ st.arena.alignment ∣ (if old.limit < AddrAlignUp r.limit
          (2 ^ (st.set (st.arena.setCBS .free rest units1)).arena.zoneShift % WordRange)
        then old.limit
        else AddrAlignUp r.limit
          (2 ^ (st.set (st.arena.setCBS .free rest units1)).arena.zoneShift % WordRange)) := by
      split_ifs with hlt
      · exact ⟨le_refl _, hold.2.1⟩
      · refine ⟨by omega, ?_⟩
        have : (st.set (st.arena.setCBS .free rest units1)).arena.zoneShift = st.arena.zoneShift := f2
        rw [this]
        exact addrAlignUp_dvd hwf.2.1 hwf.2.2.1
    have hsubold : ∀ x, RangeStruct.Mem ⟨r.limit, (if old.limit < AddrAlignUp r.limit
          (2 ^ (st.set (st.arena.setCBS .free rest units1)).arena.zoneShift % WordRange)
        then old.limit
        else AddrAlignUp r.limit
          (2 ^ (st.set (st.arena.setCBS .free rest units1)).arena.zoneShift % WordRange))⟩ x
        → old.Mem x ∧ ¬ r.Mem x := by
      intro x hx
      have := hlimit.1
      unfold RangeStruct.Mem at *
      simp only at hx
      omega
    have hrest : BlockAligned st.arena.alignment (st.arena.chunkRing.map Chunk.geom)
        ⟨r.limit, (if old.limit < AddrAlignUp r.limit
          (2 ^ (st.set (st.arena.setCBS .free rest units1)).arena.zoneShift % WordRange)
        then old.limit
        else AddrAlignUp r.limit
          (2 ^ (st.set (st.arena.setCBS .free rest units1)).arena.zoneShift % WordRange))⟩ := by
      refine ⟨g2.2.1, hlimit.2, ?_, fun x hx => hold.2.2.2 x (hsubold x hx).1⟩
      have := hold.2.2.1
      have := hlimit.1
      simp only
      omega
    have hfree : ∀ x, RangeStruct.Mem ⟨r.limit, (if old.limit < AddrAlignUp r.limit
          (2 ^ (st.set (st.arena.setCBS .free rest units1)).arena.zoneShift % WordRange)
        then old.limit
        else AddrAlignUp r.limit
          (2 ^ (st.set (st.arena.setCBS .free rest units1)).arena.zoneShift % WordRange))⟩ x
        → (st.arena.setCBS .free rest units1).FreeAddr x := by
      intro x hx
      obtain ⟨h1, h2⟩ := hsubold x hx
      rcases (hP1 x).mp ((freeAddr_iff _ _).mpr ⟨.free, hw, ⟨old, c2a, h1⟩⟩) with h3 | h3
      · exact h3
      · exact absurd h3 h2
    obtain ⟨u1, u2, u3, u4, u5, u6⟩ := t2 hn hwf1
      (by
        show BlockAligned (st.arena.setCBS .free rest units1).alignment
          ((st.arena.setCBS .free rest units1).chunkRing.map Chunk.geom) _
        rw [f1, f3]
        exact hrest)
      hfree
    refine ⟨u1, u2.trans f2, u3.trans f5, u4.trans f1, u5.trans f3, fun x => ?_, g2, c1⟩
    rw [hP1 x]
    exact or_congr_left (u6 x).symm

/-! ## The tract of a range -/

theorem chunkIndexOfAddr_some {x : Nat} :
    ∀ chunks : List Chunk, (∃ g ∈ chunks.map Chunk.geom, g.1 ≤ x ∧ x < g.2.1) →
      ∃ i, chunkIndexOfAddr x chunks = some i
        ∧ chunks.getD i default ∈ chunks
        ∧ (chunks.getD i default).base ≤ x := by
  intro chunks
  induction chunks with
  | nil => rintro ⟨g, hg, _⟩; simp at hg
  | cons c cs ih =>
    intro h
    unfold chunkIndexOfAddr
    by_cases hc : c.base ≤ x ∧ x < c.limit
    · rw [if_pos hc]
      exact ⟨0, rfl, List.mem_cons_self _ _, hc.1⟩
    · rw [if_neg hc]
      have hrest : ∃ g ∈ cs.map Chunk.geom, g.1 ≤ x ∧ x < g.2.1 := by
        obtain ⟨g, hg, hx⟩ := h
        rw [List.map_cons] at hg
        rcases List.mem_cons.mp hg with hg | hg
        · subst hg
          exact absurd hx hc
        · exact ⟨g, hg, hx⟩
      obtain ⟨i, hi, hmem, hbase⟩ := ih hrest
      rw [hi]
      exact ⟨i + 1, rfl, List.mem_cons_of_mem _ hmem, hbase⟩

theorem chunk_geom_eq {a a1 : Arena} (h : a1.chunkRing.map Chunk.geom = a.chunkRing.map Chunk.geom)
    (i : Nat) : (a1.chunk i).geom = (a.chunk i).geom := by
  unfold Arena.chunk
  have h1 := List.getD_map (l := a1.chunkRing) (d := default) (n := i) Chunk.geom
  have h2 := List.getD_map (l := a.chunkRing) (d := default) (n := i) Chunk.geom
  rw [← h1, ← h2, h]

theorem tractBase_eq {a a1 : Arena} {r : RangeStruct}
    (hgeom : a1.chunkRing.map Chunk.geom = a.chunkRing.map Chunk.geom)
    (hwf : a.IndexAligned)
    (hr : BlockAligned a.alignment (a.chunkRing.map Chunk.geom) r)
    (hne : r.base < r.limit) :
    TractBase a1 ⟨CHUNK_OF_ADDR a r.base,
        INDEX_OF_ADDR (a.chunk (CHUNK_OF_ADDR a r.base)) r.base⟩ = r.base := by
  obtain ⟨i, hi, hmem, hbase⟩ := chunkIndexOfAddr_some a.chunkRing
    (hr.2.2.2 r.base ⟨le_refl _, hne⟩)
  have hchunk : CHUNK_OF_ADDR a r.base = i := by
    unfold CHUNK_OF_ADDR
    rw [hi]
    rfl
  have hg := hwf.2.2.2.1 (a.chunk i).geom (List.mem_map_of_mem _ hmem)
  have hg1 := chunk_geom_eq hgeom i
  unfold Chunk.geom at hg hg1
  simp only [Prod.mk.injEq] at hg hg1
  obtain ⟨hps, hdvd⟩ := hg
  obtain ⟨e1, _, e3⟩ := hg1
  have hpos := hwf.1
  have hlt := hr.2.2.1
  have hb : (a.chunk i).base ≤ r.base := hbase
  unfold TractBase PageIndexBase INDEX_OF_ADDR AddrAdd
  simp only
  rw [hchunk, e1, e3, hps]
  have hsub : a.alignment ∣ r.base - (a.chunk i).base := Nat.dvd_sub' hr.1 hdvd
  rw [Nat.div_mul_cancel hsub]
  rw [Nat.add_sub_cancel' hb]
  exact Nat.mod_eq_of_lt (by omega)

/-! ## One search of the indices -/

theorem quiet_log (size : Nat) (st : State) (c : Call) : Quiet size st (st.log c) :=
  ⟨List.suffix_cons _ _, fun _ h _ => ⟨h, rfl, fun _ => Iff.rfl, rfl, rfl⟩⟩

theorem arenaAllocFind_picked {zones size chunk baseIndex pages : Nat} {range : RangeStruct}
    {st st1 : State}
    (h : arenaAllocFind zones size st = some (chunk, baseIndex, pages, range, st1)) :
    st.calls <:+ st1.calls
    ∧ (st.arena.IndexAligned →
        Picked size range st st1
        ∧ chunk = CHUNK_OF_ADDR st1.arena range.base
        ∧ baseIndex = INDEX_OF_ADDR (st1.arena.chunk chunk) range.base) := by
  unfold arenaAllocFind at h
  split at h
  · rename_i c bi n hspare
    simp only [Option.some.injEq, Prod.mk.injEq] at h
    obtain ⟨_, _, _, _, hst⟩ := h
    subst hst
    refine ⟨List.suffix_refl _, fun hwf => ?_⟩
    exfalso
    unfold arenaAllocFindSpare at hspare
    split_ifs at hspare
    rw [findSpareFrom_none hwf.2.2.2.2.2] at hspare
    simp at hspare
  · split at h
    · rename_i r s1 hfind
      simp only [Option.some.injEq, Prod.mk.injEq] at h
      obtain ⟨e1, e2, _, e4, e5⟩ := h
      subst e4
      subst e5
      have hp := arenaAllocFindInZoneCBS_picked hfind
      exact ⟨hp.1, fun _ => ⟨hp, e1.symm, by rw [← e2, e1]⟩⟩
    · split at h
      · rename_i r s1 hfind
        simp only [Option.some.injEq, Prod.mk.injEq] at h
        obtain ⟨e1, e2, _, e4, e5⟩ := h
        subst e4
        subst e5
        have hp := arenaAllocFindInFreeCBS_picked hfind
        exact ⟨hp.1, fun _ => ⟨hp, e1.symm, by rw [← e2, e1]⟩⟩
      · simp at h

theorem sameIndices_aligned {a a1 : Arena} (h : a.SameIndices a1) (hwf : a.IndexAligned) :
    a1.IndexAligned :=
  ((sameIndices_quiet (s := ⟨a, []⟩) 0 (Call.purgeSpare 0) h).2
    (fun _ _ hm => absurd hm (by simp [State.set, State.log])) hwf (Nat.dvd_zero _)).1

theorem sameIndices_freeAddr {a a1 : Arena} (h : a.SameIndices a1) (x : Nat) :
    a1.FreeAddr x ↔ a.FreeAddr x := by
  unfold Arena.FreeAddr
  rw [h.1, h.2.1]

/-- One search of the indices takes a range when it gives `ResOK` and is quiet
otherwise. -/
theorem arenaAllocFromCBS_outcome (cls : ArenaClass) (zones size pool : Nat) (st : State)
    (hcls : ClassKeepsIndices cls) (hsize : 0 < size) :
    Outcome size st (arenaAllocFromCBS cls zones size pool st) := by
  have hlog := quiet_log size st (Call.search zones size)
  apply outcome_after hlog
  unfold arenaAllocFromCBS
  cases hfind : arenaAllocFind zones size (st.log (Call.search zones size)) with
  | none =>
    simp only
    exact ⟨fun h => (by cases h), fun _ => quiet_refl _ _⟩
  | some out =>
    obtain ⟨chunk, baseIndex, pages, range, st1⟩ := out
    obtain ⟨hsuf, hpick⟩ := arenaAllocFind_picked hfind
    have hmark := hcls.2.1 st1.arena chunk baseIndex pages pool
    have hq := sameIndices_quiet (s := st1) size
      (Call.pagesMarkAllocated chunk baseIndex pages pool) hmark
    have hmarkst : callPagesMarkAllocated cls chunk baseIndex pages pool st1
        = ((cls.pagesMarkAllocated st1.arena chunk baseIndex pages pool).1,
           (st1.set (cls.pagesMarkAllocated st1.arena chunk baseIndex pages pool).2).log
             (Call.pagesMarkAllocated chunk baseIndex pages pool)) := rfl
    obtain ⟨m1, m2, m3, m4, m5, m6, m7, m8⟩ := hmark
    simp only
    rw [hmarkst]
    simp only
    split_ifs with hres
    · -- the pages could not be marked: the range goes to the free block set
      refine ⟨fun h => absurd h hres, fun _ => ?_⟩
      refine ⟨hsuf.trans (hq.1.trans ?_), fun hn hwf hal => ?_⟩
      · rw [arenaCBSInsert_calls]
        exact List.suffix_cons _ _
      · have hok := arenaCBSInsert_ok hn
        have hn1 : NoLimit ((st1.set (cls.pagesMarkAllocated st1.arena chunk baseIndex pages
            pool).2).log (Call.pagesMarkAllocated chunk baseIndex pages pool)).calls := by
          refine noLimit_of_suffix ?_ hn
          rw [arenaCBSInsert_calls]
          exact List.suffix_cons _ _
        obtain ⟨⟨_, hp⟩, _, _⟩ := hpick hwf
        obtain ⟨p1, p2, p3, p4, p5, p6, p7, p8⟩ := hp (noLimit_of_suffix hq.1 hn1) hwf hal
        obtain ⟨q1, q2, q3, q4, q5⟩ := hq.2 hn1 p1 (by rw [p4]; exact hal)
        obtain ⟨i1, i2, i3, i4⟩ := arenaCBSInsert_effect (w := .free) trivial range _ hok
        refine ⟨i4 q1 ?_, ?_, fun x => ?_, ?_, ?_⟩
        · show BlockAligned (cls.pagesMarkAllocated st1.arena chunk baseIndex pages pool).2.alignment
            ((cls.pagesMarkAllocated st1.arena chunk baseIndex pages pool).2.chunkRing.map Chunk.geom)
            range
          rw [m7, m8, p4, p5]
          exact p7
        · rw [i1]; exact q2.trans p2
        · rw [i3 x, q3 x, ← p6 x]
        · rw [i2]; exact q4.trans p3
        · exact q5.trans p4
    · -- the pages are marked
      have hres1 : (cls.pagesMarkAllocated st1.arena chunk baseIndex pages pool).1 = ResOK :=
        not_not.mp hres
      refine ⟨fun _ => ⟨⟨⟨chunk, baseIndex⟩, range⟩, rfl, ?_⟩, fun h => absurd rfl h⟩
      refine ⟨hsuf.trans hq.1, fun hn hwf hal => ?_⟩
      have hn1 : NoLimit ((st1.set (cls.pagesMarkAllocated st1.arena chunk baseIndex pages
          pool).2).log (Call.pagesMarkAllocated chunk baseIndex pages pool)).calls := hn
      obtain ⟨⟨_, hp⟩, hc1, hc2⟩ := hpick hwf
      obtain ⟨p1, p2, p3, p4, p5, p6, p7, p8⟩ := hp (noLimit_of_suffix hq.1 hn1) hwf hal
      obtain ⟨q1, q2, q3, q4, q5⟩ := hq.2 hn1 p1 (by rw [p4]; exact hal)
      refine ⟨q1, q2.trans p2, fun x => ?_, ?_, ?_, p8, ?_⟩
      · rw [p6 x]
        exact or_congr_left (q3 x).symm
      · show ZoneSetDiff (cls.pagesMarkAllocated st1.arena chunk baseIndex pages pool).2.freeZones
            (ZoneSetOfRange (cls.pagesMarkAllocated st1.arena chunk baseIndex pages pool).2.zoneShift
              range.base range.limit) = _
        rw [m5, m6, p3, p2]
      · show TractBase (cls.pagesMarkAllocated st1.arena chunk baseIndex pages pool).2
            ⟨chunk, baseIndex⟩ = range.base
        have htb := tractBase_eq (a := st1.arena) m8 p1 (r := range)
          (by rw [p4, p5]; exact p7) (by rw [p8]; omega)
        rw [← hc1, ← hc2] at htb
        exact htb
      · have := p7.2.2.1
        exact this

/-! ## The search ladder -/

theorem policyLast_outcome (cls : ArenaClass) (size pool : Nat) (st : State)
    (hcls : ClassKeepsIndices cls) (hsize : 0 < size) :
    Outcome size st (policyLast cls size pool st) :=
  arenaAllocFromCBS_outcome cls _ size pool st hcls hsize

theorem policyPlanD_outcome (cls : ArenaClass) (pref : SegPrefStruct) (size pool moreZones : Nat)
    (st : State) (hcls : ClassKeepsIndices cls) (hsize : 0 < size) :
    Outcome size st (policyPlanD cls pref size pool moreZones st) := by
  unfold policyPlanD
  simp only
  split_ifs
  · exact outcome_orTry (arenaAllocFromCBS_outcome cls _ size pool st hcls hsize)
      (fun st1 hq => outcome_after hq (policyLast_outcome cls size pool st1 hcls hsize))
  · exact policyLast_outcome cls size pool st hcls hsize

theorem policyPlanCAgain_outcome (cls : ArenaClass) (pref : SegPrefStruct)
    (size pool moreZones : Nat) (st : State) (hcls : ClassKeepsIndices cls) (hsize : 0 < size) :
    Outcome size st (policyPlanCAgain cls pref size pool moreZones st) := by
  unfold policyPlanCAgain
  simp only
  split_ifs
  · exact outcome_orTry (arenaAllocFromCBS_outcome cls _ size pool st hcls hsize)
      (fun st1 hq => outcome_after hq (policyPlanD_outcome cls pref size pool moreZones st1 hcls hsize))
  · exact policyPlanD_outcome cls pref size pool moreZones st hcls hsize

theorem policyPlanC_outcome (cls : ArenaClass) (pref : SegPrefStruct) (size pool moreZones : Nat)
    (st : State) (hcls : ClassKeepsIndices cls) (hsize : 0 < size) :
    Outcome size st (policyPlanC cls pref size pool moreZones st) := by
  have hq : Quiet size st (callGrow cls pref size st).2 :=
    sameIndices_quiet size (Call.grow pref size) (hcls.1 st.arena pref size)
  unfold policyPlanC
  simp only
  split_ifs with h1 h2 h3
  · exact ⟨fun h => absurd h h2, fun _ => hq⟩
  · exact outcome_after hq
      (outcome_orTry (arenaAllocFromCBS_outcome cls _ size pool _ hcls hsize)
        (fun st1 hq1 =>
          outcome_after hq1 (policyPlanCAgain_outcome cls pref size pool moreZones st1 hcls hsize)))
  · exact outcome_after hq
      (policyPlanCAgain_outcome cls pref size pool moreZones _ hcls hsize)
  · exact policyPlanD_outcome cls pref size pool moreZones st hcls hsize

theorem policyPlanB_outcome (cls : ArenaClass) (pref : SegPrefStruct) (size pool : Nat)
    (st : State) (hcls : ClassKeepsIndices cls) (hsize : 0 < size) :
    Outcome size st (policyPlanB cls pref size pool st) := by
  unfold policyPlanB
  simp only
  split_ifs
  · exact outcome_orTry (arenaAllocFromCBS_outcome cls _ size pool st hcls hsize)
      (fun st1 hq => outcome_after hq (policyPlanC_outcome cls pref size pool _ st1 hcls hsize))
  · exact policyPlanC_outcome cls pref size pool _ st hcls hsize

theorem policyPlanA_outcome (cls : ArenaClass) (pref : SegPrefStruct) (size pool : Nat)
    (st : State) (hcls : ClassKeepsIndices cls) (hsize : 0 < size) :
    Outcome size st (policyPlanA cls pref size pool st) := by
  unfold policyPlanA
  simp only
  split_ifs
  · exact outcome_orTry (arenaAllocFromCBS_outcome cls _ size pool st hcls hsize)
      (fun st1 hq => outcome_after hq (policyPlanB_outcome cls pref size pool st1 hcls hsize))
  · exact policyPlanB_outcome cls pref size pool st hcls hsize

theorem arenaAllocPolicy_outcome (cls : ArenaClass) (pref : SegPrefStruct) (size pool : Nat)
    (st : State) (hcls : ClassKeepsIndices cls) (hsize : 0 < size) :
    Outcome size st (arenaAllocPolicy cls pref size pool st) := by
  unfold arenaAllocPolicy
  split_ifs
  · exact ⟨fun h => (by cases h), fun _ => quiet_refl _ _⟩
  · exact policyPlanA_outcome cls pref size pool st hcls hsize

/-! ## C8: allocating and freeing -/

theorem ArenaAlloc_took {cls : ArenaClass} {rsv : ReservoirOps} {pref : SegPrefStruct}
    {size pool b : Nat} {st st1 : State} (hcls : ClassKeepsIndices cls)
    (hrsv : ReservoirIdle rsv) (hsize : 0 < size)
    (h : ArenaAlloc cls rsv pref size pool false st = (ResOK, some b, st1)) :
    ∃ found st2, Took size found st st2 ∧ b = TractBase st2.arena found.tract
      ∧ st1 = st2.set { st2.arena with lastTract := some found.tract, lastTractBase := b } := by
  have hbody : ArenaAlloc cls rsv pref size pool false st
      = arenaAllocBody cls rsv pref size pool false st := by
    unfold ArenaAlloc
    simp only [hrsv st.arena]
    split_ifs with h1 h2
    · exact absurd rfl h2.1
    · rfl
    · rfl
  rw [hbody] at h
  have hout := arenaAllocPolicy_outcome cls pref size pool st hcls hsize
  by_cases hres : (arenaAllocPolicy cls pref size pool st).1 = ResOK
  · have e : arenaAllocBody cls rsv pref size pool false st
        = arenaAllocDone ((arenaAllocPolicy cls pref size pool st).2.1.getD default).tract
            (arenaAllocPolicy cls pref size pool st).2.2 := by
      unfold arenaAllocBody
      simp only
      rw [if_neg (not_not.mpr hres)]
    obtain ⟨found, hf, ht⟩ := hout.1 hres
    rw [e, hf] at h
    unfold arenaAllocDone at h
    simp only [Option.getD_some, Prod.mk.injEq, Option.some.injEq, true_and] at h
    refine ⟨found, _, ht, h.1.symm, ?_⟩
    rw [← h.2, h.1]
  · have e : (arenaAllocBody cls rsv pref size pool false st).1
        = (arenaAllocPolicy cls pref size pool st).1 := by
      unfold arenaAllocBody
      simp only
      rw [if_pos hres]
      rfl
    rw [h] at e
    exact absurd e.symm hres

theorem arenaFreeInsert_calls (cls : ArenaClass) (base size limit pool : Nat) (st : State) :
    (arenaCBSInsert (.zone (AddrZone st.arena.zoneShift base)) ⟨base, limit⟩ st).2.2.calls
      <:+ (arenaFreeInsert cls base size limit pool st).calls := by
    unfold arenaFreeInsert
    simp only
    split_ifs
    · unfold arenaMFSExtend arenaTractInit
      exact (List.suffix_cons _ _).trans (List.suffix_cons _ _)
    · unfold callFree
      refine List.IsSuffix.trans ?_ (List.suffix_cons _ _)
      rw [arenaCBSInsert_calls]
      unfold arenaMFSExtend arenaTractInit
      exact (List.suffix_cons _ _).trans ((List.suffix_cons _ _).trans (List.suffix_cons _ _))
    · exact List.suffix_cons _ _

theorem arenaFreeInsert_effect {cls : ArenaClass} {base size limit pool : Nat} {st : State}
    (hcls : ClassKeepsIndices cls)
    (hn : NoLimit (arenaFreeInsert cls base size limit pool st).calls) :
    (∀ x, (arenaFreeInsert cls base size limit pool st).arena.FreeAddr x
        ↔ st.arena.FreeAddr x ∨ RangeStruct.Mem ⟨base, limit⟩ x)
    ∧ (arenaFreeInsert cls base size limit pool st).arena.freeZones = st.arena.freeZones := by
  have hcalls := arenaFreeInsert_calls cls base size limit pool st
  have hok := arenaCBSInsert_ok (noLimit_of_suffix hcalls hn)
  obtain ⟨i1, i2, i3, _⟩ := arenaCBSInsert_effect (addrZone_valid _ _) ⟨base, limit⟩ st hok
  have hfree := hcls.2.2
    (arenaCBSInsert (.zone (AddrZone st.arena.zoneShift base)) ⟨base, limit⟩ st).2.2.arena
    base size pool
  have hres : arenaFreeInsert cls base size limit pool st
      = callFree cls base size pool
          (arenaCBSInsert (.zone (AddrZone st.arena.zoneShift base)) ⟨base, limit⟩ st).2.2 := by
    unfold arenaFreeInsert
    simp only
    rw [if_neg (not_not.mpr hok)]
  rw [hres]
  refine ⟨fun x => ?_, ?_⟩
  · rw [← i3 x]
    exact sameIndices_freeAddr hfree x
  · rw [← i2]
    exact hfree.2.2.2.2.1

/-- C8, amended.  Let the free rings be empty and the block sets hold pages of
the chunks, the class methods leave the indices alone (so `grow` adds no
address space), and the reservoir be full.  If `ArenaAlloc(pref, size, pool)`
without permit returns `b` and `ArenaFree(b, size, pool)` follows, and no
`CBSInsert` on record has reported `ResLIMIT`, then the union of the address
sets of the free block set and the zone block sets is what it was before the
allocation, and the free zones are those before the allocation less the zones
of `[b, b + size)`: freeing does not give them back.  Nothing is said of
`committed`, which the class methods keep. -/
theorem alloc_free_round_trip (cls : ArenaClass) (rsv : ReservoirOps) (pref : SegPrefStruct)
    (size pool b : Nat) (st st1 : State)
    (hcls : ClassKeepsIndices cls) (hrsv : ReservoirIdle rsv)
    (hwf : st.arena.IndexAligned) (hsize : 0 < size) (hal : st.arena.alignment ∣ size)
    (halloc : ArenaAlloc cls rsv pref size pool false st = (ResOK, some b, st1))
    (hlimit : NoLimit (ArenaFree cls rsv b size pool st1).calls) :
    (∀ x, (ArenaFree cls rsv b size pool st1).arena.FreeAddr x ↔ st.arena.FreeAddr x)
    ∧ (ArenaFree cls rsv b size pool st1).arena.freeZones
        = ZoneSetDiff st.arena.freeZones (ZoneSetOfRange st.arena.zoneShift b (b + size)) := by
  obtain ⟨found, st2, htook, hb, hst1⟩ := ArenaAlloc_took hcls hrsv hsize halloc
  -- the state in which the range is inserted
  obtain ⟨st3, hfree, harena, hzones, hcalls⟩ : ∃ st3 : State,
      ArenaFree cls rsv b size pool st1 = arenaFreeInsert cls b size (AddrAdd b size) pool st3
      ∧ (∀ x, st3.arena.FreeAddr x ↔ st2.arena.FreeAddr x)
      ∧ st3.arena.freeZones = st2.arena.freeZones
      ∧ st3.calls = st2.calls := by
    have hrsv1 : ∀ a, rsv.ensureFull a = (ResOK, a) := hrsv
    unfold ArenaFree
    simp only [hrsv1, ne_eq, not_true_eq_false, if_false, State.set]
    split_ifs <;>
    · refine ⟨_, rfl, ?_, ?_, ?_⟩ <;> rw [hst1] <;> simp [State.set, Arena.FreeAddr]
  rw [hfree] at hlimit ⊢
  obtain ⟨e1, e2⟩ := arenaFreeInsert_effect hcls hlimit
  have hsuf : st2.calls <:+ (arenaFreeInsert cls b size (AddrAdd b size) pool st3).calls := by
    rw [← hcalls]
    refine List.IsSuffix.trans ?_ (arenaFreeInsert_calls cls b size (AddrAdd b size) pool st3)
    rw [arenaCBSInsert_calls]
    exact List.suffix_cons _ _
  obtain ⟨t1, t2, t3, t4, t5, t6, t7⟩ := htook.2 (noLimit_of_suffix hsuf hlimit) hwf hal
  have hbase : found.range.base = b := by rw [hb, t5]
  have hlim : AddrAdd b size = found.range.limit := by
    unfold AddrAdd
    rw [t6, hbase]
    exact Nat.mod_eq_of_lt (by rw [← hbase, ← t6]; exact t7)
  have hrange : (⟨b, AddrAdd b size⟩ : RangeStruct) = found.range := by
    rw [hlim, ← hbase]
  refine ⟨fun x => ?_, ?_⟩
  · rw [e1 x, hrange, harena x, ← t3 x]
  · rw [e2, hzones, t4, ← hbase, ← t6]

theorem map_geom_set : ∀ (l : List Chunk) (i : Nat) (c : Chunk),
    c.geom = (l.getD i default).geom → (l.set i c).map Chunk.geom = l.map Chunk.geom := by
  intro l
  induction l with
  | nil => intro i c _; rfl
  | cons d ds ih =>
    intro i c h
    cases i with
    | zero =>
      simp only [List.set_cons_zero, List.map_cons]
      rw [h]
      rfl
    | succ i =>
      simp only [List.set_cons_succ, List.map_cons]
      rw [ih i c h]

theorem plainMark_sameIndices (a : Arena) (chunk baseIndex pages pool : Nat) :
    a.SameIndices (plainMark a chunk baseIndex pages pool).2 :=
  ⟨rfl, rfl, rfl, rfl, rfl, rfl, rfl, map_geom_set _ _ _ rfl⟩

theorem plainFree_sameIndices (a : Arena) (base size pool : Nat) :
    a.SameIndices (plainFree a base size pool) :=
  ⟨rfl, rfl, rfl, rfl, rfl, rfl, rfl, map_geom_set _ _ _ rfl⟩

theorem spareFree_sameIndices (a : Arena) (base size pool : Nat) :
    a.SameIndices (spareFree a base size pool) :=
  ⟨rfl, rfl, rfl, rfl, rfl, rfl, rfl, map_geom_set _ _ _ rfl⟩

theorem plainClass_keepsIndices : ClassKeepsIndices plainClass :=
  ⟨fun _ _ _ => ⟨rfl, rfl, rfl, rfl, rfl, rfl, rfl, rfl⟩, plainMark_sameIndices,
   plainFree_sameIndices⟩

theorem noReservoir_idle : ReservoirIdle noReservoir := fun _ => rfl

theorem freshArena_indexAligned : freshArena.arena.IndexAligned := by
  have hfree : freshArena.arena.freeCBS = [⟨0x12000, 0x20000⟩] := by decide
  have hgeom : freshArena.arena.chunkRing.map Chunk.geom = [(0x10000, 0x20000, 4096)] := by
    decide
  have hal : freshArena.arena.alignment = 4096 := by decide
  refine ⟨by decide, by decide, ?_, ?_, ?_, fun z => rfl⟩
  · rw [hal]
    exact ⟨2, by decide⟩
  · intro g hg
    rw [hgeom] at hg
    rw [List.mem_singleton.mp hg, hal]
    exact ⟨rfl, ⟨16, by decide⟩⟩
  · intro w b hb
    cases w with
    | free =>
      have hb1 : b ∈ freshArena.arena.freeCBS := hb
      rw [hfree] at hb1
      rw [List.mem_singleton.mp hb1, hal, hgeom]
      refine ⟨⟨18, by decide⟩, ⟨32, by decide⟩, by decide, fun x hx => ?_⟩
      exact ⟨_, List.mem_singleton.mpr rfl, by
        unfold RangeStruct.Mem at hx
        simp only at hx ⊢
        omega⟩
    | zone z => exact absurd hb (List.not_mem_nil b)

/-- C8 fails as stated.  The class keeps freed pages committed as spare
memory.  One page is allocated in the fresh arena, at `0x12000`, and freed; no
`CBSInsert` reports `ResLIMIT`.  Zone 9 has left the free zones and four more
kilobytes are committed than before the allocation. -/
theorem round_trip_counterexample :
    (ArenaAlloc spareClass noReservoir ⟨ZoneSetUNIV, 0, false⟩ 4096 7 false freshArena).1 = ResOK
    ∧ (ArenaAlloc spareClass noReservoir ⟨ZoneSetUNIV, 0, false⟩ 4096 7 false freshArena).2.1
        = some 0x12000
    ∧ (ArenaFree spareClass noReservoir 0x12000 4096 7
        (ArenaAlloc spareClass noReservoir ⟨ZoneSetUNIV, 0, false⟩ 4096 7 false
          freshArena).2.2).calls
        = [Call.free 0x12000 4096 7,
           Call.cbsInsert (.zone 9) ⟨0x12000, 0x13000⟩ ResOK,
           Call.pagesMarkAllocated 0 2 1 7,
           Call.cbsInsert (.zone 9) ⟨0x13000, 0x14000⟩ ResOK,
           Call.cbsDelete .free ⟨0x13000, 0x14000⟩ ResOK,
           Call.search ZoneSetUNIV 4096]
    ∧ freshArena.arena.freeZones = ZoneSetUNIV
    ∧ (ArenaFree spareClass noReservoir 0x12000 4096 7
        (ArenaAlloc spareClass noReservoir ⟨ZoneSetUNIV, 0, false⟩ 4096 7 false
          freshArena).2.2).arena.freeZones = ZoneSetUNIV - 2 ^ 9
    ∧ freshArena.arena.committed = 8192
    ∧ (ArenaFree spareClass noReservoir 0x12000 4096 7
        (ArenaAlloc spareClass noReservoir ⟨ZoneSetUNIV, 0, false⟩ 4096 7 false
          freshArena).2.2).arena.committed = 12288 := by
  refine ⟨by decide, by decide, by decide, by decide, by decide, by decide, by decide⟩

theorem freshRoundTrip_noLimit :
    NoLimit (ArenaFree plainClass noReservoir 0x12000 4096 7
      (ArenaAlloc plainClass noReservoir ⟨ZoneSetUNIV, 0, false⟩ 4096 7 false
        freshArena).2.2).calls := by
  have h : (ArenaFree plainClass noReservoir 0x12000 4096 7
      (ArenaAlloc plainClass noReservoir ⟨ZoneSetUNIV, 0, false⟩ 4096 7 false
        freshArena).2.2).calls
      = [Call.free 0x12000 4096 7,
         Call.cbsInsert (.zone 9) ⟨0x12000, 0x13000⟩ ResOK,
         Call.pagesMarkAllocated 0 2 1 7,
         Call.cbsInsert (.zone 9) ⟨0x13000, 0x14000⟩ ResOK,
         Call.cbsDelete .free ⟨0x13000, 0x14000⟩ ResOK,
         Call.search ZoneSetUNIV 4096] := by decide
  intro w r hm
  rw [h] at hm
  simp at hm

/-- C8 amended, at the fresh arena: one page allocated and freed. -/
theorem alloc_free_round_trip_witness :
    (ClassKeepsIndices plainClass ∧ ReservoirIdle noReservoir
      ∧ freshArena.arena.IndexAligned ∧ 0 < 4096 ∧ freshArena.arena.alignment ∣ 4096
      ∧ (ArenaAlloc plainClass noReservoir ⟨ZoneSetUNIV, 0, false⟩ 4096 7 false freshArena).1
          = ResOK)
    ∧ ((ArenaFree plainClass noReservoir 0x12000 4096 7
          (ArenaAlloc plainClass noReservoir ⟨ZoneSetUNIV, 0, false⟩ 4096 7 false
            freshArena).2.2).arena.FreeAddr 0x12000 ↔ freshArena.arena.FreeAddr 0x12000)
    ∧ (ArenaFree plainClass noReservoir 0x12000 4096 7
          (ArenaAlloc plainClass noReservoir ⟨ZoneSetUNIV, 0, false⟩ 4096 7 false
            freshArena).2.2).arena.freeZones
        = ZoneSetDiff freshArena.arena.freeZones
            (ZoneSetOfRange freshArena.arena.zoneShift 0x12000 (0x12000 + 4096)) :=
  ⟨⟨plainClass_keepsIndices, noReservoir_idle, freshArena_indexAligned, by decide,
    ⟨1, by decide⟩, by decide⟩,
   (alloc_free_round_trip plainClass noReservoir ⟨ZoneSetUNIV, 0, false⟩ 4096 7 0x12000
      freshArena
      (ArenaAlloc plainClass noReservoir ⟨ZoneSetUNIV, 0, false⟩ 4096 7 false freshArena).2.2
      plainClass_keepsIndices noReservoir_idle freshArena_indexAligned (by decide)
      ⟨1, by decide⟩ (Prod.ext (by decide) (Prod.ext (by decide) rfl))
      freshRoundTrip_noLimit).1 0x12000,
   (alloc_free_round_trip plainClass noReservoir ⟨ZoneSetUNIV, 0, false⟩ 4096 7 0x12000
      freshArena
      (ArenaAlloc plainClass noReservoir ⟨ZoneSetUNIV, 0, false⟩ 4096 7 false freshArena).2.2
      plainClass_keepsIndices noReservoir_idle freshArena_indexAligned (by decide)
      ⟨1, by decide⟩ (Prod.ext (by decide) (Prod.ext (by decide) rfl))
      freshRoundTrip_noLimit).2⟩

/-! ## C9 and C10: the commit limit -/

/-- C9. For an arena with `spareCommitted ≤ committed`, `ArenaSetCommitLimit`
gives `ResFAIL` exactly when `limit < committed - spareCommitted`, and then the
state (commit limit and record of calls included) is the state before;
otherwise it gives `ResOK` and the commit limit is `limit`; `purgeSpare` is
called, once and with `committed - limit`, exactly when `limit < committed`
in that case, and not at all when `committed ≤ limit`. -/
theorem ArenaSetCommitLimit_result (cls : ArenaClass) (limit : Nat) (st : State)
    (hspare : st.arena.spareCommitted ≤ st.arena.committed)
    (hword : st.arena.committed < WordRange) :
    ((ArenaSetCommitLimit cls limit st).1 = ResFAIL
        ↔ limit < st.arena.committed - st.arena.spareCommitted)
    ∧ (limit < st.arena.committed - st.arena.spareCommitted →
        ArenaSetCommitLimit cls limit st = (ResFAIL, st))
    ∧ (¬ limit < st.arena.committed - st.arena.spareCommitted →
        (ArenaSetCommitLimit cls limit st).1 = ResOK
        ∧ (ArenaSetCommitLimit cls limit st).2.arena.commitLimit = limit
        ∧ (limit < st.arena.committed →
            (ArenaSetCommitLimit cls limit st).2.calls
              = Call.purgeSpare (st.arena.committed - limit) :: st.calls)
        ∧ (st.arena.committed ≤ limit →
            (ArenaSetCommitLimit cls limit st).2.calls = st.calls)) := by
  have hsub : SizeSub st.arena.committed st.arena.spareCommitted
      = st.arena.committed - st.arena.spareCommitted := SizeSub_of_le hword hspare
  have hfail : limit < st.arena.committed - st.arena.spareCommitted →
      ArenaSetCommitLimit cls limit st = (ResFAIL, st) := by
    intro h
    unfold ArenaSetCommitLimit
    simp only [hsub]
    rw [if_pos (by omega), if_neg (by omega)]
  have hok : ¬ limit < st.arena.committed - st.arena.spareCommitted →
      (ArenaSetCommitLimit cls limit st).1 = ResOK
      ∧ (ArenaSetCommitLimit cls limit st).2.arena.commitLimit = limit
      ∧ (limit < st.arena.committed →
          (ArenaSetCommitLimit cls limit st).2.calls
            = Call.purgeSpare (st.arena.committed - limit) :: st.calls)
      ∧ (st.arena.committed ≤ limit →
          (ArenaSetCommitLimit cls limit st).2.calls = st.calls) := by
    intro h
    by_cases hlt : limit < st.arena.committed
    · have hex : SizeSub st.arena.committed limit = st.arena.committed - limit :=
        SizeSub_of_le hword (Nat.le_of_lt hlt)
      unfold ArenaSetCommitLimit
      simp only [hsub, hex]
      rw [if_pos hlt, if_pos (by omega)]
      refine ⟨rfl, rfl, fun _ => rfl, fun hge => ?_⟩
      omega
    · unfold ArenaSetCommitLimit
      simp only
      rw [if_neg hlt]
      refine ⟨rfl, rfl, fun h1 => ?_, fun _ => rfl⟩
      omega
  refine ⟨⟨fun h => ?_, fun h => ?_⟩, hfail, hok⟩
  · by_contra hn
    have := (hok hn).1
    rw [h] at this
    exact absurd this (by decide)
  · rw [hfail h]

/-- C9, at an arena with two pages committed, one of them spare, asked for a
limit of one page and a half. -/
theorem ArenaSetCommitLimit_result_witness :
    (spareArena.arena.spareCommitted ≤ spareArena.arena.committed
      ∧ spareArena.arena.committed < WordRange)
    ∧ (ArenaSetCommitLimit exactPurgeClass 6144 spareArena).1 = ResOK
    ∧ (ArenaSetCommitLimit exactPurgeClass 6144 spareArena).2.arena.commitLimit = 6144
    ∧ (ArenaSetCommitLimit exactPurgeClass 6144 spareArena).2.calls = [Call.purgeSpare 2048] :=
  ⟨⟨by decide, by decide⟩,
   ((ArenaSetCommitLimit_result exactPurgeClass 6144 spareArena (by decide) (by decide)).2.2
      (by decide)).1,
   ((ArenaSetCommitLimit_result exactPurgeClass 6144 spareArena (by decide) (by decide)).2.2
      (by decide)).2.1,
   ((ArenaSetCommitLimit_result exactPurgeClass 6144 spareArena (by decide) (by decide)).2.2
      (by decide)).2.2.1 (by decide)⟩

theorem pagePurge_upTo : PurgeUpTo pagePurgeClass := by
  intro arena size
  have h1 : size / 4096 * 4096 ≤ size := Nat.div_mul_le_self size 4096
  have h2 : arena.spareCommitted / 4096 * 4096 ≤ arena.spareCommitted :=
    Nat.div_mul_le_self _ 4096
  refine ⟨?_, ?_, rfl, rfl, rfl⟩
  · exact le_trans (Nat.min_le_left _ _) h1
  · exact le_trans (Nat.min_le_right _ _) h2

theorem exactPurge_atLeast : PurgeAtLeast exactPurgeClass := by
  intro arena size
  refine ⟨fun h => ?_, Nat.min_le_right _ _, rfl, rfl, rfl⟩
  exact Nat.le_min.mpr ⟨le_refl _, h⟩

/-- C10 fails as stated. `pagePurgeClass` purges whole pages, up to the bytes
asked for, so it meets the contract "releases up to the requested bytes";
the arena has two pages committed, one spare; after `ArenaSetCommitLimit` with
a limit 100 bytes below `committed`, which gives `ResOK`, `committed` is above
the commit limit. -/
theorem commit_inv_upTo_counterexample :
    PurgeUpTo pagePurgeClass
    ∧ spareArena.arena.CommitInv
    ∧ (ArenaSetCommitLimit pagePurgeClass 8092 spareArena).1 = ResOK
    ∧ ¬ (ArenaSetCommitLimit pagePurgeClass 8092 spareArena).2.arena.CommitInv := by
  refine ⟨pagePurge_upTo, ?_, by decide, ?_⟩
  · unfold Arena.CommitInv; decide
  · unfold Arena.CommitInv; decide

/-- C10, amended. `spareCommitted ≤ committed ≤ commitLimit` holds after
`ArenaInit`, and `ArenaSetCommitLimit` and `ArenaSetSpareCommitLimit` keep it,
for every class whose `purgeSpare` releases at least the bytes asked for when
that much is spare (and never more than is spare), taking what it returns off
`committed` and `spareCommitted`. -/
theorem commit_inv_preserved (cls : ArenaClass) (hpurge : PurgeAtLeast cls) :
    (∀ env alignment arena, (ArenaInit env alignment arena).2.CommitInv)
    ∧ (∀ limit st, st.arena.CommitInv → st.arena.commitLimit < WordRange →
        (ArenaSetCommitLimit cls limit st).2.arena.CommitInv)
    ∧ (∀ limit st, st.arena.CommitInv → st.arena.commitLimit < WordRange →
        (ArenaSetSpareCommitLimit cls limit st).arena.CommitInv) := by
  refine ⟨?_, ?_, ?_⟩
  · intro env alignment arena
    unfold ArenaInit Arena.CommitInv
    simp only
    split_ifs <;> simp
  · intro limit st hinv hword
    obtain ⟨h1, h2⟩ := hinv
    have hsub : SizeSub st.arena.committed st.arena.spareCommitted
        = st.arena.committed - st.arena.spareCommitted := SizeSub_of_le (by omega) h1
    unfold ArenaSetCommitLimit
    simp only [hsub]
    by_cases hlt : limit < st.arena.committed
    · rw [if_pos hlt]
      by_cases hge : limit ≥ st.arena.committed - st.arena.spareCommitted
      · rw [if_pos hge]
        have hex : SizeSub st.arena.committed limit = st.arena.committed - limit :=
          SizeSub_of_le (by omega) (Nat.le_of_lt hlt)
        obtain ⟨p1, p2, p3, p4, _⟩ := hpurge st.arena (st.arena.committed - limit)
        have p1a := p1 (by omega)
        simp only [hex, callPurgeSpare, State.set, State.log, Arena.CommitInv]
        rw [p3, p4]
        omega
      · rw [if_neg hge]
        exact ⟨h1, h2⟩
    · rw [if_neg hlt]
      simp only [State.set, Arena.CommitInv]
      omega
  · intro limit st hinv hword
    obtain ⟨h1, h2⟩ := hinv
    unfold ArenaSetSpareCommitLimit
    simp only [State.set]
    split_ifs with h
    · obtain ⟨_, p2, p3, p4, p5⟩ :=
        hpurge { st.arena with spareCommitLimit := limit }
          (SizeSub st.arena.spareCommitted limit)
      simp only [callPurgeSpare, State.set, State.log, Arena.CommitInv]
      rw [p3, p4, p5]
      simp only at p2 ⊢
      omega
    · exact ⟨h1, h2⟩

/-- C10 amended, at the class of `exactPurge`. -/
theorem commit_inv_preserved_witness :
    PurgeAtLeast exactPurgeClass
    ∧ (ArenaSetCommitLimit exactPurgeClass 6144 spareArena).2.arena.CommitInv :=
  ⟨exactPurge_atLeast,
   (commit_inv_preserved exactPurgeClass exactPurge_atLeast).2.1 6144 spareArena
     (by unfold Arena.CommitInv; decide) (by decide)⟩

/-! ## C11: the free of a range that spans zones -/

/-- C11 fails on the code for a range that spans two zones.  A pool gets the
four pages `[0x12000, 0x16000)`, of zones 9 and 10, from `ArenaAlloc` and frees
them in one call.  `ArenaFree` inserts the whole range into the block set of
the zone of its base, zone 9, and leaves the free block set as it was; the block
set of zone 9 then holds the address `0x14000` of zone 10, and a later request
for three pages in zone 9 gets `[0x12000, 0x15000)`. -/
theorem ArenaFree_multi_zone_enters_zoneCBS :
    (ArenaAlloc plainClass noReservoir ⟨ZoneSetUNIV, 0, false⟩ 16384 7 false freshArena).2.1
      = some 0x12000
    ∧ AddrZone crossAllocated.arena.zoneShift 0x12000 = 9
    ∧ AddrZone crossAllocated.arena.zoneShift 0x14000 = 10
    ∧ crossFreed.calls.take 2
        = [Call.free 0x12000 16384 7, Call.cbsInsert (.zone 9) ⟨0x12000, 0x16000⟩ ResOK]
    ∧ crossFreed.arena.freeCBS = crossAllocated.arena.freeCBS
    ∧ crossFreed.arena.zoneCBS 9 = [⟨0x12000, 0x16000⟩]
    ∧ ¬ crossFreed.arena.ZoneConfined
    ∧ (ArenaAlloc plainClass noReservoir ⟨2 ^ 9, 0, false⟩ 12288 7 false crossFreed).2.1
        = some 0x12000 := by
  refine ⟨by decide, by decide, by decide, by decide, by decide, by decide, ?_, by decide⟩
  intro h
  have hz := h 9 ⟨0x12000, 0x16000⟩ 0x14000 (by decide) (by decide)
  revert hz
  decide

/-! ## C12: the self-healing free -/

theorem CBSInsert_limit {units : Nat} {cbs : CBS} {r : RangeStruct}
    (h : (CBSInsert units cbs r).1 = ResLIMIT) :
    CBSInsert units cbs r = (ResLIMIT, r, cbs, units) := by
  unfold CBSInsert at h ⊢
  cases hn : cbs.filter (fun b => rangesTouch r b) with
  | nil =>
    simp only [hn] at h ⊢
    by_cases hu : units = 0
    · simp only [hu, if_true]
    · simp only [hu, if_false] at h
      cases h
  | cons b more =>
    simp only [hn] at h
    cases h

theorem CBSInsert_units {units : Nat} (cbs : CBS) (r : RangeStruct) (h : 0 < units) :
    (CBSInsert units cbs r).1 = ResOK := by
  unfold CBSInsert
  cases hn : cbs.filter (fun b => rangesTouch r b) with
  | nil =>
    have hu : ¬ units = 0 := by omega
    simp only [hu, if_false]
  | cons b more => rfl

theorem setCBS_same (a : Arena) (w : WhichCBS) :
    a.setCBS w (a.cbs w) a.cbsBlockPoolStruct.units = a := by
  cases w with
  | free => rfl
  | zone z =>
    cases a
    simp only [Arena.setCBS, Arena.setZoneCBS, Arena.cbs]
    congr
    funext i
    split_ifs with e
    · rw [e]
    · rfl

theorem arenaCBSInsert_limit {w : WhichCBS} {r : RangeStruct} {s : State}
    (h : (CBSInsert s.arena.cbsBlockPoolStruct.units (s.arena.cbs w) r).1 = ResLIMIT) :
    arenaCBSInsert w r s = (ResLIMIT, r, s.log (Call.cbsInsert w r ResLIMIT)) := by
  unfold arenaCBSInsert
  simp only [CBSInsert_limit h, setCBS_same]
  rfl


/-- The self-healing step of `arenaFreeInsert`, for a state whose zone block
set reports `ResLIMIT`. -/
theorem arenaFreeInsert_self_heal (cls : ArenaClass) (base size limit pool : Nat) (s : State)
    (hcls : ClassKeepsIndices cls)
    (hlimit : (CBSInsert s.arena.cbsBlockPoolStruct.units
        (s.arena.zoneCBS (AddrZone s.arena.zoneShift base)) ⟨base, limit⟩).1 = ResLIMIT) :
    (SizeSub size s.arena.alignment ≠ 0 →
        (arenaFreeInsert cls base size limit pool s).calls
          = [Call.free (AddrAdd base s.arena.alignment) (SizeSub size s.arena.alignment) pool,
             Call.cbsInsert .free ⟨AddrAdd base s.arena.alignment, limit⟩
               (CBSInsert (MFSExtend s.arena.cbsBlockPoolStruct s.arena.alignment).units
                 s.arena.freeCBS ⟨AddrAdd base s.arena.alignment, limit⟩).1,
             Call.mfsExtend base s.arena.alignment,
             Call.tractInit base s.arena.cbsBlockPoolStruct.pool,
             Call.cbsInsert (.zone (AddrZone s.arena.zoneShift base)) ⟨base, limit⟩ ResLIMIT]
            ++ s.calls
        ∧ (arenaFreeInsert cls base size limit pool s).arena.zoneCBS = s.arena.zoneCBS
        ∧ (arenaFreeInsert cls base size limit pool s).arena.freeCBS
            = (CBSInsert (MFSExtend s.arena.cbsBlockPoolStruct s.arena.alignment).units
                s.arena.freeCBS ⟨AddrAdd base s.arena.alignment, limit⟩).2.2.1)
    ∧ (SizeSub size s.arena.alignment = 0 →
        (arenaFreeInsert cls base size limit pool s).calls
          = [Call.mfsExtend base s.arena.alignment,
             Call.tractInit base s.arena.cbsBlockPoolStruct.pool,
             Call.cbsInsert (.zone (AddrZone s.arena.zoneShift base)) ⟨base, limit⟩ ResLIMIT]
            ++ s.calls
        ∧ (arenaFreeInsert cls base size limit pool s).arena.zoneCBS = s.arena.zoneCBS
        ∧ (arenaFreeInsert cls base size limit pool s).arena.freeCBS = s.arena.freeCBS
        ∧ (arenaFreeInsert cls base size limit pool s).arena.cbsBlockPoolStruct
            = MFSExtend s.arena.cbsBlockPoolStruct s.arena.alignment) := by
  have hins := arenaCBSInsert_limit (w := .zone (AddrZone s.arena.zoneShift base))
    (r := ⟨base, limit⟩) (s := s) hlimit
  have hne : (ResLIMIT ≠ ResOK) = True := by simp
  constructor
  · intro hsz
    have e : arenaFreeInsert cls base size limit pool s
        = callFree cls (AddrAdd base s.arena.alignment) (SizeSub size s.arena.alignment) pool
            (arenaCBSInsert .free ⟨AddrAdd base s.arena.alignment, limit⟩
              (arenaMFSExtend base s.arena.alignment
                (arenaTractInit base s.arena.cbsBlockPoolStruct.pool
                  (s.log (Call.cbsInsert (.zone (AddrZone s.arena.zoneShift base))
                    ⟨base, limit⟩ ResLIMIT))))).2.2 := by
      unfold arenaFreeInsert
      simp only [hins, hne, if_true]
      have hsz1 : ¬ SizeSub size s.arena.alignment = 0 := hsz
      exact if_neg hsz1
    rw [e]
    obtain ⟨e1, e2, -⟩ := hcls.2.2
      (arenaCBSInsert .free ⟨AddrAdd base s.arena.alignment, limit⟩
        (arenaMFSExtend base s.arena.alignment
          (arenaTractInit base s.arena.cbsBlockPoolStruct.pool
            (s.log (Call.cbsInsert (.zone (AddrZone s.arena.zoneShift base))
              ⟨base, limit⟩ ResLIMIT))))).2.2.arena
      (AddrAdd base s.arena.alignment) (SizeSub size s.arena.alignment) pool
    refine ⟨rfl, ?_, ?_⟩
    · exact e2
    · exact e1
  · intro hsz
    have e : arenaFreeInsert cls base size limit pool s
        = arenaMFSExtend base s.arena.alignment
            (arenaTractInit base s.arena.cbsBlockPoolStruct.pool
              (s.log (Call.cbsInsert (.zone (AddrZone s.arena.zoneShift base))
                ⟨base, limit⟩ ResLIMIT))) := by
      unfold arenaFreeInsert
      simp only [hins, hne, if_true]
      exact if_pos hsz
    rw [e]
    exact ⟨rfl, rfl, rfl, rfl⟩


theorem arenaUncache_fields (base size : Nat) (st : State) :
    (arenaUncache base size st).calls = st.calls
    ∧ (arenaUncache base size st).arena.freeCBS = st.arena.freeCBS
    ∧ (arenaUncache base size st).arena.zoneCBS = st.arena.zoneCBS
    ∧ (arenaUncache base size st).arena.cbsBlockPoolStruct = st.arena.cbsBlockPoolStruct
    ∧ (arenaUncache base size st).arena.alignment = st.arena.alignment
    ∧ (arenaUncache base size st).arena.zoneShift = st.arena.zoneShift
    ∧ (arenaUncache base size st).arena.chunkRing = st.arena.chunkRing
    ∧ (arenaUncache base size st).arena.freeZones = st.arena.freeZones := by
  unfold arenaUncache
  split <;> exact ⟨rfl, rfl, rfl, rfl, rfl, rfl, rfl, rfl⟩

/-- With a full reservoir, `ArenaFree` is the uncaching of the tract followed
by the insertion into the index. -/
theorem ArenaFree_idle (cls : ArenaClass) {rsv : ReservoirOps} (hrsv : ReservoirIdle rsv)
    (base size pool : Nat) (st : State) :
    ArenaFree cls rsv base size pool st
      = arenaFreeInsert cls base size (AddrAdd base size) pool (arenaUncache base size st) := by
  have hrsv1 : ∀ a, rsv.ensureFull a = (ResOK, a) := hrsv
  have hst : ∀ s : State, s.set s.arena = s := fun _ => rfl
  unfold ArenaFree arenaUncache
  simp only [hrsv1, ne_eq, not_true_eq_false, if_false, hst, ite_self]

set_option maxRecDepth 1000000 in
set_option maxHeartbeats 0 in
/-- C12 fails on the code in the index of the retry.  The block pool is empty
and the pool frees the two pages of the stripe `[0xBA000, 0xBC000)`, of zone 29.
The insertion into the block set of zone 29 reports `ResLIMIT`; the page at
`0xBA000` goes to the block pool; the rest `[0xBB000, 0xBC000)` is inserted into
the free block set, and the block set of zone 29 stays as it was. -/
theorem ArenaFree_retry_goes_to_freeCBS :
    drainedArena.arena.cbsBlockPoolStruct.units = 0
    ∧ drainedArena.arena.freeCBS = [⟨0xBE000, 0x110000⟩]
    ∧ drainedArena.arena.zoneCBS 29 = [⟨0x3A000, 0x3B000⟩]
    ∧ (ArenaFree plainClass noReservoir 0xBA000 8192 7 drainedArena).calls.take 5
      = [Call.free 0xBB000 4096 7,
         Call.cbsInsert .free ⟨0xBB000, 0xBC000⟩ ResOK,
         Call.mfsExtend 0xBA000 4096,
         Call.tractInit 0xBA000 1001,
         Call.cbsInsert (.zone 29) ⟨0xBA000, 0xBC000⟩ ResLIMIT]
    ∧ (ArenaFree plainClass noReservoir 0xBA000 8192 7 drainedArena).arena.zoneCBS 29
      = [⟨0x3A000, 0x3B000⟩]
    ∧ (ArenaFree plainClass noReservoir 0xBA000 8192 7 drainedArena).arena.freeCBS
      = [⟨0xBB000, 0xBC000⟩, ⟨0xBE000, 0x110000⟩] := by
  decide!

/-- C12, amended.  When the insertion of the freed range into the block set of
its zone reports `ResLIMIT` (the reservoir being full and the class leaving the
indices alone), `ArenaFree` makes the page `[base, base + alignment)` a tract of
the block pool and extends the pool with it, once.  When more than a page was
freed, the rest `[base + alignment, limit)` is then inserted into the free block
set, not into the block set of the zone, which stays as it was, and `class.free`
is called for exactly that rest; the insertion succeeds when a block fits in a
page.  When one page was freed, nothing more is inserted and `class.free` is
not called. -/
theorem ArenaFree_self_heal (cls : ArenaClass) (rsv : ReservoirOps) (base size pool : Nat)
    (st : State) (hcls : ClassKeepsIndices cls) (hrsv : ReservoirIdle rsv)
    (hsize : size < WordRange) (hpage : st.arena.alignment ≤ size)
    (hlimit : (CBSInsert st.arena.cbsBlockPoolStruct.units
        (st.arena.zoneCBS (AddrZone st.arena.zoneShift base))
        ⟨base, AddrAdd base size⟩).1 = ResLIMIT) :
    (size ≠ st.arena.alignment →
        (ArenaFree cls rsv base size pool st).calls
          = [Call.free (AddrAdd base st.arena.alignment) (size - st.arena.alignment) pool,
             Call.cbsInsert .free ⟨AddrAdd base st.arena.alignment, AddrAdd base size⟩
               (CBSInsert (MFSExtend st.arena.cbsBlockPoolStruct st.arena.alignment).units
                 st.arena.freeCBS ⟨AddrAdd base st.arena.alignment, AddrAdd base size⟩).1,
             Call.mfsExtend base st.arena.alignment,
             Call.tractInit base st.arena.cbsBlockPoolStruct.pool,
             Call.cbsInsert (.zone (AddrZone st.arena.zoneShift base))
               ⟨base, AddrAdd base size⟩ ResLIMIT]
            ++ st.calls
        ∧ (ArenaFree cls rsv base size pool st).arena.zoneCBS = st.arena.zoneCBS
        ∧ (ArenaFree cls rsv base size pool st).arena.freeCBS
            = (CBSInsert (MFSExtend st.arena.cbsBlockPoolStruct st.arena.alignment).units
                st.arena.freeCBS ⟨AddrAdd base st.arena.alignment, AddrAdd base size⟩).2.2.1
        ∧ (0 < st.arena.cbsBlockPoolStruct.unitSize →
            st.arena.cbsBlockPoolStruct.unitSize ≤ st.arena.alignment →
            (CBSInsert (MFSExtend st.arena.cbsBlockPoolStruct st.arena.alignment).units
                st.arena.freeCBS ⟨AddrAdd base st.arena.alignment, AddrAdd base size⟩).1
              = ResOK))
    ∧ (size = st.arena.alignment →
        (ArenaFree cls rsv base size pool st).calls
          = [Call.mfsExtend base st.arena.alignment,
             Call.tractInit base st.arena.cbsBlockPoolStruct.pool,
             Call.cbsInsert (.zone (AddrZone st.arena.zoneShift base))
               ⟨base, AddrAdd base size⟩ ResLIMIT]
            ++ st.calls
        ∧ (ArenaFree cls rsv base size pool st).arena.zoneCBS = st.arena.zoneCBS
        ∧ (ArenaFree cls rsv base size pool st).arena.freeCBS = st.arena.freeCBS
        ∧ (ArenaFree cls rsv base size pool st).arena.cbsBlockPoolStruct
            = MFSExtend st.arena.cbsBlockPoolStruct st.arena.alignment) := by
  obtain ⟨u1, u2, u3, u4, u5, u6, -, -⟩ := arenaUncache_fields base size st
  have hlimit1 : (CBSInsert (arenaUncache base size st).arena.cbsBlockPoolStruct.units
      ((arenaUncache base size st).arena.zoneCBS
        (AddrZone (arenaUncache base size st).arena.zoneShift base))
      ⟨base, AddrAdd base size⟩).1 = ResLIMIT := by
    rw [u3, u4, u6]
    exact hlimit
  have hsub : SizeSub size st.arena.alignment = size - st.arena.alignment :=
    SizeSub_of_le hsize hpage
  have key := arenaFreeInsert_self_heal cls base size (AddrAdd base size) pool
    (arenaUncache base size st) hcls hlimit1
  rw [u1, u2, u3, u4, u5, u6, hsub] at key
  rw [ArenaFree_idle cls hrsv]
  constructor
  · intro hne
    obtain ⟨k1, k2, k3⟩ := key.1 (by omega)
    refine ⟨k1, k2, k3, fun h0 hle => CBSInsert_units _ _ ?_⟩
    unfold MFSExtend
    have : 0 < st.arena.alignment / st.arena.cbsBlockPoolStruct.unitSize :=
      Nat.div_pos hle h0
    show 0 < st.arena.cbsBlockPoolStruct.units
      + st.arena.alignment / st.arena.cbsBlockPoolStruct.unitSize
    omega
  · intro he
    exact key.2 (by omega)

set_option maxRecDepth 1000000 in
set_option maxHeartbeats 0 in
/-- The free of the two pages of a stripe when the block pool is empty: the
second page goes to the free block set and to the class. -/
theorem ArenaFree_self_heal_witness :
    (ArenaFree plainClass noReservoir 0xBA000 8192 7 drainedArena).calls
      = [Call.free (AddrAdd 0xBA000 drainedArena.arena.alignment)
           (8192 - drainedArena.arena.alignment) 7,
         Call.cbsInsert .free
           ⟨AddrAdd 0xBA000 drainedArena.arena.alignment, AddrAdd 0xBA000 8192⟩
           (CBSInsert
             (MFSExtend drainedArena.arena.cbsBlockPoolStruct drainedArena.arena.alignment).units
             drainedArena.arena.freeCBS
             ⟨AddrAdd 0xBA000 drainedArena.arena.alignment, AddrAdd 0xBA000 8192⟩).1,
         Call.mfsExtend 0xBA000 drainedArena.arena.alignment,
         Call.tractInit 0xBA000 drainedArena.arena.cbsBlockPoolStruct.pool,
         Call.cbsInsert (.zone (AddrZone drainedArena.arena.zoneShift 0xBA000))
           ⟨0xBA000, AddrAdd 0xBA000 8192⟩ ResLIMIT]
        ++ drainedArena.calls :=
  ((ArenaFree_self_heal plainClass noReservoir 0xBA000 8192 7 drainedArena
      plainClass_keepsIndices noReservoir_idle (by decide) (by decide!) (by decide!)).1
    (by decide!)).1

/-! ## The free path when the insertion succeeds -/

/-- What `ArenaFree` does when the insertion into the block set of the zone of
`base` succeeds (the reservoir being full and the class leaving the indices
alone): the range `[base, base + size)`, whatever zones it spans, is added to
that block set and to no other index, and `class.free` is called with the same
base, size and pool. -/
theorem ArenaFree_zone_insert (cls : ArenaClass) (rsv : ReservoirOps) (base size pool : Nat)
    (st : State) (hcls : ClassKeepsIndices cls) (hrsv : ReservoirIdle rsv)
    (hok : (CBSInsert st.arena.cbsBlockPoolStruct.units
        (st.arena.zoneCBS (AddrZone st.arena.zoneShift base))
        ⟨base, AddrAdd base size⟩).1 = ResOK) :
    (ArenaFree cls rsv base size pool st).calls
      = [Call.free base size pool,
         Call.cbsInsert (.zone (AddrZone st.arena.zoneShift base))
           ⟨base, AddrAdd base size⟩ ResOK] ++ st.calls
    ∧ (ArenaFree cls rsv base size pool st).arena.freeCBS = st.arena.freeCBS
    ∧ (∀ i, i ≠ AddrZone st.arena.zoneShift base →
        (ArenaFree cls rsv base size pool st).arena.zoneCBS i = st.arena.zoneCBS i)
    ∧ (∀ x, CBS.Mem ((ArenaFree cls rsv base size pool st).arena.zoneCBS
            (AddrZone st.arena.zoneShift base)) x
          ↔ CBS.Mem (st.arena.zoneCBS (AddrZone st.arena.zoneShift base)) x
            ∨ (base ≤ x ∧ x < AddrAdd base size)) := by
  obtain ⟨u1, u2, u3, u4, -, u6, -, -⟩ := arenaUncache_fields base size st
  rw [ArenaFree_idle cls hrsv]
  generalize arenaUncache base size st = s at u1 u2 u3 u4 u6
  rw [← u3, ← u4, ← u6] at hok
  rw [← u1, ← u2, ← u3, ← u6]
  have hins : (arenaCBSInsert (.zone (AddrZone s.arena.zoneShift base))
      ⟨base, AddrAdd base size⟩ s).1 = ResOK := hok
  have hres : arenaFreeInsert cls base size (AddrAdd base size) pool s
      = callFree cls base size pool
          (arenaCBSInsert (.zone (AddrZone s.arena.zoneShift base))
            ⟨base, AddrAdd base size⟩ s).2.2 := by
    unfold arenaFreeInsert
    simp only
    rw [if_neg (not_not.mpr hins)]
  obtain ⟨e1, e2, -⟩ := hcls.2.2
    (arenaCBSInsert (.zone (AddrZone s.arena.zoneShift base))
      ⟨base, AddrAdd base size⟩ s).2.2.arena base size pool
  have hmem := ((CBSInsert_effect s.arena.cbsBlockPoolStruct.units
    (s.arena.zoneCBS (AddrZone s.arena.zoneShift base)) ⟨base, AddrAdd base size⟩).2 hok).1
  rw [hres]
  refine ⟨?_, e1, fun i hi => ?_, fun x => ?_⟩
  · show Call.free base size pool :: Call.cbsInsert _ _ (arenaCBSInsert _ _ s).1 :: s.calls = _
    rw [hins]
    rfl
  · have : (callFree cls base size pool (arenaCBSInsert
        (.zone (AddrZone s.arena.zoneShift base)) ⟨base, AddrAdd base size⟩ s).2.2).arena.zoneCBS
        = (arenaCBSInsert (.zone (AddrZone s.arena.zoneShift base))
            ⟨base, AddrAdd base size⟩ s).2.2.arena.zoneCBS := e2
    rw [this]
    show (if i = AddrZone s.arena.zoneShift base then _ else s.arena.zoneCBS i) = _
    rw [if_neg hi]
  · have : (callFree cls base size pool (arenaCBSInsert
        (.zone (AddrZone s.arena.zoneShift base)) ⟨base, AddrAdd base size⟩ s).2.2).arena.zoneCBS
        = (arenaCBSInsert (.zone (AddrZone s.arena.zoneShift base))
            ⟨base, AddrAdd base size⟩ s).2.2.arena.zoneCBS := e2
    rw [this]
    have hz : (arenaCBSInsert (.zone (AddrZone s.arena.zoneShift base))
        ⟨base, AddrAdd base size⟩ s).2.2.arena.zoneCBS (AddrZone s.arena.zoneShift base)
        = (CBSInsert s.arena.cbsBlockPoolStruct.units
            (s.arena.zoneCBS (AddrZone s.arena.zoneShift base))
            ⟨base, AddrAdd base size⟩).2.2.1 := by
      show (if AddrZone s.arena.zoneShift base = AddrZone s.arena.zoneShift base then _
        else _) = _
      rw [if_pos rfl]
      rfl
    rw [hz]
    exact hmem x

/-! ## C13: the tail of the stripe -/

set_option maxRecDepth 1000000 in
set_option maxHeartbeats 0 in
/-- C13 fails on the code when the block pool is empty.  The free block set is
`[0xBE000, 0x110000)` and three pages are looked for: `arenaAllocFindInFreeCBS`
gives `[0xBE000, 0xC1000)`; the tail of the stripe, `[0xC1000, 0xC2000)`, of
zone 32, is deleted from the free block set, and its insertion into the block
set of zone 32 reports `ResLIMIT`, which the function does not look at.  The
tail is then in no block set. -/
theorem arenaAllocFindInFreeCBS_loses_tail :
    drainedArena.arena.cbsBlockPoolStruct.units = 0
    ∧ drainedArena.arena.freeCBS = [⟨0xBE000, 0x110000⟩]
    ∧ (arenaAllocFindInFreeCBS drainedArena ZoneSetUNIV 12288).map (fun out => out.1)
        = some ⟨0xBE000, 0xC1000⟩
    ∧ AddrZone drainedArena.arena.zoneShift 0xC1000 = 32
    ∧ (arenaAllocFindInFreeCBS drainedArena ZoneSetUNIV 12288).map
          (fun out => out.2.calls.take 2)
        = some [Call.cbsInsert (.zone 32) ⟨0xC1000, 0xC2000⟩ ResLIMIT,
                Call.cbsDelete .free ⟨0xC1000, 0xC2000⟩ ResOK]
    ∧ (arenaAllocFindInFreeCBS drainedArena ZoneSetUNIV 12288).map
          (fun out => out.2.arena.freeCBS)
        = some [⟨0xC2000, 0x110000⟩]
    ∧ (arenaAllocFindInFreeCBS drainedArena ZoneSetUNIV 12288).map
          (fun out => out.2.arena.zoneCBS 32)
        = some (drainedArena.arena.zoneCBS 32)
    ∧ (arenaAllocFindInFreeCBS drainedArena ZoneSetUNIV 12288).map
          (fun out => decide (out.2.arena.FreeAddr 0xC1000))
        = some false := by
  decide!

/-- The tail that `arenaAllocFindInFreeCBS` moves, `[allocLimit, limit)` with
`limit` the lesser of the limit of the free block and the end of the stripe:
it is empty when `allocLimit` is on a stripe boundary, all its addresses are in
the zone of `allocLimit`, and it ends inside the free block. -/
theorem stripe_tail {zoneShift allocLimit oldLimit : Nat} (hshift : zoneShift < MPS_WORD_WIDTH) :
    ((allocLimit < (if oldLimit < AddrAlignUp allocLimit (2 ^ zoneShift % WordRange)
          then oldLimit else AddrAlignUp allocLimit (2 ^ zoneShift % WordRange))) →
        ¬ 2 ^ zoneShift ∣ allocLimit)
    ∧ (∀ x, allocLimit ≤ x →
        x < (if oldLimit < AddrAlignUp allocLimit (2 ^ zoneShift % WordRange)
          then oldLimit else AddrAlignUp allocLimit (2 ^ zoneShift % WordRange)) →
        AddrZone zoneShift x = AddrZone zoneShift allocLimit)
    ∧ (if oldLimit < AddrAlignUp allocLimit (2 ^ zoneShift % WordRange)
          then oldLimit else AddrAlignUp allocLimit (2 ^ zoneShift % WordRange)) ≤ oldLimit := by
  have hpos : 0 < 2 ^ zoneShift := Nat.pow_pos (by decide)
  have hlt : 2 ^ zoneShift < WordRange := by
    unfold WordRange
    exact Nat.pow_lt_pow_right (by decide) hshift
  have hmod : 2 ^ zoneShift % WordRange = 2 ^ zoneShift := Nat.mod_eq_of_lt hlt
  rw [hmod]
  have hup : AddrAlignUp allocLimit (2 ^ zoneShift)
      ≤ (allocLimit + 2 ^ zoneShift - 1) / 2 ^ zoneShift * 2 ^ zoneShift := Nat.mod_le _ _
  have hq : (allocLimit + 2 ^ zoneShift - 1) / 2 ^ zoneShift ≤ allocLimit / 2 ^ zoneShift + 1 := by
    have h1 : allocLimit < 2 ^ zoneShift * (allocLimit / 2 ^ zoneShift + 1) :=
      Nat.lt_mul_div_succ allocLimit hpos
    have h2 : allocLimit + 2 ^ zoneShift - 1
        < 2 ^ zoneShift * (allocLimit / 2 ^ zoneShift + 2) := by
      rw [Nat.mul_add] at h1 ⊢
      omega
    have := Nat.div_lt_of_lt_mul h2
    omega
  have hlim : (if oldLimit < AddrAlignUp allocLimit (2 ^ zoneShift)
      then oldLimit else AddrAlignUp allocLimit (2 ^ zoneShift))
      ≤ AddrAlignUp allocLimit (2 ^ zoneShift) := by
    split <;> omega
  refine ⟨fun htail hdvd => ?_, fun x hx1 hx2 => ?_, ?_⟩
  · obtain ⟨k, hk⟩ := hdvd
    have hq0 : (allocLimit + 2 ^ zoneShift - 1) / 2 ^ zoneShift = k := by
      rw [hk]
      have : 2 ^ zoneShift * k + 2 ^ zoneShift - 1 = 2 ^ zoneShift - 1 + 2 ^ zoneShift * k := by
        omega
      rw [this, Nat.add_mul_div_left _ _ hpos, Nat.div_eq_of_lt (by omega)]
      omega
    rw [hq0, Nat.mul_comm, ← hk] at hup
    omega
  · have hx3 : x < (allocLimit + 2 ^ zoneShift - 1) / 2 ^ zoneShift * 2 ^ zoneShift := by omega
    rw [Nat.mul_comm] at hx3
    have h3 := Nat.div_lt_of_lt_mul hx3
    have h4 : allocLimit / 2 ^ zoneShift ≤ x / 2 ^ zoneShift := Nat.div_le_div_right hx1
    have h5 : x / 2 ^ zoneShift = allocLimit / 2 ^ zoneShift := by omega
    unfold AddrZone
    rw [h5]
  · split <;> omega

/-! ## C14: the page of the bootstrap -/

set_option maxRecDepth 1000000 in
set_option maxHeartbeats 0 in
/-- C14 fails on the code when the first unallocated page of the primary chunk
is in the block set of a zone.  The block pool is empty, the page at `0x12000`
has been freed and is in the block set of zone 9, and the free space of a new
chunk is given to `ArenaFreeCBSInsert`.  The insertion reports `ResLIMIT`,
`arenaAllocPage` takes the page at `0x12000` for the block pool, the insertion
succeeds, and the deletion of the page from the free block set fails, the page
not being there.  The function gives `ResOK`; the page belongs to the block
pool and is still in the block set of zone 9, from where the next request for
a page of zone 9 gets it. -/
theorem ArenaFreeCBSInsert_page_stays_in_zoneCBS :
    (ArenaFreeCBSInsert plainClass 0x201000 0x210000 secondChunkArena).1 = ResOK
    ∧ (ArenaFreeCBSInsert plainClass 0x201000 0x210000 secondChunkArena).2.calls
        = [Call.cbsDelete .free ⟨0x12000, 0x13000⟩ ResFAIL,
           Call.cbsInsert .free ⟨0x201000, 0x210000⟩ ResOK,
           Call.mfsExtend 0x12000 4096,
           Call.pagesMarkAllocated 0 2 1 1001,
           Call.cbsInsert .free ⟨0x201000, 0x210000⟩ ResLIMIT]
    ∧ (⟨0x12000, 0x13000⟩ : RangeStruct)
        ∈ (ArenaFreeCBSInsert plainClass 0x201000 0x210000 secondChunkArena).2.arena.zoneCBS 9
    ∧ ((ArenaFreeCBSInsert plainClass 0x201000 0x210000 secondChunkArena).2.arena.chunk
          0).pageTable 2 = some 1001
    ∧ (ArenaAlloc plainClass noReservoir ⟨2 ^ 9, 0, false⟩ 4096 7 false
        (ArenaFreeCBSInsert plainClass 0x201000 0x210000 secondChunkArena).2).2.1
        = some 0x12000 := by
  decide!

/-! ## C15: the free zones -/

/-- C15 fails on the code at the bootstrap.  `ArenaCreate` on an arena with
stripes of one page puts the free space of the primary chunk into the free
block set; the insertion reports `ResLIMIT` and `arenaAllocPageInChunk` marks the
page at `0x11000`, of zone 17, allocated to the block pool.  No page of zone 17
was allocated before, and `freeZones`, which `arenaAllocPageInChunk` does not
touch, still has zone 17. -/
theorem bootstrap_page_in_free_zone :
    (createdArena plainClass 12 16).calls
      = [Call.cbsDelete .free ⟨0x11000, 0x12000⟩ ResOK,
         Call.cbsInsert .free ⟨0x11000, 0x20000⟩ ResOK,
         Call.mfsExtend 0x11000 4096,
         Call.pagesMarkAllocated 0 1 1 1001,
         Call.cbsInsert .free ⟨0x11000, 0x20000⟩ ResLIMIT]
    ∧ ¬ (classInitArena 12 16).AllocatedAddr 0x11000
    ∧ (createdArena plainClass 12 16).arena.AllocatedAddr 0x11000
    ∧ ((createdArena plainClass 12 16).arena.chunk 0).pageTable 1 = some 1001
    ∧ AddrZone (createdArena plainClass 12 16).arena.zoneShift 0x11000 = 17
    ∧ ZoneSetIsMember (createdArena plainClass 12 16).arena.freeZones 17 = true
    ∧ (classInitArena 12 16).freeZones = (createdArena plainClass 12 16).arena.freeZones := by
  unfold Arena.AllocatedAddr
  refine ⟨by decide, by decide, by decide, by decide, by decide, by decide, by decide⟩

/-! ## C16: the last-tract cache -/

theorem cacheInv_of_cache {a a1 : Arena} (h : a1.cache = a.cache) (hinv : a.CacheInv) :
    a1.CacheInv := by
  unfold Arena.cache at h
  simp only [Prod.mk.injEq] at h
  obtain ⟨h1, h2, h3⟩ := h
  unfold Arena.CacheInv at hinv ⊢
  rw [h1, h2]
  refine ⟨hinv.1, fun tract ht => ?_⟩
  rw [h1, ht] at h3
  simp only [Option.map_some', Option.some.injEq] at h3
  rw [h3]
  exact hinv.2 tract ht

theorem cache_of_geom {a a1 : Arena} (h1 : a1.lastTract = a.lastTract)
    (h2 : a1.lastTractBase = a.lastTractBase)
    (h3 : a1.chunkRing.map Chunk.geom = a.chunkRing.map Chunk.geom) : a1.cache = a.cache := by
  have hb : ∀ t, TractBase a1 t = TractBase a t := by
    intro t
    have hg := chunk_geom_eq h3 t.chunk
    unfold Chunk.geom at hg
    simp only [Prod.mk.injEq] at hg
    unfold TractBase PageIndexBase
    rw [hg.1, hg.2.2]
  unfold Arena.cache
  rw [h1, h2]
  congr 2
  cases a.lastTract with
  | none => rfl
  | some t => simp only [Option.map_some', hb]

theorem setCBS_cache (a : Arena) (w : WhichCBS) (cbs : CBS) (units : Nat) :
    (a.setCBS w cbs units).cache = a.cache := by
  cases w <;> rfl

theorem arenaCBSInsert_cache (w : WhichCBS) (r : RangeStruct) (st : State) :
    (arenaCBSInsert w r st).2.2.arena.cache = st.arena.cache :=
  setCBS_cache _ _ _ _

theorem arenaCBSDelete_cache (w : WhichCBS) (r : RangeStruct) (st : State) :
    (arenaCBSDelete w r st).2.2.arena.cache = st.arena.cache :=
  setCBS_cache _ _ _ _

theorem findInZoneCBSFrom_cache {st st1 : State} {zones size : Nat} {range : RangeStruct}
    (n : Nat) : ∀ i, findInZoneCBSFrom st zones size n i = some (range, st1) →
      st1.arena.cache = st.arena.cache := by
  induction n with
  | zero => intro i h; cases h
  | succ n ih =>
    intro i h
    unfold findInZoneCBSFrom at h
    split at h
    · split at h
      · cases h
        exact setCBS_cache _ _ _ _
      · exact ih _ h
    · exact ih _ h

theorem arenaMoveTail_cache (allocLimit limit : Nat) (st : State) :
    (arenaMoveTail allocLimit limit st).arena.cache = st.arena.cache := by
  unfold arenaMoveTail
  split
  · simp only
    rw [arenaCBSInsert_cache, arenaCBSDelete_cache]
  · rfl

theorem arenaAllocFindInFreeCBS_cache {st st1 : State} {zones size : Nat} {range : RangeStruct}
    (h : arenaAllocFindInFreeCBS st zones size = some (range, st1)) :
    st1.arena.cache = st.arena.cache := by
  unfold arenaAllocFindInFreeCBS at h
  split at h
  · cases h
  · cases h
    rw [arenaMoveTail_cache]
    exact setCBS_cache _ _ _ _

theorem arenaAllocFind_cache {zones size chunk baseIndex pages : Nat} {range : RangeStruct}
    {st st1 : State}
    (h : arenaAllocFind zones size st = some (chunk, baseIndex, pages, range, st1)) :
    st1.arena.cache = st.arena.cache := by
  unfold arenaAllocFind at h
  split at h
  · cases h
    rfl
  · split at h
    · rename_i hz
      cases h
      exact findInZoneCBSFrom_cache _ _ hz
    · split at h
      · rename_i hf
        cases h
        exact arenaAllocFindInFreeCBS_cache hf
      · cases h

theorem callPagesMarkAllocated_cache {cls : ArenaClass} (hcls : ClassKeepsCache cls)
    (chunk baseIndex pages pool : Nat) (st : State) :
    (callPagesMarkAllocated cls chunk baseIndex pages pool st).2.arena.cache = st.arena.cache :=
  hcls.2.1 _ _ _ _ _

theorem arenaAllocFromCBS_cache {cls : ArenaClass} (hcls : ClassKeepsCache cls)
    (zones size pool : Nat) (st : State) :
    (arenaAllocFromCBS cls zones size pool st).2.2.arena.cache = st.arena.cache := by
  unfold arenaAllocFromCBS
  split
  · rfl
  · rename_i chunk baseIndex pages range st1 hfind
    have h0 : st1.arena.cache = (st.log (Call.search zones size)).arena.cache :=
      arenaAllocFind_cache hfind
    have h1 : st1.arena.cache = st.arena.cache := h0
    have h2 := callPagesMarkAllocated_cache hcls chunk baseIndex pages pool st1
    simp only
    split
    · rw [arenaCBSInsert_cache, h2, h1]
    · rw [← h1, ← h2]
      rfl

theorem orTry_cache {st : State} {r : Res × Option Found × State}
    {attempt : State → Res × Option Found × State}
    (hr : r.2.2.arena.cache = st.arena.cache)
    (ha : ∀ s, (attempt s).2.2.arena.cache = s.arena.cache) :
    (orTry r attempt).2.2.arena.cache = st.arena.cache := by
  unfold orTry
  split
  · exact hr
  · rw [ha, hr]

theorem policyLast_cache {cls : ArenaClass} (hcls : ClassKeepsCache cls) (size pool : Nat)
    (st : State) : (policyLast cls size pool st).2.2.arena.cache = st.arena.cache :=
  arenaAllocFromCBS_cache hcls _ _ _ _

theorem policyPlanD_cache {cls : ArenaClass} (hcls : ClassKeepsCache cls)
    (pref : SegPrefStruct) (size pool moreZones : Nat) (st : State) :
    (policyPlanD cls pref size pool moreZones st).2.2.arena.cache = st.arena.cache := by
  unfold policyPlanD
  simp only
  split
  · exact orTry_cache (arenaAllocFromCBS_cache hcls _ _ _ _) (policyLast_cache hcls size pool)
  · exact policyLast_cache hcls size pool st

theorem policyPlanCAgain_cache {cls : ArenaClass} (hcls : ClassKeepsCache cls)
    (pref : SegPrefStruct) (size pool moreZones : Nat) (st : State) :
    (policyPlanCAgain cls pref size pool moreZones st).2.2.arena.cache = st.arena.cache := by
  unfold policyPlanCAgain
  simp only
  split
  · exact orTry_cache (arenaAllocFromCBS_cache hcls _ _ _ _)
      (policyPlanD_cache hcls pref size pool moreZones)
  · exact policyPlanD_cache hcls pref size pool moreZones st

theorem policyPlanC_cache {cls : ArenaClass} (hcls : ClassKeepsCache cls)
    (pref : SegPrefStruct) (size pool moreZones : Nat) (st : State) :
    (policyPlanC cls pref size pool moreZones st).2.2.arena.cache = st.arena.cache := by
  have hgrow : (callGrow cls pref size st).2.arena.cache = st.arena.cache := hcls.1 _ _ _
  unfold policyPlanC
  simp only
  split
  · split
    · exact hgrow
    · split
      · exact orTry_cache
          ((arenaAllocFromCBS_cache hcls _ _ _ _).trans hgrow)
          (policyPlanCAgain_cache hcls pref size pool moreZones)
      · exact (policyPlanCAgain_cache hcls pref size pool moreZones _).trans hgrow
  · exact policyPlanD_cache hcls pref size pool moreZones st

theorem policyPlanB_cache {cls : ArenaClass} (hcls : ClassKeepsCache cls)
    (pref : SegPrefStruct) (size pool : Nat) (st : State) :
    (policyPlanB cls pref size pool st).2.2.arena.cache = st.arena.cache := by
  unfold policyPlanB
  simp only
  split
  · exact orTry_cache (arenaAllocFromCBS_cache hcls _ _ _ _)
      (policyPlanC_cache hcls pref size pool _)
  · exact policyPlanC_cache hcls pref size pool _ st

theorem arenaAllocPolicy_cache {cls : ArenaClass} (hcls : ClassKeepsCache cls)
    (pref : SegPrefStruct) (size pool : Nat) (st : State) :
    (arenaAllocPolicy cls pref size pool st).2.2.arena.cache = st.arena.cache := by
  unfold arenaAllocPolicy
  split
  · rfl
  · unfold policyPlanA
    simp only
    split
    · exact orTry_cache (arenaAllocFromCBS_cache hcls _ _ _ _)
        (policyPlanB_cache hcls pref size pool)
    · exact policyPlanB_cache hcls pref size pool st

/-- What `arenaAllocDone` leaves in the cache. -/
theorem arenaAllocDone_cache (tract : Tract) (st : State) :
    (arenaAllocDone tract st).1 = ResOK
    ∧ (arenaAllocDone tract st).2.1 = some (TractBase st.arena tract)
    ∧ (arenaAllocDone tract st).2.2.arena.lastTract = some tract
    ∧ (arenaAllocDone tract st).2.2.arena.lastTractBase = TractBase st.arena tract
    ∧ TractBase (arenaAllocDone tract st).2.2.arena tract = TractBase st.arena tract :=
  ⟨rfl, rfl, rfl, rfl, rfl⟩

/-- The two ways out of `ArenaAlloc`: a failure, with no base and the cache as
it was, or `arenaAllocDone`. -/
theorem ArenaAlloc_ways {cls : ArenaClass} {rsv : ReservoirOps} (hcls : ClassKeepsCache cls)
    (hrsv : ReservoirKeepsCache rsv) (pref : SegPrefStruct) (size pool : Nat) (permit : Bool)
    (st : State) :
    ((ArenaAlloc cls rsv pref size pool permit st).1 ≠ ResOK
      ∧ (ArenaAlloc cls rsv pref size pool permit st).2.1 = none
      ∧ (ArenaAlloc cls rsv pref size pool permit st).2.2.arena.cache = st.arena.cache)
    ∨ ∃ tract s, ArenaAlloc cls rsv pref size pool permit st = arenaAllocDone tract s := by
  have hbody : ∀ s : State, s.arena.cache = st.arena.cache →
      ((arenaAllocBody cls rsv pref size pool permit s).1 ≠ ResOK
        ∧ (arenaAllocBody cls rsv pref size pool permit s).2.1 = none
        ∧ (arenaAllocBody cls rsv pref size pool permit s).2.2.arena.cache = st.arena.cache)
      ∨ ∃ tract s1, arenaAllocBody cls rsv pref size pool permit s = arenaAllocDone tract s1 := by
    intro s hs
    have hpol := arenaAllocPolicy_cache hcls pref size pool s
    unfold arenaAllocBody
    simp only
    split
    · rename_i hfail
      split
      · split
        · left
          refine ⟨hfail, rfl, ?_⟩
          exact ((hrsv.2.1 _ _ _).trans hpol).trans hs
        · right
          exact ⟨_, _, rfl⟩
      · left
        exact ⟨hfail, rfl, hpol.trans hs⟩
    · right
      exact ⟨_, _, rfl⟩
  unfold ArenaAlloc
  split
  · simp only
    split
    · rename_i hfull
      left
      exact ⟨hfull.1, rfl, hrsv.1 _⟩
    · exact hbody _ (hrsv.1 _)
  · exact hbody _ rfl

theorem arenaTractInit_cache (base pool : Nat) (st : State) :
    (arenaTractInit base pool st).arena.cache = st.arena.cache :=
  cache_of_geom rfl rfl (map_geom_set _ _ _ rfl)

theorem arenaFreeInsert_cache {cls : ArenaClass} (hcls : ClassKeepsCache cls)
    (base size limit pool : Nat) (st : State) :
    (arenaFreeInsert cls base size limit pool st).arena.cache = st.arena.cache := by
  have hfree : ∀ b s p (s1 : State), (callFree cls b s p s1).arena.cache = s1.arena.cache :=
    fun b s p s1 => hcls.2.2 _ _ _ _
  have hext : ∀ b s (s1 : State), (arenaMFSExtend b s s1).arena.cache = s1.arena.cache :=
    fun _ _ _ => rfl
  have hins := arenaCBSInsert_cache (.zone (AddrZone st.arena.zoneShift base)) ⟨base, limit⟩ st
  unfold arenaFreeInsert
  simp only
  split
  · split
    · rw [hext, arenaTractInit_cache, hins]
    · rw [hfree, arenaCBSInsert_cache, hext, arenaTractInit_cache, hins]
  · rw [hfree, hins]

theorem ArenaFree_unfold (cls : ArenaClass) (rsv : ReservoirOps) (base size pool : Nat)
    (st : State) :
    ArenaFree cls rsv base size pool st
      = if pool ≠ rsv.pool then
          if (rsv.ensureFull (arenaUncache base size st).arena).1 ≠ ResOK then
            if (rsv.deposit (rsv.ensureFull (arenaUncache base size st).arena).2 base size).1
                = false then
              (arenaUncache base size st).set
                (rsv.deposit (rsv.ensureFull (arenaUncache base size st).arena).2 base size).2.2.2
            else
              arenaFreeInsert cls
                (rsv.deposit (rsv.ensureFull (arenaUncache base size st).arena).2 base size).2.1
                (rsv.deposit (rsv.ensureFull (arenaUncache base size st).arena).2 base size).2.2.1
                (AddrAdd base size) pool
                ((arenaUncache base size st).set
                  (rsv.deposit (rsv.ensureFull (arenaUncache base size st).arena).2
                    base size).2.2.2)
          else
            arenaFreeInsert cls base size (AddrAdd base size) pool
              ((arenaUncache base size st).set
                (rsv.ensureFull (arenaUncache base size st).arena).2)
        else arenaFreeInsert cls base size (AddrAdd base size) pool (arenaUncache base size st) :=
  rfl

theorem ArenaFree_cache {cls : ArenaClass} {rsv : ReservoirOps} (hcls : ClassKeepsCache cls)
    (hrsv : ReservoirKeepsCache rsv) (base size pool : Nat) (st : State) :
    (ArenaFree cls rsv base size pool st).arena.cache
      = (arenaUncache base size st).arena.cache := by
  rw [ArenaFree_unfold]
  generalize arenaUncache base size st = st1
  have hfull := hrsv.1 st1.arena
  have hdep := hrsv.2.2 (rsv.ensureFull st1.arena).2 base size
  split
  · split
    · split
      · exact hdep.trans hfull
      · rw [arenaFreeInsert_cache hcls]
        exact hdep.trans hfull
    · rw [arenaFreeInsert_cache hcls]
      exact hfull
  · exact arenaFreeInsert_cache hcls _ _ _ _ _

/-- What the uncaching of `ArenaFree` does to the cache, for a range of
addresses. -/
theorem arenaUncache_cache {base size : Nat} (st : State)
    (hword : base + size < WordRange) :
    ((base ≤ st.arena.lastTractBase ∧ st.arena.lastTractBase < base + size) →
        (arenaUncache base size st).arena.cache = (none, 0, none))
    ∧ (¬ (base ≤ st.arena.lastTractBase ∧ st.arena.lastTractBase < base + size) →
        (arenaUncache base size st).arena.cache = st.arena.cache) := by
  have hadd : AddrAdd base size = base + size := Nat.mod_eq_of_lt hword
  unfold arenaUncache
  rw [hadd]
  constructor
  · intro h
    rw [if_pos h]
    rfl
  · intro h
    rw [if_neg h]

/-- C16.  The invariant of the last-tract cache (`lastTract` is null iff
`lastTractBase` is 0, and a non-null `lastTract` has base `lastTractBase`) holds
after `ArenaInit`, whatever it returns.  For a class and a reservoir that leave
the cache alone, `ArenaAlloc` and `ArenaFree` keep it.  An `ArenaAlloc` that
fails leaves the cache as it was; one that succeeds returns a base `b` and
leaves in the cache a tract with base `b`, and `b` as the cached base (the
invariant then holds when `b` is not the null address).  `ArenaFree(base, size)`,
for a range of addresses that does not start at the null address, leaves a
cached base outside `[base, base + size)`, and leaves the cache as it was when
the cached base was outside that range. -/
theorem last_tract_cache_invariant (cls : ArenaClass) (rsv : ReservoirOps)
    (hcls : ClassKeepsCache cls) (hrsv : ReservoirKeepsCache rsv) :
    (∀ env alignment arena, (ArenaInit env alignment arena).2.CacheInv)
    ∧ (∀ pref size pool permit st, st.arena.CacheInv →
        ((ArenaAlloc cls rsv pref size pool permit st).1 ≠ ResOK →
          (ArenaAlloc cls rsv pref size pool permit st).2.2.arena.CacheInv
          ∧ (ArenaAlloc cls rsv pref size pool permit st).2.2.arena.lastTract
              = st.arena.lastTract
          ∧ (ArenaAlloc cls rsv pref size pool permit st).2.2.arena.lastTractBase
              = st.arena.lastTractBase)
        ∧ ((ArenaAlloc cls rsv pref size pool permit st).1 = ResOK →
          ∃ b tract, (ArenaAlloc cls rsv pref size pool permit st).2.1 = some b
            ∧ (ArenaAlloc cls rsv pref size pool permit st).2.2.arena.lastTract = some tract
            ∧ TractBase (ArenaAlloc cls rsv pref size pool permit st).2.2.arena tract = b
            ∧ (ArenaAlloc cls rsv pref size pool permit st).2.2.arena.lastTractBase = b
            ∧ (b ≠ 0 → (ArenaAlloc cls rsv pref size pool permit st).2.2.arena.CacheInv)))
    ∧ (∀ base size pool st, st.arena.CacheInv → 0 < base → base + size < WordRange →
        (ArenaFree cls rsv base size pool st).arena.CacheInv
        ∧ ¬ (base ≤ (ArenaFree cls rsv base size pool st).arena.lastTractBase
              ∧ (ArenaFree cls rsv base size pool st).arena.lastTractBase < base + size)
        ∧ (¬ (base ≤ st.arena.lastTractBase ∧ st.arena.lastTractBase < base + size) →
            (ArenaFree cls rsv base size pool st).arena.lastTract = st.arena.lastTract
            ∧ (ArenaFree cls rsv base size pool st).arena.lastTractBase
                = st.arena.lastTractBase)) := by
  refine ⟨?_, ?_, ?_⟩
  · intro env alignment arena
    have hblank : ∀ a : Arena, a.lastTract = none → a.lastTractBase = 0 → a.CacheInv := by
      intro a h1 h2
      refine ⟨⟨fun _ => h2, fun _ => h1⟩, fun tract ht => ?_⟩
      rw [h1] at ht
      cases ht
    unfold ArenaInit
    simp only
    split
    · exact hblank _ rfl rfl
    · split
      · exact hblank _ rfl rfl
      · split <;> exact hblank _ rfl rfl
  · intro pref size pool permit st hinv
    rcases ArenaAlloc_ways hcls hrsv pref size pool permit st with ⟨hfail, -, hcache⟩ | ⟨t, s, hdone⟩
    · refine ⟨fun _ => ⟨cacheInv_of_cache hcache hinv, ?_, ?_⟩, fun hok => absurd hok hfail⟩
      · exact congrArg (fun c => c.1) hcache
      · exact congrArg (fun c => c.2.1) hcache
    · obtain ⟨d1, d2, d3, d4, d5⟩ := arenaAllocDone_cache t s
      rw [hdone]
      refine ⟨fun hne => absurd d1 hne, fun _ => ⟨_, t, d2, d3, d5, d4, fun hb => ?_⟩⟩
      refine ⟨?_, fun tract ht => ?_⟩
      · rw [d3, d4]
        exact ⟨fun h => (by cases h), fun h => absurd h hb⟩
      · rw [d3] at ht
        cases ht
        rw [d4, d5]
  · intro base size pool st hinv hbase hword
    have hfree := ArenaFree_cache hcls hrsv base size pool st
    obtain ⟨hin, hout⟩ := arenaUncache_cache st hword
    by_cases hr : base ≤ st.arena.lastTractBase ∧ st.arena.lastTractBase < base + size
    · have hc := hfree.trans (hin hr)
      unfold Arena.cache at hc
      simp only [Prod.mk.injEq] at hc
      obtain ⟨c1, c2, -⟩ := hc
      refine ⟨⟨?_, fun tract ht => ?_⟩, ?_, fun hn => absurd hr hn⟩
      · rw [c1, c2]
        exact ⟨fun _ => rfl, fun _ => rfl⟩
      · rw [c1] at ht
        cases ht
      · rw [c2]
        omega
    · have hc := hfree.trans (hout hr)
      have c1 : (ArenaFree cls rsv base size pool st).arena.lastTract = st.arena.lastTract :=
        congrArg (fun c => c.1) hc
      have c2 : (ArenaFree cls rsv base size pool st).arena.lastTractBase
          = st.arena.lastTractBase := congrArg (fun c => c.2.1) hc
      refine ⟨cacheInv_of_cache hc hinv, ?_, fun _ => ⟨c1, c2⟩⟩
      rw [c2]
      exact hr

theorem plainClass_keepsCache : ClassKeepsCache plainClass :=
  ⟨fun _ _ _ => rfl,
   fun _ _ _ _ _ => cache_of_geom rfl rfl (map_geom_set _ _ _ rfl),
   fun _ _ _ _ => cache_of_geom rfl rfl (map_geom_set _ _ _ rfl)⟩

theorem noReservoir_keepsCache : ReservoirKeepsCache noReservoir :=
  ⟨fun _ => rfl, fun _ _ _ => rfl, fun _ _ _ => rfl⟩

/-- The created arena: a page is allocated, which is then in the cache, and
freed, which empties the cache. -/
theorem last_tract_cache_invariant_witness :
    (ArenaAlloc plainClass noReservoir ⟨ZoneSetUNIV, 0, false⟩ 4096 7 false
        freshArena).2.2.arena.CacheInv
    ∧ (ArenaFree plainClass noReservoir 0x12000 4096 7
        (ArenaAlloc plainClass noReservoir ⟨ZoneSetUNIV, 0, false⟩ 4096 7 false
          freshArena).2.2).arena.CacheInv
    ∧ (ArenaAlloc plainClass noReservoir ⟨ZoneSetUNIV, 0, false⟩ 4096 7 false
        freshArena).2.2.arena.lastTractBase = 0x12000
    ∧ (ArenaFree plainClass noReservoir 0x12000 4096 7
        (ArenaAlloc plainClass noReservoir ⟨ZoneSetUNIV, 0, false⟩ 4096 7 false
          freshArena).2.2).arena.lastTractBase = 0 := by
  have hnone : freshArena.arena.lastTract = none := by decide
  have hzero : freshArena.arena.lastTractBase = 0 := by decide
  have hfresh : freshArena.arena.CacheInv :=
    ⟨⟨fun _ => hzero, fun _ => hnone⟩, fun t ht => by rw [hnone] at ht; cases ht⟩
  have hthm := last_tract_cache_invariant plainClass noReservoir plainClass_keepsCache
    noReservoir_keepsCache
  obtain ⟨b, tract, hb, -, -, -, hinv⟩ :=
    (hthm.2.1 ⟨ZoneSetUNIV, 0, false⟩ 4096 7 false freshArena hfresh).2 (by decide)
  have hbase : (ArenaAlloc plainClass noReservoir ⟨ZoneSetUNIV, 0, false⟩ 4096 7 false
      freshArena).2.1 = some 0x12000 := by decide
  have hb0 : b ≠ 0 := by
    rw [hbase] at hb
    cases hb
    decide
  exact ⟨hinv hb0, (hthm.2.2 0x12000 4096 7 _ (hinv hb0) (by decide) (by decide)).1,
    by decide, by decide⟩

/-! ## C17: the zone masks of the search ladder -/

theorem zoneSetComp_testBit (a i : Nat) :
    (ZoneSetComp a).testBit i = (decide (i < MPS_WORD_WIDTH) && !a.testBit i) := by
  unfold ZoneSetComp ZoneSetUNIV WordRange MPS_WORD_WIDTH
  rw [Nat.testBit_xor, Nat.testBit_two_pow_sub_one, Nat.testBit_mod_two_pow]
  cases decide (i < 64) <;> cases a.testBit i <;> rfl

theorem zoneSetDiff_testBit (a b i : Nat) :
    (ZoneSetDiff a b).testBit i = (a.testBit i && (decide (i < MPS_WORD_WIDTH) && !b.testBit i)) := by
  unfold ZoneSetDiff
  rw [Nat.testBit_and, zoneSetComp_testBit]

theorem zoneSetSub_of_testBit {a b : Nat}
    (h : ∀ i, i < MPS_WORD_WIDTH → a.testBit i = true → b.testBit i = true) :
    ZoneSetSub a b = true := by
  unfold ZoneSetSub
  rw [decide_eq_true_eq]
  apply Nat.eq_of_testBit_eq
  intro i
  rw [zoneSetDiff_testBit, Nat.zero_testBit]
  by_cases hi : i < MPS_WORD_WIDTH
  · cases ha : a.testBit i with
    | false => rfl
    | true =>
      rw [h i hi ha]
      simp
  · simp [hi]

/-- The masks of the ladder are nested, and the mask of Plan D is the zones
asked for together with every zone not avoided. -/
theorem ladder_masks_nested (zones avoid freeZones : Nat) :
    ZoneSetSub zones (ZoneSetUnion zones (ZoneSetDiff freeZones avoid)) = true
    ∧ ZoneSetSub (ZoneSetUnion zones (ZoneSetDiff freeZones avoid))
        (ZoneSetUnion (ZoneSetUnion zones (ZoneSetDiff freeZones avoid))
          (ZoneSetDiff ZoneSetUNIV avoid)) = true
    ∧ ZoneSetSub (ZoneSetUnion (ZoneSetUnion zones (ZoneSetDiff freeZones avoid))
          (ZoneSetDiff ZoneSetUNIV avoid)) ZoneSetUNIV = true
    ∧ ZoneSetUnion (ZoneSetUnion zones (ZoneSetDiff freeZones avoid))
          (ZoneSetDiff ZoneSetUNIV avoid)
        = ZoneSetUnion zones (ZoneSetDiff ZoneSetUNIV avoid) := by
  refine ⟨?_, ?_, ?_, ?_⟩
  · apply zoneSetSub_of_testBit
    intro i _ h
    unfold ZoneSetUnion
    rw [Nat.testBit_or, h]
    rfl
  · apply zoneSetSub_of_testBit
    intro i _ h
    unfold ZoneSetUnion at h ⊢
    rw [Nat.testBit_or, h]
    rfl
  · apply zoneSetSub_of_testBit
    intro i hi _
    exact zoneSetUNIV_testBit hi
  · apply Nat.eq_of_testBit_eq
    intro i
    unfold ZoneSetUnion
    rw [Nat.testBit_or, Nat.testBit_or, Nat.testBit_or, zoneSetDiff_testBit,
      zoneSetDiff_testBit]
    by_cases hi : i < MPS_WORD_WIDTH
    · rw [zoneSetUNIV_testBit hi]
      cases zones.testBit i <;> cases freeZones.testBit i <;> cases avoid.testBit i <;> simp [hi]
    · simp [hi]

theorem ladderSteps_search (zones size : Nat) (calls : List Call) :
    ladderSteps (Call.search zones size :: calls) = ladderSteps calls ++ [some zones] := by
  unfold ladderSteps
  rw [List.reverse_cons, List.filterMap_append]
  rfl

theorem ladderSteps_append (l calls : List Call) :
    ladderSteps (l ++ calls) = ladderSteps calls ++ ladderSteps l := by
  unfold ladderSteps
  rw [List.reverse_append, List.filterMap_append]

theorem arenaCBSInsert_steps (w : WhichCBS) (r : RangeStruct) (st : State) :
    ladderSteps (arenaCBSInsert w r st).2.2.calls = ladderSteps st.calls := by
  rw [arenaCBSInsert_calls]
  exact (ladderSteps_append [_] st.calls).trans (List.append_nil _)

theorem arenaCBSDelete_steps (w : WhichCBS) (r : RangeStruct) (st : State) :
    ladderSteps (arenaCBSDelete w r st).2.2.calls = ladderSteps st.calls :=
  (ladderSteps_append [Call.cbsDelete w r (arenaCBSDelete w r st).1] st.calls).trans
    (List.append_nil _)

theorem findInZoneCBSFrom_calls {st st1 : State} {zones size : Nat} {range : RangeStruct}
    (n : Nat) : ∀ i, findInZoneCBSFrom st zones size n i = some (range, st1) →
      st1.calls = st.calls := by
  induction n with
  | zero => intro i h; cases h
  | succ n ih =>
    intro i h
    unfold findInZoneCBSFrom at h
    split at h
    · split at h
      · cases h
        rfl
      · exact ih _ h
    · exact ih _ h

theorem arenaMoveTail_steps (allocLimit limit : Nat) (st : State) :
    ladderSteps (arenaMoveTail allocLimit limit st).calls = ladderSteps st.calls := by
  unfold arenaMoveTail
  split
  · simp only
    rw [arenaCBSInsert_steps, arenaCBSDelete_steps]
  · rfl

theorem arenaAllocFind_steps {zones size chunk baseIndex pages : Nat} {range : RangeStruct}
    {st st1 : State}
    (h : arenaAllocFind zones size st = some (chunk, baseIndex, pages, range, st1)) :
    ladderSteps st1.calls = ladderSteps st.calls := by
  unfold arenaAllocFind at h
  split at h
  · cases h
    rfl
  · split at h
    · rename_i hz
      cases h
      rw [findInZoneCBSFrom_calls _ _ hz]
    · split at h
      · rename_i range1 st2 hf
        cases h
        unfold arenaAllocFindInFreeCBS at hf
        split at hf
        · cases hf
        · cases hf
          rw [arenaMoveTail_steps]
          rfl
      · cases h

/-- One call of `arenaAllocFromCBS` is one search on record, of the mask
given. -/
theorem arenaAllocFromCBS_steps (cls : ArenaClass) (zones size pool : Nat) (st : State) :
    ladderSteps (arenaAllocFromCBS cls zones size pool st).2.2.calls
      = ladderSteps st.calls ++ [some zones] := by
  have hlog : ladderSteps (st.log (Call.search zones size)).calls
      = ladderSteps st.calls ++ [some zones] := ladderSteps_search zones size st.calls
  have hmark : ∀ chunk baseIndex pages (s : State),
      ladderSteps (callPagesMarkAllocated cls chunk baseIndex pages pool s).2.calls
        = ladderSteps s.calls :=
    fun chunk baseIndex pages s =>
      (ladderSteps_append [Call.pagesMarkAllocated chunk baseIndex pages pool] s.calls).trans
        (List.append_nil _)
  unfold arenaAllocFromCBS
  split
  · exact hlog
  · rename_i chunk baseIndex pages range st1 hfind
    have h1 := arenaAllocFind_steps hfind
    simp only
    split
    · rw [arenaCBSInsert_steps, hmark, h1, hlog]
    · rw [← hlog, ← h1, ← hmark chunk baseIndex pages st1]
      rfl

theorem policyLast_steps (cls : ArenaClass) (size pool : Nat) (st : State) :
    ladderSteps (policyLast cls size pool st).2.2.calls
      = ladderSteps st.calls ++ [some ZoneSetUNIV] :=
  arenaAllocFromCBS_steps cls ZoneSetUNIV size pool st

/-- The searches of Plan D and the last resort. -/
theorem policyPlanD_steps (cls : ArenaClass) (pref : SegPrefStruct) (size pool moreZones : Nat)
    (st : State) :
    ladderSteps (policyPlanD cls pref size pool moreZones st).2.2.calls
      = ladderSteps st.calls ++
          (if ZoneSetUnion moreZones (ZoneSetDiff ZoneSetUNIV pref.avoid) ≠ moreZones then
            (if (arenaAllocFromCBS cls
                  (ZoneSetUnion moreZones (ZoneSetDiff ZoneSetUNIV pref.avoid)) size pool st).1
                = ResOK then
              [some (ZoneSetUnion moreZones (ZoneSetDiff ZoneSetUNIV pref.avoid))]
            else [some (ZoneSetUnion moreZones (ZoneSetDiff ZoneSetUNIV pref.avoid)),
                  some ZoneSetUNIV])
          else [some ZoneSetUNIV]) := by
  unfold policyPlanD orTry
  simp only
  split
  · split
    · exact arenaAllocFromCBS_steps _ _ _ _ _
    · rw [policyLast_steps, arenaAllocFromCBS_steps, List.append_assoc]
      rfl
  · exact policyLast_steps cls size pool st

theorem callGrow_steps (cls : ArenaClass) (pref : SegPrefStruct) (size : Nat) (st : State) :
    ladderSteps (callGrow cls pref size st).2.calls = ladderSteps st.calls ++ [none] :=
  ladderSteps_append [Call.grow pref size] st.calls

theorem orTry_steps {s : State} {r : Res × Option Found × State}
    {attempt : State → Res × Option Found × State}
    (hr : ∃ rest, ladderSteps r.2.2.calls = ladderSteps s.calls ++ rest)
    (ha : ∀ s1, ∃ rest, ladderSteps (attempt s1).2.2.calls = ladderSteps s1.calls ++ rest) :
    ∃ rest, ladderSteps (orTry r attempt).2.2.calls = ladderSteps s.calls ++ rest := by
  unfold orTry
  split
  · exact hr
  · obtain ⟨l1, h1⟩ := hr
    obtain ⟨l2, h2⟩ := ha r.2.2
    exact ⟨l1 ++ l2, by rw [h2, h1, List.append_assoc]⟩

theorem policyPlanCAgain_steps (cls : ArenaClass) (pref : SegPrefStruct)
    (size pool moreZones : Nat) (st : State) :
    ∃ rest, ladderSteps (policyPlanCAgain cls pref size pool moreZones st).2.2.calls
      = ladderSteps st.calls ++ rest := by
  have hD : ∀ s, ∃ rest, ladderSteps (policyPlanD cls pref size pool moreZones s).2.2.calls
      = ladderSteps s.calls ++ rest := fun s => ⟨_, policyPlanD_steps cls pref size pool _ s⟩
  unfold policyPlanCAgain
  simp only
  split
  · exact orTry_steps ⟨_, arenaAllocFromCBS_steps cls _ size pool st⟩ hD
  · exact hD st

/-- Plan C, when it is entered with a mask that is not empty, starts with a
call of `grow`. -/
theorem policyPlanC_steps (cls : ArenaClass) (pref : SegPrefStruct)
    (size pool moreZones : Nat) (st : State) (hmore : moreZones ≠ ZoneSetEMPTY) :
    ∃ rest, ladderSteps (policyPlanC cls pref size pool moreZones st).2.2.calls
      = ladderSteps st.calls ++ none :: rest := by
  have hgrow := callGrow_steps cls pref size st
  have hagain := policyPlanCAgain_steps cls pref size pool moreZones
  unfold policyPlanC
  simp only
  rw [if_pos hmore]
  split
  · exact ⟨[], hgrow⟩
  · split
    · obtain ⟨rest, h⟩ := orTry_steps (s := (callGrow cls pref size st).2)
        ⟨_, arenaAllocFromCBS_steps cls pref.zones size pool (callGrow cls pref size st).2⟩
        hagain
      exact ⟨rest, by rw [h, hgrow, List.append_assoc]; rfl⟩
    · obtain ⟨rest, h⟩ := hagain (callGrow cls pref size st).2
      exact ⟨rest, by rw [h, hgrow, List.append_assoc]; rfl⟩

theorem policyPlanC_extends (cls : ArenaClass) (pref : SegPrefStruct)
    (size pool moreZones : Nat) (st : State) :
    ∃ rest, ladderSteps (policyPlanC cls pref size pool moreZones st).2.2.calls
      = ladderSteps st.calls ++ rest := by
  by_cases hmore : moreZones ≠ ZoneSetEMPTY
  · obtain ⟨rest, h⟩ := policyPlanC_steps cls pref size pool moreZones st hmore
    exact ⟨_, h⟩
  · unfold policyPlanC
    simp only
    rw [if_neg hmore]
    exact ⟨_, policyPlanD_steps cls pref size pool _ st⟩

theorem orTry_first {st : State} {r : Res × Option Found × State}
    {attempt : State → Res × Option Found × State} {step : Option Nat}
    (hr : ladderSteps r.2.2.calls = ladderSteps st.calls ++ [step])
    (ha : ∀ s, ∃ rest, ladderSteps (attempt s).2.2.calls = ladderSteps s.calls ++ rest) :
    ∃ rest, ladderSteps (orTry r attempt).2.2.calls = ladderSteps st.calls ++ step :: rest := by
  unfold orTry
  split
  · exact ⟨[], hr⟩
  · obtain ⟨l2, h2⟩ := ha r.2.2
    exact ⟨l2, by rw [h2, hr, List.append_assoc]; rfl⟩

/-- The masks of the ladder, plan by plan, each plan entered on its own: the
steps on record show the mask that it searches.  Plan B,
entered in state `st`, first searches `more = pref.zones ∪ (freeZones −
pref.avoid)` when `more` differs from `pref.zones`; when it does not, Plan B
makes no search: the next step is the `grow` of Plan C, or, `more` being empty,
Plan D.  Plan D, entered in any state with the `more` of Plan B, searches `even =
more ∪ (ZoneSetUNIV − pref.avoid)` when `even` differs from `more`, and the last
resort searches `ZoneSetUNIV` after it unless that search succeeded; when `even`
is `more` the only search is that of `ZoneSetUNIV`.  The masks are nested,
`pref.zones ⊆ more ⊆ even ⊆ ZoneSetUNIV`, and `even` is `pref.zones ∪
(ZoneSetUNIV − pref.avoid)`. -/
theorem search_ladder_masks (cls : ArenaClass) (pref : SegPrefStruct) (size pool : Nat)
    (st : State) :
    (planBMask pref st.arena.freeZones ≠ pref.zones →
        ∃ rest, ladderSteps (policyPlanB cls pref size pool st).2.2.calls
          = ladderSteps st.calls ++ some (planBMask pref st.arena.freeZones) :: rest)
    ∧ (planBMask pref st.arena.freeZones = pref.zones →
        planBMask pref st.arena.freeZones ≠ ZoneSetEMPTY →
        ∃ rest, ladderSteps (policyPlanB cls pref size pool st).2.2.calls
          = ladderSteps st.calls ++ none :: rest)
    ∧ (planBMask pref st.arena.freeZones = pref.zones →
        planBMask pref st.arena.freeZones = ZoneSetEMPTY →
        policyPlanB cls pref size pool st
          = policyPlanD cls pref size pool (planBMask pref st.arena.freeZones) st)
    ∧ (∀ s : State,
        ladderSteps (policyPlanD cls pref size pool (planBMask pref st.arena.freeZones)
            s).2.2.calls
          = ladderSteps s.calls ++
              (if planDMask pref (planBMask pref st.arena.freeZones)
                  ≠ planBMask pref st.arena.freeZones then
                (if (arenaAllocFromCBS cls
                      (planDMask pref (planBMask pref st.arena.freeZones)) size pool s).1
                    = ResOK then
                  [some (planDMask pref (planBMask pref st.arena.freeZones))]
                else [some (planDMask pref (planBMask pref st.arena.freeZones)),
                      some ZoneSetUNIV])
              else [some ZoneSetUNIV]))
    ∧ (∀ s : State,
        ladderSteps (policyLast cls size pool s).2.2.calls
          = ladderSteps s.calls ++ [some ZoneSetUNIV])
    ∧ ZoneSetSub pref.zones (planBMask pref st.arena.freeZones) = true
    ∧ ZoneSetSub (planBMask pref st.arena.freeZones)
        (planDMask pref (planBMask pref st.arena.freeZones)) = true
    ∧ ZoneSetSub (planDMask pref (planBMask pref st.arena.freeZones)) ZoneSetUNIV = true
    ∧ planDMask pref (planBMask pref st.arena.freeZones)
        = ZoneSetUnion pref.zones (ZoneSetDiff ZoneSetUNIV pref.avoid) := by
  obtain ⟨n1, n2, n3, n4⟩ := ladder_masks_nested pref.zones pref.avoid st.arena.freeZones
  refine ⟨?_, ?_, ?_, fun s => policyPlanD_steps cls pref size pool _ s,
    fun s => policyLast_steps cls size pool s, n1, n2, n3, n4⟩
  · intro hne
    have hne1 : ZoneSetUnion pref.zones (ZoneSetDiff st.arena.freeZones pref.avoid)
        ≠ pref.zones := hne
    unfold policyPlanB
    simp only
    rw [if_pos hne1]
    exact orTry_first (arenaAllocFromCBS_steps cls _ size pool st)
      (policyPlanC_extends cls pref size pool _)
  · intro he hne
    have he1 : ¬ ZoneSetUnion pref.zones (ZoneSetDiff st.arena.freeZones pref.avoid)
        ≠ pref.zones := not_not.mpr he
    unfold policyPlanB
    simp only
    rw [if_neg he1]
    exact policyPlanC_steps cls pref size pool _ st hne
  · intro he hempty
    have he1 : ¬ ZoneSetUnion pref.zones (ZoneSetDiff st.arena.freeZones pref.avoid)
        ≠ pref.zones := not_not.mpr he
    have hempty1 : ¬ ZoneSetUnion pref.zones (ZoneSetDiff st.arena.freeZones pref.avoid)
        ≠ ZoneSetEMPTY := not_not.mpr hempty
    unfold policyPlanB policyPlanC
    simp only
    rw [if_neg he1, if_neg hempty1]
    rfl

/-- The whole ladder on an arena with nothing in its indices, zone 2 marked
free, for a pool that asks for zone 0 and avoids zone 1: Plan B first searches
zones 0 and 2; the steps on record are the searches of Plan A and Plan B, the
`grow` of Plan C and its two searches, the search of Plan D in every zone but
zone 1, and the search of `ZoneSetUNIV`. -/
theorem search_ladder_masks_witness :
    (∃ rest, ladderSteps (policyPlanB idleGrowClass ⟨1, 2, false⟩ 4096 7
          emptyIndexArena).2.2.calls
        = ladderSteps emptyIndexArena.calls
            ++ some (planBMask ⟨1, 2, false⟩ emptyIndexArena.arena.freeZones) :: rest)
    ∧ planBMask ⟨1, 2, false⟩ emptyIndexArena.arena.freeZones = 5
    ∧ planDMask ⟨1, 2, false⟩ 5 = ZoneSetUNIV - 2
    ∧ ladderSteps (arenaAllocPolicy idleGrowClass ⟨1, 2, false⟩ 4096 7
          emptyIndexArena).2.2.calls
        = [some 1, some 5, none, some 1, some 5, some (ZoneSetUNIV - 2), some ZoneSetUNIV] :=
  ⟨(search_ladder_masks idleGrowClass ⟨1, 2, false⟩ 4096 7 emptyIndexArena).1 (by decide),
   by decide, by decide, by decide⟩

/-- C17 fails on the code when `grow` fails.  The class cannot grow
(`ArenaNoGrow`).  In the fresh arena one page has been allocated, at `0x12000`,
and freed: zone 9 has left the free zones, the page is in the block set of zone
9 and the rest of the free space in zones 10 to 15.  The pool asks for one page
in zone 0, avoiding zones 10 to 15.  The mask of Plan B is `more` = every zone
but zones 9 to 15, which differs from `pref.zones`, and the mask of Plan D is
`even` = every zone but zones 10 to 15, which differs from `more`.  Plan A
searches zone 0 and Plan B searches `more`; both find nothing.  Plan C calls
`grow`, whose failure `arenaAllocPolicy` returns at once: Plan D is not
attempted, though `even` differs from `more` and the search of `even` gives a
page in the state that the policy left.  With a class whose `grow` succeeds
without adding memory the same request goes on to Plan D, which searches `even`
and gives the page at `0x12000`. -/
theorem planD_skipped_after_failed_grow :
    freedPageArena.arena.freeZones = ZoneSetUNIV - 2 ^ 9
    ∧ freedPageArena.arena.zoneCBS 9 = [⟨0x12000, 0x14000⟩]
    ∧ freedPageArena.arena.freeCBS = [⟨0x14000, 0x20000⟩]
    ∧ planBMask ⟨1, 0xFC00, false⟩ freedPageArena.arena.freeZones = ZoneSetUNIV - 0xFE00
    ∧ planDMask ⟨1, 0xFC00, false⟩ (ZoneSetUNIV - 0xFE00) = ZoneSetUNIV - 0xFC00
    ∧ (arenaAllocPolicy plainClass ⟨1, 0xFC00, false⟩ 4096 7 freedPageArena).1 = ResRESOURCE
    ∧ (arenaAllocPolicy plainClass ⟨1, 0xFC00, false⟩ 4096 7 freedPageArena).2.2.calls
        = [Call.grow ⟨1, 0xFC00, false⟩ 4096, Call.search (ZoneSetUNIV - 0xFE00) 4096,
           Call.search 1 4096]
    ∧ ladderSteps (arenaAllocPolicy plainClass ⟨1, 0xFC00, false⟩ 4096 7
        freedPageArena).2.2.calls
        = [some 1, some (ZoneSetUNIV - 0xFE00), none]
    ∧ (arenaAllocFromCBS plainClass (ZoneSetUNIV - 0xFC00) 4096 7
        (arenaAllocPolicy plainClass ⟨1, 0xFC00, false⟩ 4096 7 freedPageArena).2.2).1 = ResOK
    ∧ (arenaAllocPolicy idleGrowClass ⟨1, 0xFC00, false⟩ 4096 7 freedPageArena).1 = ResOK
    ∧ ladderSteps (arenaAllocPolicy idleGrowClass ⟨1, 0xFC00, false⟩ 4096 7
        freedPageArena).2.2.calls
        = [some 1, some (ZoneSetUNIV - 0xFE00), none, some 1, some (ZoneSetUNIV - 0xFE00),
           some (ZoneSetUNIV - 0xFC00)]
    ∧ ((arenaAllocPolicy idleGrowClass ⟨1, 0xFC00, false⟩ 4096 7 freedPageArena).2.1.map
          (fun found => found.range))
        = some ⟨0x12000, 0x13000⟩ := by
  refine ⟨by decide, by decide, by decide, by decide, by decide, by decide, by decide,
    by decide, by decide, by decide, by decide, by decide⟩

/-! ## The free zones through an allocation and a free -/

theorem arenaAllocFind_zones {zones size chunk baseIndex pages : Nat} {range : RangeStruct}
    {st st1 : State}
    (h : arenaAllocFind zones size st = some (chunk, baseIndex, pages, range, st1)) :
    st1.arena.freeZones = st.arena.freeZones ∧ st1.arena.zoneShift = st.arena.zoneShift := by
  have hset : ∀ (a : Arena) w cbs units, (a.setCBS w cbs units).freeZones = a.freeZones
      ∧ (a.setCBS w cbs units).zoneShift = a.zoneShift :=
    fun a w cbs units => ⟨(setCBS_fields a w cbs units).2.2.2.2, (setCBS_fields a w cbs units).2.1⟩
  have hzone : ∀ (n : Nat) (s s1 : State) (r : RangeStruct) (i : Nat),
      findInZoneCBSFrom s zones size n i = some (r, s1) →
      s1.arena.freeZones = s.arena.freeZones ∧ s1.arena.zoneShift = s.arena.zoneShift := by
    intro n
    induction n with
    | zero => intro s s1 r i h; cases h
    | succ n ih =>
      intro s s1 r i h
      unfold findInZoneCBSFrom at h
      split at h
      · split at h
        · cases h
          exact hset _ _ _ _
        · exact ih _ _ _ _ h
      · exact ih _ _ _ _ h
  have htail : ∀ (a l : Nat) (s : State),
      (arenaMoveTail a l s).arena.freeZones = s.arena.freeZones
      ∧ (arenaMoveTail a l s).arena.zoneShift = s.arena.zoneShift := by
    intro a l s
    unfold arenaMoveTail
    split
    · exact ⟨((hset _ _ _ _).1).trans (hset _ _ _ _).1, ((hset _ _ _ _).2).trans (hset _ _ _ _).2⟩
    · exact ⟨rfl, rfl⟩
  unfold arenaAllocFind at h
  split at h
  · cases h
    exact ⟨rfl, rfl⟩
  · split at h
    · rename_i hz
      cases h
      exact hzone _ _ _ _ _ hz
    · split at h
      · rename_i range1 st2 hf
        cases h
        unfold arenaAllocFindInFreeCBS at hf
        split at hf
        · cases hf
        · cases hf
          exact ⟨(htail _ _ _).1.trans (hset _ _ _ _).1, (htail _ _ _).2.trans (hset _ _ _ _).2⟩
      · cases h

/-- A successful `arenaAllocFromCBS`, with a class that leaves the indices
alone, takes the zones of the range it allocated out of the free zones, so
that no address of the range is then in a zone marked free; a failed one leaves
the free zones as they were. -/
theorem arenaAllocFromCBS_clears_zones (cls : ArenaClass) (zones size pool : Nat) (st : State)
    (hcls : ClassKeepsIndices cls) :
    ((arenaAllocFromCBS cls zones size pool st).1 = ResOK →
      ∃ found, (arenaAllocFromCBS cls zones size pool st).2.1 = some found
        ∧ (arenaAllocFromCBS cls zones size pool st).2.2.arena.freeZones
            = ZoneSetDiff st.arena.freeZones
                (ZoneSetOfRange st.arena.zoneShift found.range.base found.range.limit)
        ∧ ∀ x, found.range.Mem x →
            ZoneSetIsMember (arenaAllocFromCBS cls zones size pool st).2.2.arena.freeZones
              (AddrZone st.arena.zoneShift x) = false)
    ∧ ((arenaAllocFromCBS cls zones size pool st).1 ≠ ResOK →
        (arenaAllocFromCBS cls zones size pool st).2.2.arena.freeZones = st.arena.freeZones) := by
  unfold arenaAllocFromCBS
  split
  · exact ⟨fun h => (by cases h), fun _ => rfl⟩
  · rename_i chunk baseIndex pages range st1 hfind
    obtain ⟨f1, f2⟩ := arenaAllocFind_zones hfind
    have f1a : st1.arena.freeZones = st.arena.freeZones := f1
    have f2a : st1.arena.zoneShift = st.arena.zoneShift := f2
    obtain ⟨-, -, -, -, m5, m6, -, -⟩ := hcls.2.1 st1.arena chunk baseIndex pages pool
    have m5a : (callPagesMarkAllocated cls chunk baseIndex pages pool st1).2.arena.freeZones
        = st.arena.freeZones := m5.trans f1a
    have m6a : (callPagesMarkAllocated cls chunk baseIndex pages pool st1).2.arena.zoneShift
        = st.arena.zoneShift := m6.trans f2a
    simp only
    split
    · rename_i hfail
      refine ⟨fun h => absurd h hfail, fun _ => ?_⟩
      exact ((setCBS_fields _ _ _ _).2.2.2.2).trans m5a
    · refine ⟨fun _ => ⟨_, rfl, ?_, fun x hx => ?_⟩, fun h => absurd rfl h⟩
      · show ZoneSetDiff _ (ZoneSetOfRange _ range.base range.limit) = _
        rw [m5a, m6a]
      · show (ZoneSetDiff _ (ZoneSetOfRange _ range.base range.limit)).testBit _ = false
        rw [m5a, m6a, zoneSetDiff_testBit, zoneSetOfRange_testBit hx.1 hx.2]
        simp

/-- `ArenaFree` adds no zone to the free zones: with a full reservoir and a
class that leaves the indices alone it leaves them as they were. -/
theorem ArenaFree_freeZones (cls : ArenaClass) (rsv : ReservoirOps) (base size pool : Nat)
    (st : State) (hcls : ClassKeepsIndices cls) (hrsv : ReservoirIdle rsv) :
    (ArenaFree cls rsv base size pool st).arena.freeZones = st.arena.freeZones := by
  have hins : ∀ w r (s : State), (arenaCBSInsert w r s).2.2.arena.freeZones = s.arena.freeZones :=
    fun w r s => (setCBS_fields _ _ _ _).2.2.2.2
  have hfree : ∀ b n p (s : State), (callFree cls b n p s).arena.freeZones = s.arena.freeZones :=
    fun b n p s => (hcls.2.2 s.arena b n p).2.2.2.2.1
  have hinsert : ∀ s : State,
      (arenaFreeInsert cls base size (AddrAdd base size) pool s).arena.freeZones
        = s.arena.freeZones := by
    intro s
    unfold arenaFreeInsert
    simp only
    split
    · split
      · exact hins _ _ s
      · rw [hfree, hins]
        exact hins _ _ s
    · rw [hfree, hins]
  rw [ArenaFree_idle cls hrsv, hinsert]
  exact (arenaUncache_fields base size st).2.2.2.2.2.2.2

/-! ## C18: the comparison of range trees -/

/-- C18.  `RangeTreeCompare` of a node holding `[base, limit)` with a key `k`
gives `CompareLESS` when `k < base`, `CompareGREATER` when `k ≥ limit` (and not
`k < base`), and `CompareEQUAL` otherwise; so it gives `CompareEQUAL` exactly
when `base ≤ k < limit`, never for an empty range, and always for a non-empty
range compared with its own key. -/
theorem RangeTreeCompare_containment (block : RangeStruct) (k : Nat) :
    (k < block.base → RangeTreeCompare block k = CompareLESS)
    ∧ (k ≥ block.limit → ¬ k < block.base → RangeTreeCompare block k = CompareGREATER)
    ∧ (¬ k < block.base → ¬ k ≥ block.limit → RangeTreeCompare block k = CompareEQUAL)
    ∧ (RangeTreeCompare block k = CompareEQUAL ↔ block.base ≤ k ∧ k < block.limit)
    ∧ (block.limit ≤ block.base → RangeTreeCompare block k ≠ CompareEQUAL)
    ∧ (block.base < block.limit → RangeTreeCompare block (RangeTreeKey block) = CompareEQUAL) := by
  unfold RangeTreeCompare RangeTreeKey
  refine ⟨?_, ?_, ?_, ?_, ?_, ?_⟩
  · intro h; simp [h]
  · intro h1 h2; simp [h1, h2]
  · intro h1 h2; simp [h1, h2]
  · by_cases h1 : k < block.base
    · simp [h1]
    · by_cases h2 : k ≥ block.limit
      · simp [h1, h2]
      · simp [h1, h2]
        omega
  · intro he
    by_cases h1 : k < block.base
    · simp [h1]
    · have h2 : k ≥ block.limit := by omega
      simp [h1, h2]
  · intro hne
    simp [hne]

/-- The comparison at the node `[0x12000, 0x14000)`: an address below it, one
above it, one inside it, and its own key. -/
theorem RangeTreeCompare_containment_witness :
    RangeTreeCompare ⟨0x12000, 0x14000⟩ 0x11000 = CompareLESS
    ∧ RangeTreeCompare ⟨0x12000, 0x14000⟩ 0x14000 = CompareGREATER
    ∧ RangeTreeCompare ⟨0x12000, 0x14000⟩ 0x13000 = CompareEQUAL
    ∧ RangeTreeCompare ⟨0x12000, 0x14000⟩ (RangeTreeKey ⟨0x12000, 0x14000⟩) = CompareEQUAL
    ∧ RangeTreeCompare ⟨0x14000, 0x14000⟩ 0x14000 ≠ CompareEQUAL :=
  ⟨(RangeTreeCompare_containment ⟨0x12000, 0x14000⟩ 0x11000).1 (by decide),
   (RangeTreeCompare_containment ⟨0x12000, 0x14000⟩ 0x14000).2.1 (by decide) (by decide),
   (RangeTreeCompare_containment ⟨0x12000, 0x14000⟩ 0x13000).2.2.1 (by decide) (by decide),
   (RangeTreeCompare_containment ⟨0x12000, 0x14000⟩ 0x12000).2.2.2.2.2 (by decide),
   (RangeTreeCompare_containment ⟨0x14000, 0x14000⟩ 0x14000).2.2.2.2.1 (by decide)⟩

/-! ## C19: the memory available -/

/-- C19.  `ArenaAvail` is `min(reserved, commitLimit) − committed +
spareCommitted` in the arithmetic of `Size`; when the quantities are machine
words with `spareCommitted ≤ committed ≤ commitLimit` and `committed ≤
reserved`, neither the subtraction nor the addition wraps, and the result is at
least `spareCommitted` and at most `min(reserved, commitLimit)`. -/
theorem ArenaAvail_value (cls : ArenaClass) (arena : Arena)
    (hres : cls.reserved arena < WordRange) (hlim : arena.commitLimit < WordRange)
    (hspare : arena.spareCommitted ≤ arena.committed)
    (hcommit : arena.committed ≤ arena.commitLimit)
    (hreserved : arena.committed ≤ cls.reserved arena) :
    ArenaAvail cls arena
      = SizeAdd (SizeSub (min (cls.reserved arena) arena.commitLimit) arena.committed)
          arena.spareCommitted
    ∧ SizeSub (min (cls.reserved arena) arena.commitLimit) arena.committed
      = min (cls.reserved arena) arena.commitLimit - arena.committed
    ∧ ArenaAvail cls arena
      = min (cls.reserved arena) arena.commitLimit - arena.committed + arena.spareCommitted
    ∧ arena.spareCommitted ≤ ArenaAvail cls arena
    ∧ ArenaAvail cls arena ≤ min (cls.reserved arena) arena.commitLimit := by
  have hmin : (if cls.reserved arena > arena.commitLimit then arena.commitLimit
      else cls.reserved arena) = min (cls.reserved arena) arena.commitLimit := by
    split <;> omega
  have hle : arena.committed ≤ min (cls.reserved arena) arena.commitLimit := by omega
  have hlt : min (cls.reserved arena) arena.commitLimit < WordRange := by omega
  have hsub := SizeSub_of_le hlt hle
  have hadd : SizeAdd (min (cls.reserved arena) arena.commitLimit - arena.committed)
      arena.spareCommitted
      = min (cls.reserved arena) arena.commitLimit - arena.committed + arena.spareCommitted :=
    SizeAdd_of_lt (by omega)
  have hval : ArenaAvail cls arena
      = min (cls.reserved arena) arena.commitLimit - arena.committed + arena.spareCommitted := by
    unfold ArenaAvail
    simp only [hmin, hsub, hadd]
  refine ⟨?_, hsub, hval, ?_, ?_⟩
  · unfold ArenaAvail
    simp only [hmin]
  · omega
  · omega

/-- An arena of 16 pages with two pages committed, one of them spare, and a
commit limit of three pages: 12288 − 8192 + 4096 bytes are available. -/
theorem ArenaAvail_value_witness :
    ArenaAvail plainClass { spareArena.arena with commitLimit := 12288 } = 8192 :=
  (ArenaAvail_value plainClass { spareArena.arena with commitLimit := 12288 }
    (by decide) (by decide) (by decide) (by decide) (by decide)).2.2.1

/-! ## C20: the third scenario -/

/-- C20 fails on the code when 8192 bytes or more are spare.  With two spare
pages, the commit limit is set to `committed + 8192`; the allocation of 16384
bytes needs only 8192 more bytes committed, passes the gate and succeeds, and
the committed memory is then at the limit. -/
theorem scenario3_spare_counterexample :
    twoSpareArena.arena.committed = 16384
    ∧ twoSpareArena.arena.spareCommitted = 8192
    ∧ (ArenaSetCommitLimit reuseClass (SizeAdd twoSpareArena.arena.committed 8192)
        twoSpareArena).1 = ResOK
    ∧ (ArenaAlloc reuseClass noReservoir ⟨ZoneSetUNIV, 0, false⟩ 16384 7 false
        (ArenaSetCommitLimit reuseClass (SizeAdd twoSpareArena.arena.committed 8192)
          twoSpareArena).2).1 = ResOK
    ∧ (ArenaAlloc reuseClass noReservoir ⟨ZoneSetUNIV, 0, false⟩ 16384 7 false
        (ArenaSetCommitLimit reuseClass (SizeAdd twoSpareArena.arena.committed 8192)
          twoSpareArena).2).2.1 = some 0x14000
    ∧ (ArenaAlloc reuseClass noReservoir ⟨ZoneSetUNIV, 0, false⟩ 16384 7 false
        (ArenaSetCommitLimit reuseClass (SizeAdd twoSpareArena.arena.committed 8192)
          twoSpareArena).2).2.2.arena.committed = 24576 := by
  refine ⟨by decide, by decide, by decide, by decide, by decide, by decide⟩

/-- C20, amended.  In an arena with less than 8192 bytes spare, after
`ArenaSetCommitLimit(committed + 8192)` has given `ResOK`, an `ArenaAlloc` of
16384 bytes without reservoir permit, the reservoir being full, gives
`ResCOMMIT_LIMIT` and no base, and leaves the whole state as it was: the
indices, `committed`, and the record of calls, to which nothing is added. -/
theorem scenario3_commit_limit (cls : ArenaClass) (rsv : ReservoirOps) (pref : SegPrefStruct)
    (pool : Nat) (st : State) (hrsv : ReservoirIdle rsv)
    (hspare : st.arena.spareCommitted < 8192)
    (hword : st.arena.committed < WordRange)
    (hok : (ArenaSetCommitLimit cls (SizeAdd st.arena.committed 8192) st).1 = ResOK) :
    (ArenaSetCommitLimit cls (SizeAdd st.arena.committed 8192) st).2
        = st.set { st.arena with commitLimit := st.arena.committed + 8192 }
    ∧ ArenaAlloc cls rsv pref 16384 pool false
        (ArenaSetCommitLimit cls (SizeAdd st.arena.committed 8192) st).2
      = (ResCOMMIT_LIMIT, none,
         (ArenaSetCommitLimit cls (SizeAdd st.arena.committed 8192) st).2) := by
  have hnowrap : st.arena.committed + 8192 < WordRange := by
    by_contra hwrap
    have hlim : SizeAdd st.arena.committed 8192 = st.arena.committed + 8192 - WordRange := by
      unfold SizeAdd
      simp only [wordRange_eq] at *
      omega
    have hsub : SizeSub st.arena.committed st.arena.spareCommitted
        = st.arena.committed - st.arena.spareCommitted :=
      SizeSub_of_le hword (by simp only [wordRange_eq] at *; omega)
    have h1 : st.arena.committed + 8192 - WordRange < st.arena.committed := by
      simp only [wordRange_eq] at *
      omega
    have h2 : ¬ st.arena.committed + 8192 - WordRange
        ≥ st.arena.committed - st.arena.spareCommitted := by
      simp only [wordRange_eq] at *
      omega
    have hfail : (ArenaSetCommitLimit cls (SizeAdd st.arena.committed 8192) st).1
        = ResFAIL := by
      unfold ArenaSetCommitLimit
      simp only [hlim, hsub, h1, h2, if_true, if_false]
    rw [hfail] at hok
    cases hok
  have hlimit : SizeAdd st.arena.committed 8192 = st.arena.committed + 8192 :=
    SizeAdd_of_lt hnowrap
  have hset : ArenaSetCommitLimit cls (SizeAdd st.arena.committed 8192) st
      = (ResOK, st.set { st.arena with commitLimit := st.arena.committed + 8192 }) := by
    unfold ArenaSetCommitLimit
    rw [hlimit]
    have : ¬ st.arena.committed + 8192 < st.arena.committed := by omega
    simp only [this, if_false]
  rw [hset]
  refine ⟨rfl, ?_⟩
  have hgate : commitGate { st.arena with commitLimit := st.arena.committed + 8192 } 16384
      = true := by
    unfold commitGate
    have h1 : st.arena.spareCommitted < 16384 := by omega
    have hsub : SizeSub 16384 st.arena.spareCommitted = 16384 - st.arena.spareCommitted :=
      SizeSub_of_le (by rw [wordRange_eq]; omega) (by omega)
    simp only [h1, if_true, hsub, decide_eq_true_eq]
    by_cases hw : st.arena.committed + (16384 - st.arena.spareCommitted) < WordRange
    · left
      rw [SizeAdd_of_lt hw]
      omega
    · right
      unfold SizeAdd
      simp only [wordRange_eq] at *
      omega
  have hpol : ∀ s : State, s.arena = { st.arena with commitLimit := st.arena.committed + 8192 } →
      arenaAllocBody cls rsv pref 16384 pool false s = (ResCOMMIT_LIMIT, none, s) := by
    intro s hs
    unfold arenaAllocBody arenaAllocPolicy
    rw [hs, hgate]
    simp
  have hrsv1 : ∀ a, rsv.ensureFull a = (ResOK, a) := hrsv
  have hst : ∀ s : State, s.set s.arena = s := fun _ => rfl
  unfold ArenaAlloc
  split
  · rw [hrsv1]
    simp only [ne_eq, not_true_eq_false, false_and, if_false]
    rw [hst]
    exact hpol (st.set { st.arena with commitLimit := st.arena.committed + 8192 }) rfl
  · exact hpol (st.set { st.arena with commitLimit := st.arena.committed + 8192 }) rfl

/-- The created arena, nothing spare, the commit limit set to `committed + 8192`:
four pages are refused. -/
theorem scenario3_commit_limit_witness :
    ArenaAlloc plainClass noReservoir ⟨ZoneSetUNIV, 0, false⟩ 16384 7 false
        (ArenaSetCommitLimit plainClass (SizeAdd freshArena.arena.committed 8192) freshArena).2
      = (ResCOMMIT_LIMIT, none,
         (ArenaSetCommitLimit plainClass (SizeAdd freshArena.arena.committed 8192)
           freshArena).2) :=
  (scenario3_commit_limit plainClass noReservoir ⟨ZoneSetUNIV, 0, false⟩ 7 freshArena
    noReservoir_idle (by decide) (by decide) (by decide)).2

/-! ## C21: allocating, freeing and allocating again -/

/-- The block that `cbsFirstFit` gives is the block that `cbsTake` finds for
its low end. -/
theorem cbsTake_firstFit {size : Nat} {b : RangeStruct} :
    ∀ cbs : CBS, cbsFirstFit size cbs = some b →
      ∃ c rest, cbsTake ⟨b.base, b.base + size⟩ cbs = some (c, rest) ∧ c.base = b.base := by
  intro cbs
  induction cbs with
  | nil => intro h; cases h
  | cons x xs ih =>
    intro h
    unfold cbsFirstFit at h
    by_cases hfit : x.base ≤ x.limit ∧ size ≤ x.limit - x.base
    · rw [if_pos hfit] at h
      have hx : x = b := Option.some.inj h
      rw [← hx]
      refine ⟨x, cbsCut x ⟨x.base, x.base + size⟩ ++ xs, ?_, rfl⟩
      unfold cbsTake
      rw [if_pos (by constructor <;> simp only <;> omega)]
    · rw [if_neg hfit] at h
      obtain ⟨c, rest, hc, hb⟩ := ih h
      obtain ⟨-, h1, h2⟩ := cbsFirstFit_some xs h
      have hno : ¬ (x.base ≤ (⟨b.base, b.base + size⟩ : RangeStruct).base
          ∧ (⟨b.base, b.base + size⟩ : RangeStruct).limit ≤ x.limit) := by
        intro hx
        apply hfit
        simp only at hx
        omega
      refine ⟨c, x :: rest, ?_, hb⟩
      unfold cbsTake
      rw [if_neg hno, hc]

/-- `CBSFindFirst` finds a block whenever one is large enough, whatever the
block pool has: taking the low end of a block needs no new node. -/
theorem CBSFindFirst_of_firstFit (units : Nat) {size : Nat} {cbs : CBS} {b : RangeStruct}
    (h : cbsFirstFit size cbs = some b) :
    ∃ old rest units1,
      CBSFindFirst units cbs size = some (⟨b.base, b.base + size⟩, old, rest, units1) := by
  obtain ⟨c, rest, hc, hb⟩ := cbsTake_firstFit cbs h
  have hcut : (cbsCut c ⟨b.base, b.base + size⟩).length ≠ 2 := by
    unfold cbsCut
    have : ¬ c.base < (⟨b.base, b.base + size⟩ : RangeStruct).base := by
      simp only
      omega
    rw [if_neg this]
    split <;> simp
  unfold CBSFindFirst
  rw [h]
  simp only
  unfold CBSDelete
  rw [hc]
  simp only
  rw [if_neg hcut]
  exact ⟨_, _, _, rfl⟩

theorem CBSFindFirst_none {units size : Nat} {cbs : CBS}
    (h : CBSFindFirst units cbs size = none) : cbsFirstFit size cbs = none := by
  cases hfit : cbsFirstFit size cbs with
  | none => rfl
  | some b =>
    obtain ⟨old, rest, units1, hfound⟩ := CBSFindFirst_of_firstFit units hfit
    rw [hfound] at h
    cases h

theorem CBSFindFirst_none_of (units : Nat) {size : Nat} {cbs : CBS}
    (h : cbsFirstFit size cbs = none) : CBSFindFirst units cbs size = none := by
  unfold CBSFindFirst
  rw [h]

/-- A successful search of the zone block sets stops at the first set of the
mask that has a block large enough. -/
theorem findInZoneCBSFrom_first {st st1 : State} {zones size : Nat} {range : RangeStruct}
    (n : Nat) : ∀ i, findInZoneCBSFrom st zones size n i = some (range, st1) →
      ∃ z old rest units1, i ≤ z ∧ z < i + n ∧ ZoneSetIsMember zones z = true
        ∧ (∀ k, i ≤ k → k < z → ZoneSetIsMember zones k = true →
            cbsFirstFit size (st.arena.zoneCBS k) = none)
        ∧ CBSFindFirst st.arena.cbsBlockPoolStruct.units (st.arena.zoneCBS z) size
            = some (range, old, rest, units1)
        ∧ st1 = st.set (st.arena.setCBS (.zone z) rest units1) := by
  induction n with
  | zero => intro i h; simp [findInZoneCBSFrom] at h
  | succ n ih =>
    intro i h
    unfold findInZoneCBSFrom at h
    by_cases hm : ZoneSetIsMember zones i = true
    · rw [if_pos hm] at h
      cases hf : CBSFindFirst st.arena.cbsBlockPoolStruct.units (st.arena.zoneCBS i) size with
      | none =>
        rw [hf] at h
        obtain ⟨z, old, rest, units1, h1, h2, h3, h4, h5, h6⟩ := ih _ h
        refine ⟨z, old, rest, units1, by omega, by omega, h3, fun k hk1 hk2 hk3 => ?_, h5, h6⟩
        by_cases hki : k = i
        · rw [hki]; exact CBSFindFirst_none hf
        · exact h4 k (by omega) hk2 hk3
      | some out =>
        obtain ⟨r, old, rest, units1⟩ := out
        rw [hf] at h
        simp only [Option.some.injEq, Prod.mk.injEq] at h
        obtain ⟨e1, e2⟩ := h
        subst e1
        exact ⟨i, old, rest, units1, le_refl _, by omega, hm,
          fun k hk1 hk2 _ => absurd hk1 (by omega), hf, e2.symm⟩
    · rw [if_neg hm] at h
      obtain ⟨z, old, rest, units1, h1, h2, h3, h4, h5, h6⟩ := ih _ h
      refine ⟨z, old, rest, units1, by omega, by omega, h3, fun k hk1 hk2 hk3 => ?_, h5, h6⟩
      by_cases hki : k = i
      · rw [hki] at hk3; exact absurd hk3 hm
      · exact h4 k (by omega) hk2 hk3

/-- A failed search of the zone block sets found no block large enough in any
set of the mask. -/
theorem findInZoneCBSFrom_none {st : State} {zones size : Nat} (n : Nat) :
    ∀ i, findInZoneCBSFrom st zones size n i = none →
      ∀ k, i ≤ k → k < i + n → ZoneSetIsMember zones k = true →
        cbsFirstFit size (st.arena.zoneCBS k) = none := by
  induction n with
  | zero => intro i _ k h1 h2; omega
  | succ n ih =>
    intro i h k hk1 hk2 hk3
    unfold findInZoneCBSFrom at h
    by_cases hm : ZoneSetIsMember zones i = true
    · rw [if_pos hm] at h
      cases hf : CBSFindFirst st.arena.cbsBlockPoolStruct.units (st.arena.zoneCBS i) size with
      | none =>
        rw [hf] at h
        by_cases hki : k = i
        · rw [hki]; exact CBSFindFirst_none hf
        · exact ih _ h k (by omega) (by omega) hk3
      | some out =>
        rw [hf] at h
        cases h
    · rw [if_neg hm] at h
      by_cases hki : k = i
      · rw [hki] at hk3; exact absurd hk3 hm
      · exact ih _ h k (by omega) (by omega) hk3

/-- The search of the zone block sets gives the low end of the first block
large enough in the first set of the mask that has one. -/
theorem findInZoneCBSFrom_finds {st : State} {zones size z : Nat} {blk : RangeStruct}
    (hm : ZoneSetIsMember zones z = true)
    (hfit : cbsFirstFit size (st.arena.zoneCBS z) = some blk) (n : Nat) :
    ∀ i, i ≤ z → z < i + n →
      (∀ k, i ≤ k → k < z → ZoneSetIsMember zones k = true →
        cbsFirstFit size (st.arena.zoneCBS k) = none) →
      ∃ st1, findInZoneCBSFrom st zones size n i = some (⟨blk.base, blk.base + size⟩, st1) := by
  induction n with
  | zero => intro i h1 h2; omega
  | succ n ih =>
    intro i h1 h2 hnone
    unfold findInZoneCBSFrom
    by_cases hiz : i = z
    · rw [hiz, if_pos hm]
      obtain ⟨old, rest, units1, hf⟩ :=
        CBSFindFirst_of_firstFit st.arena.cbsBlockPoolStruct.units hfit
      rw [hf]
      exact ⟨_, rfl⟩
    · have hrec := ih (i + 1) (by omega) (by omega)
        (fun k hk1 hk2 hk3 => hnone k (by omega) hk2 hk3)
      by_cases hmi : ZoneSetIsMember zones i = true
      · rw [if_pos hmi, CBSFindFirst_none_of _ (hnone i (le_refl _) (by omega) hmi)]
        exact hrec
      · rw [if_neg hmi]
        exact hrec

/-- A block of whole pages that is not empty holds a page. -/
theorem page_fits {a : Nat} {b : RangeStruct} (h1 : a ∣ b.base) (h2 : a ∣ b.limit)
    (h3 : b.base < b.limit) : b.base ≤ b.limit ∧ a ≤ b.limit - b.base :=
  ⟨Nat.le_of_lt h3, Nat.le_of_dvd (by omega) (Nat.dvd_sub' h2 h1)⟩

/-- Blocks that begin above the limit of a range do not touch it. -/
theorem filter_touch_far {r : RangeStruct} {tl : CBS} (h : ∀ t ∈ tl, r.limit < t.base) :
    tl.filter (fun b => rangesTouch r b) = []
    ∧ tl.filter (fun b => !rangesTouch r b) = tl := by
  have hno : ∀ t ∈ tl, rangesTouch r t = false := by
    intro t ht
    have := h t ht
    unfold rangesTouch
    simp only [decide_eq_false_iff_not, not_and]
    omega
  constructor
  · rw [List.filter_eq_nil_iff]
    intro t ht
    rw [hno t ht]
    simp
  · rw [List.filter_eq_self]
    intro t ht
    rw [hno t ht]
    rfl

theorem cbsPlace_front {r : RangeStruct} {tl : CBS} (h : ∀ t ∈ tl, r.base ≤ t.base) :
    cbsPlace r tl = r :: tl := by
  cases tl with
  | nil => rfl
  | cons t ts =>
    unfold cbsPlace
    rw [if_pos (h t (List.mem_cons_self _ _))]

/-- A range of `size` bytes put into a block set whose blocks all lie above it,
apart from it, becomes the first block of the set. -/
theorem CBSInsert_below {size units : Nat} {r : RangeStruct} {tl : CBS}
    (hr : r.limit = r.base + size) (hfar : ∀ t ∈ tl, r.limit < t.base)
    (h : (CBSInsert units tl r).1 ≠ ResLIMIT) :
    ∃ blk, cbsFirstFit size (CBSInsert units tl r).2.2.1 = some blk ∧ blk.base = r.base := by
  obtain ⟨e1, e2⟩ := filter_touch_far hfar
  have hplace : cbsPlace r tl = r :: tl :=
    cbsPlace_front (fun t ht => by have := hfar t ht; omega)
  unfold CBSInsert at h ⊢
  simp only [e1, e2] at h ⊢
  by_cases hu : units = 0
  · rw [if_pos hu] at h
    exact absurd rfl h
  · rw [if_neg hu]
    refine ⟨r, ?_, rfl⟩
    simp only [hplace]
    unfold cbsFirstFit
    rw [if_pos (by omega)]

/-- A range of `size` bytes put into a block set whose first block begins at
the limit of the range joins that block, and the block they make is the first
of the set. -/
theorem CBSInsert_joins {size units : Nat} {r c : RangeStruct} {tl : CBS}
    (hr : r.limit = r.base + size) (hc : c.base = r.limit) (hne : c.base ≤ c.limit)
    (hfar : ∀ t ∈ tl, c.limit < t.base) :
    ∃ blk, cbsFirstFit size (CBSInsert units (c :: tl) r).2.2.1 = some blk
      ∧ blk.base = r.base := by
  have hfar1 : ∀ t ∈ tl, r.limit < t.base := fun t ht => by have := hfar t ht; omega
  obtain ⟨e1, e2⟩ := filter_touch_far hfar1
  have htouch : rangesTouch r c = true := by
    unfold rangesTouch
    simp only [decide_eq_true_eq]
    omega
  have hplace : cbsPlace ⟨r.base, c.limit⟩ tl = ⟨r.base, c.limit⟩ :: tl :=
    cbsPlace_front (fun t ht => by have := hfar t ht; simp only; omega)
  have hhull : cbsHull r [c] = ⟨r.base, c.limit⟩ := by
    unfold cbsHull cbsHull
    rw [Nat.min_eq_left (by omega), Nat.max_eq_right (by omega)]
  refine ⟨⟨r.base, c.limit⟩, ?_, rfl⟩
  unfold CBSInsert
  simp only [List.filter_cons, htouch, e1, e2, if_true, Bool.not_true, Bool.false_eq_true,
    if_false, hhull, hplace]
  unfold cbsFirstFit
  rw [if_pos (by simp only; omega)]

/-- A page taken from a block set of whole pages in address order and put back
is again the low end of the first block of the set. -/
theorem CBSFindFirst_give_back {a units units1 : Nat} {cbs rest : CBS} {range old : RangeStruct}
    (hal : ∀ b ∈ cbs, a ∣ b.base ∧ a ∣ b.limit) (hsep : CBS.Separated cbs)
    (h : CBSFindFirst units cbs a = some (range, old, rest, units1)) :
    (∃ b tl, cbs = b :: tl ∧ range.base = b.base)
    ∧ ∀ u, (CBSInsert u rest range).1 ≠ ResLIMIT →
        ∃ blk, cbsFirstFit a (CBSInsert u rest range).2.2.1 = some blk
          ∧ blk.base = range.base := by
  cases cbs with
  | nil => simp [CBSFindFirst, cbsFirstFit] at h
  | cons b tl =>
    obtain ⟨hne, hpair⟩ := hsep
    rw [List.pairwise_cons] at hpair
    have hb := hne b (List.mem_cons_self _ _)
    obtain ⟨f1, f2⟩ := page_fits (hal b (List.mem_cons_self _ _)).1
      (hal b (List.mem_cons_self _ _)).2 hb
    have hfit : cbsFirstFit a (b :: tl) = some b := by
      unfold cbsFirstFit
      rw [if_pos ⟨f1, f2⟩]
    have htake : cbsTake ⟨b.base, b.base + a⟩ (b :: tl)
        = some (b, cbsCut b ⟨b.base, b.base + a⟩ ++ tl) := by
      unfold cbsTake
      rw [if_pos (by constructor <;> simp only <;> omega)]
    have hcut : cbsCut b ⟨b.base, b.base + a⟩
        = if b.base + a < b.limit then [⟨b.base + a, b.limit⟩] else [] := by
      unfold cbsCut
      simp
    unfold CBSFindFirst at h
    rw [hfit] at h
    simp only at h
    unfold CBSDelete at h
    rw [htake] at h
    simp only at h
    by_cases hlong : b.base + a < b.limit
    · rw [hcut, if_pos hlong] at h
      simp only [List.length_singleton, OfNat.one_ne_ofNat, if_false, Option.some.injEq,
        Prod.mk.injEq] at h
      obtain ⟨e1, e2, e3, e4⟩ := h
      subst e1 e3
      refine ⟨⟨b, tl, rfl, rfl⟩, fun u _ => ?_⟩
      exact CBSInsert_joins rfl rfl (by simp only; omega) (fun t ht => hpair.1 t ht)
    · rw [hcut, if_neg hlong] at h
      simp only [List.length_nil, OfNat.zero_ne_ofNat, if_false, Option.some.injEq,
        Prod.mk.injEq] at h
      obtain ⟨e1, e2, e3, e4⟩ := h
      subst e1 e3
      refine ⟨⟨b, tl, rfl, rfl⟩, fun u hu => ?_⟩
      exact CBSInsert_below rfl (fun t ht => by have := hpair.1 t ht; simp only; omega) hu

/-- The page after a page is in the same stripe unless it begins the next. -/
theorem addrZone_next_page {zoneShift a c : Nat} (ha : 0 < a) (hS : a ∣ 2 ^ zoneShift)
    (hc : a ∣ c) (hnot : ¬ 2 ^ zoneShift ∣ c + a) :
    AddrZone zoneShift (c + a) = AddrZone zoneShift c := by
  unfold AddrZone
  have hpos : 0 < 2 ^ zoneShift := Nat.pow_pos (by decide)
  generalize 2 ^ zoneShift = S at hS hnot hpos
  have hmod : a ∣ c % S := (Nat.dvd_mod_iff hS).2 hc
  have hlt : c % S < S := Nat.mod_lt _ hpos
  have hsub : a ∣ S - c % S := Nat.dvd_sub' hS hmod
  have hle : a ≤ S - c % S := Nat.le_of_dvd (by omega) hsub
  have hsplit : S * (c / S) + c % S = c := Nat.div_add_mod c S
  have hne : c % S + a ≠ S := by
    intro e
    apply hnot
    refine ⟨c / S + 1, ?_⟩
    rw [Nat.mul_add, Nat.mul_one]
    omega
  have hdiv : (c + a) / S = c / S := by
    apply Nat.div_eq_of_lt_le
    · rw [Nat.mul_comm]; omega
    · rw [Nat.add_mul, Nat.one_mul, Nat.mul_comm]; omega
  rw [hdiv]

/-- In an arena with well formed indices whose zone block sets are in address
order, a zone block set without a block of one page is empty. -/
theorem zoneCBS_nil {a : Arena} {z : Nat} (hwf : a.IndexAligned)
    (hsep : CBS.Separated (a.zoneCBS z))
    (h : cbsFirstFit a.alignment (a.zoneCBS z) = none) : a.zoneCBS z = [] := by
  cases hl : a.zoneCBS z with
  | nil => rfl
  | cons b tl =>
    exfalso
    have hb : b ∈ a.zoneCBS z := by rw [hl]; exact List.mem_cons_self _ _
    have hal := hwf.2.2.2.2.1 (.zone z) b hb
    obtain ⟨f1, f2⟩ := page_fits hal.1 hal.2.1 (hsep.1 b hb)
    rw [hl] at h
    unfold cbsFirstFit at h
    rw [if_pos ⟨f1, f2⟩] at h
    cases h

/-- A page found in a zone block set is at hand again once it is put back. -/
theorem arenaAllocFindInZoneCBS_returnable {st st1 : State} {zones : Nat} {range : RangeStruct}
    (hwf : st.arena.IndexAligned) (hconf : st.arena.ZoneConfined)
    (hsep : ∀ z, CBS.Separated (st.arena.zoneCBS z))
    (h : arenaAllocFindInZoneCBS st zones st.arena.alignment = some (range, st1)) :
    st1.arena.Returnable zones st.arena.alignment range := by
  unfold arenaAllocFindInZoneCBS at h
  obtain ⟨z, old, rest, units1, -, hz, hm, hnone, hfind, hst⟩ :=
    findInZoneCBSFrom_first MPS_WORD_WIDTH 0 h
  have hal : ∀ b ∈ st.arena.zoneCBS z, st.arena.alignment ∣ b.base ∧ st.arena.alignment ∣ b.limit :=
    fun b hb => ⟨(hwf.2.2.2.2.1 (.zone z) b hb).1, (hwf.2.2.2.2.1 (.zone z) b hb).2.1⟩
  obtain ⟨⟨b, tl, hl, hbase⟩, hback⟩ := CBSFindFirst_give_back hal (hsep z) hfind
  have hb : b ∈ st.arena.zoneCBS z := by rw [hl]; exact List.mem_cons_self _ _
  have hzone : AddrZone st.arena.zoneShift range.base = z := by
    rw [hbase]
    exact hconf z b b.base hb ⟨le_refl _, (hsep z).1 b hb⟩
  have hshift : st1.arena.zoneShift = st.arena.zoneShift := by
    rw [hst]
    exact (setCBS_fields st.arena (.zone z) rest units1).2.1
  have hcbs : ∀ k, st1.arena.zoneCBS k = if k = z then rest else st.arena.zoneCBS k := by
    intro k
    rw [hst]
    rfl
  unfold Arena.Returnable
  rw [hshift, hzone]
  refine ⟨hm, fun i hi hmi => ?_, fun units hu => ?_⟩
  · rw [hcbs i, if_neg (by omega)]
    exact hnone i (Nat.zero_le _) hi hmi
  · rw [hcbs z, if_pos rfl] at hu ⊢
    exact hback units hu

/-- The tail that `arenaAllocFindInFreeCBS` moves into an empty zone block set
is then the one block of that set. -/
theorem arenaMoveTail_zoneCBS {allocLimit limit : Nat} {st : State}
    (htail : allocLimit < limit)
    (hnil : st.arena.zoneCBS (AddrZone st.arena.zoneShift allocLimit) = [])
    (hn : NoLimit (arenaMoveTail allocLimit limit st).calls) :
    (arenaMoveTail allocLimit limit st).arena.zoneShift = st.arena.zoneShift
    ∧ ∀ k, (arenaMoveTail allocLimit limit st).arena.zoneCBS k
        = if k = AddrZone st.arena.zoneShift allocLimit then [⟨allocLimit, limit⟩]
          else st.arena.zoneCBS k := by
  unfold arenaMoveTail at hn ⊢
  rw [if_pos htail] at hn ⊢
  simp only at hn ⊢
  have hz : (arenaCBSDelete .free ⟨allocLimit, limit⟩ st).2.2.arena.zoneShift
      = st.arena.zoneShift := rfl
  have hc : (arenaCBSDelete .free ⟨allocLimit, limit⟩ st).2.2.arena.zoneCBS
      = st.arena.zoneCBS := rfl
  generalize (arenaCBSDelete .free ⟨allocLimit, limit⟩ st).2.2 = d at hn hz hc ⊢
  rw [hz] at hn ⊢
  have hnil1 : d.arena.zoneCBS (AddrZone st.arena.zoneShift allocLimit) = [] := by
    rw [hc]; exact hnil
  have hunits : d.arena.cbsBlockPoolStruct.units ≠ 0 := by
    intro hu
    refine hn (.zone (AddrZone st.arena.zoneShift allocLimit)) ⟨allocLimit, limit⟩ ?_
    have : (arenaCBSInsert (.zone (AddrZone st.arena.zoneShift allocLimit))
        ⟨allocLimit, limit⟩ d).2.2.calls
        = Call.cbsInsert (.zone (AddrZone st.arena.zoneShift allocLimit)) ⟨allocLimit, limit⟩
            (CBSInsert d.arena.cbsBlockPoolStruct.units
              (d.arena.zoneCBS (AddrZone st.arena.zoneShift allocLimit))
              ⟨allocLimit, limit⟩).1 :: d.calls := rfl
    rw [this, hnil1, hu]
    exact List.mem_cons_self _ _
  have hins : (CBSInsert d.arena.cbsBlockPoolStruct.units
      (d.arena.zoneCBS (AddrZone st.arena.zoneShift allocLimit)) ⟨allocLimit, limit⟩).2.2.1
      = [⟨allocLimit, limit⟩] := by
    rw [hnil1]
    unfold CBSInsert
    simp only [List.filter_nil]
    rw [if_neg hunits]
    rfl
  refine ⟨(setCBS_fields d.arena _ _ _).2.1.trans hz, fun k => ?_⟩
  have hk : (arenaCBSInsert (.zone (AddrZone st.arena.zoneShift allocLimit))
      ⟨allocLimit, limit⟩ d).2.2.arena.zoneCBS k
      = if k = AddrZone st.arena.zoneShift allocLimit then
          (CBSInsert d.arena.cbsBlockPoolStruct.units
            (d.arena.zoneCBS (AddrZone st.arena.zoneShift allocLimit))
            ⟨allocLimit, limit⟩).2.2.1
        else d.arena.zoneCBS k := rfl
  rw [hk, hins, hc]

/-- A page found in the free block set, when no zone block set of the mask had
one, is at hand again once it is put back into the zone block set of its base:
the tail of the stripe, if any, has gone to that same set. -/
theorem arenaAllocFindInFreeCBS_returnable {st st1 : State} {zones : Nat} {range : RangeStruct}
    (hwf : st.arena.IndexAligned) (hsep : ∀ z, CBS.Separated (st.arena.zoneCBS z))
    (hnone : arenaAllocFindInZoneCBS st zones st.arena.alignment = none)
    (h : arenaAllocFindInFreeCBS st zones st.arena.alignment = some (range, st1))
    (hn : NoLimit st1.calls) :
    st1.arena.Returnable zones st.arena.alignment range := by
  obtain ⟨-, -, -, -, -, -, hblock, hlen⟩ :=
    (arenaAllocFindInFreeCBS_picked h).2 hn hwf (dvd_refl _)
  have hsub := arenaAllocFindInFreeCBS_some h
  have hpos : 0 < st.arena.alignment := hwf.1
  have hm : ZoneSetIsMember zones (AddrZone st.arena.zoneShift range.base) = true :=
    zoneSetSub_testBit hsub (addrZone_lt _ _)
      (zoneSetOfRange_testBit (le_refl _) (by omega))
  have hempty : ∀ k, k < MPS_WORD_WIDTH → ZoneSetIsMember zones k = true →
      st.arena.zoneCBS k = [] := fun k hk hmk =>
    zoneCBS_nil hwf (hsep k)
      (findInZoneCBSFrom_none MPS_WORD_WIDTH 0 hnone k (Nat.zero_le _) (by omega) hmk)
  have hz := hempty _ (addrZone_lt st.arena.zoneShift range.base) hm
  unfold arenaAllocFindInFreeCBS at h
  split at h
  · simp at h
  · rename_i r old rest units1 hfind
    simp only [Option.some.injEq, Prod.mk.injEq] at h
    obtain ⟨e1, e2⟩ := h
    subst e1
    obtain ⟨t1, -, -⟩ := @stripe_tail st.arena.zoneShift r.limit old.limit hwf.2.1
    have e3 : arenaMoveTail r.limit
        (if old.limit < AddrAlignUp r.limit (2 ^ st.arena.zoneShift % WordRange) then old.limit
          else AddrAlignUp r.limit (2 ^ st.arena.zoneShift % WordRange))
        (st.set (st.arena.setCBS .free rest units1)) = st1 := e2
    generalize (if old.limit < AddrAlignUp r.limit (2 ^ st.arena.zoneShift % WordRange)
      then old.limit else AddrAlignUp r.limit (2 ^ st.arena.zoneShift % WordRange)) = limit
      at t1 e3
    have hshift0 : (st.set (st.arena.setCBS .free rest units1)).arena.zoneShift
        = st.arena.zoneShift := rfl
    have hcbs0 : (st.set (st.arena.setCBS .free rest units1)).arena.zoneCBS
        = st.arena.zoneCBS := rfl
    generalize st.set (st.arena.setCBS .free rest units1) = s at e3 hshift0 hcbs0
    by_cases htail : r.limit < limit
    · have hzone : AddrZone st.arena.zoneShift r.limit = AddrZone st.arena.zoneShift r.base := by
        rw [hlen]
        exact addrZone_next_page hpos hwf.2.2.1 hblock.1 (by rw [← hlen]; exact t1 htail)
      have hnil : s.arena.zoneCBS (AddrZone s.arena.zoneShift r.limit) = [] := by
        rw [hshift0, hcbs0, hzone]; exact hz
      have hn1 : NoLimit (arenaMoveTail r.limit limit s).calls := by rw [e3]; exact hn
      obtain ⟨m1, m2⟩ := arenaMoveTail_zoneCBS htail hnil hn1
      rw [e3, hshift0] at m1
      rw [e3, hshift0, hzone] at m2
      unfold Arena.Returnable
      rw [m1]
      refine ⟨hm, fun i hi hmi => ?_, fun units _ => ?_⟩
      · rw [m2 i, if_neg (by omega), hcbs0]
        have := addrZone_lt st.arena.zoneShift r.base
        rw [hempty i (by omega) hmi]
        rfl
      · rw [m2 _, if_pos rfl]
        exact CBSInsert_joins hlen rfl (Nat.le_of_lt htail) (fun t ht => by cases ht)
    · have hsame : arenaMoveTail r.limit limit s = s := by
        unfold arenaMoveTail
        rw [if_neg htail]
      rw [hsame] at e3
      subst e3
      unfold Arena.Returnable
      rw [hshift0, hcbs0]
      refine ⟨hm, fun i hi hmi => ?_, fun units hu => ?_⟩
      · have := addrZone_lt st.arena.zoneShift r.base
        rw [hempty i (by omega) hmi]
        rfl
      · rw [hz] at hu ⊢
        exact CBSInsert_below hlen (fun t ht => by cases ht) hu

theorem returnable_congr {a a1 : Arena} {zones size : Nat} {range : RangeStruct}
    (hz : a1.zoneShift = a.zoneShift) (hc : a1.zoneCBS = a.zoneCBS)
    (h : a.Returnable zones size range) : a1.Returnable zones size range := by
  unfold Arena.Returnable at h ⊢
  rw [hz, hc]
  exact h

/-- A page that the search of the indices gives, in an arena without spare
pages, is at hand again once it is put back into the zone block set of its
base. -/
theorem arenaAllocFind_returnable {zones chunk baseIndex pages : Nat} {range : RangeStruct}
    {st st1 : State} (hwf : st.arena.IndexAligned) (hconf : st.arena.ZoneConfined)
    (hsep : ∀ z, CBS.Separated (st.arena.zoneCBS z))
    (h : arenaAllocFind zones st.arena.alignment st = some (chunk, baseIndex, pages, range, st1))
    (hn : NoLimit st1.calls) :
    st1.arena.Returnable zones st.arena.alignment range := by
  unfold arenaAllocFind at h
  split at h
  · rename_i c bi n hspare
    exfalso
    unfold arenaAllocFindSpare at hspare
    split_ifs at hspare
    rw [findSpareFrom_none hwf.2.2.2.2.2] at hspare
    simp at hspare
  · split at h
    · rename_i r s1 hfind
      simp only [Option.some.injEq, Prod.mk.injEq] at h
      obtain ⟨-, -, -, e4, e5⟩ := h
      subst e4
      subst e5
      exact arenaAllocFindInZoneCBS_returnable hwf hconf hsep hfind
    · rename_i hnone
      split at h
      · rename_i r s1 hfind
        simp only [Option.some.injEq, Prod.mk.injEq] at h
        obtain ⟨-, -, -, e4, e5⟩ := h
        subst e4
        subst e5
        exact arenaAllocFindInFreeCBS_returnable hwf hsep hnone hfind hn
      · simp at h

/-- A page that `arenaAllocFromCBS` gives, in an arena without spare pages, is
at hand again once it is put back into the zone block set of its base. -/
theorem arenaAllocFromCBS_returnable {cls : ArenaClass} {zones pool : Nat} {st st1 : State}
    {found : Found} (hcls : ClassKeepsIndices cls) (hwf : st.arena.IndexAligned)
    (hconf : st.arena.ZoneConfined) (hsep : ∀ z, CBS.Separated (st.arena.zoneCBS z))
    (h : arenaAllocFromCBS cls zones st.arena.alignment pool st = (ResOK, some found, st1))
    (hn : NoLimit st1.calls) :
    st1.arena.Returnable zones st.arena.alignment found.range
    ∧ st1.arena.alignment = st.arena.alignment
    ∧ BlockAligned st1.arena.alignment (st1.arena.chunkRing.map Chunk.geom) found.range := by
  unfold arenaAllocFromCBS at h
  split at h
  · simp at h
  · rename_i chunk baseIndex pages range st2 hfind
    simp only at h
    split_ifs at h with hm
    · simp only [Prod.mk.injEq] at h
      exact absurd h.1 hm
    · simp only [Prod.mk.injEq, Option.some.injEq, true_and] at h
      obtain ⟨e1, e2⟩ := h
      obtain ⟨-, k2, -, -, -, k6, k7, k8⟩ := hcls.2.1 st2.arena chunk baseIndex pages pool
      have hn2 : NoLimit st2.calls := by
        refine noLimit_of_suffix ?_ hn
        rw [← e2]
        exact List.suffix_cons _ _
      have hret : st2.arena.Returnable zones
          (st.log (Call.search zones st.arena.alignment)).arena.alignment range :=
        arenaAllocFind_returnable hwf hconf hsep hfind hn2
      have hpick : Picked st.arena.alignment range
          (st.log (Call.search zones st.arena.alignment)) st2 :=
        ((arenaAllocFind_picked hfind).2 hwf).1
      obtain ⟨-, -, -, p4, p5, -, p7, -⟩ := hpick.2 hn2 hwf (dvd_refl _)
      rw [← e1, ← e2]
      refine ⟨returnable_congr k6 k2 hret, k7.trans p4, ?_⟩
      show BlockAligned (cls.pagesMarkAllocated st2.arena chunk baseIndex pages pool).2.alignment
        ((cls.pagesMarkAllocated st2.arena chunk baseIndex pages pool).2.chunkRing.map Chunk.geom)
        range
      rw [k7, k8, p4, p5]
      exact p7

theorem ArenaAlloc_body {cls : ArenaClass} {rsv : ReservoirOps} (hrsv : ReservoirIdle rsv)
    (pref : SegPrefStruct) (size pool : Nat) (permit : Bool) (st : State) :
    ArenaAlloc cls rsv pref size pool permit st
      = arenaAllocBody cls rsv pref size pool permit st := by
  have hrsv1 : ∀ a, rsv.ensureFull a = (ResOK, a) := hrsv
  unfold ArenaAlloc
  simp only [hrsv1, ne_eq, not_true_eq_false, false_and, if_false, State.set]
  split_ifs <;> rfl

/-- The record of `ArenaAlloc` without permit continues the record it began
with. -/
theorem ArenaAlloc_suffix {cls : ArenaClass} {rsv : ReservoirOps} (hcls : ClassKeepsIndices cls)
    (hrsv : ReservoirIdle rsv) (pref : SegPrefStruct) {size : Nat} (hsize : 0 < size)
    (pool : Nat) (st : State) :
    st.calls <:+ (ArenaAlloc cls rsv pref size pool false st).2.2.calls := by
  rw [ArenaAlloc_body hrsv]
  obtain ⟨o1, o2⟩ := arenaAllocPolicy_outcome cls pref size pool st hcls hsize
  unfold arenaAllocBody
  simp only
  by_cases hok : (arenaAllocPolicy cls pref size pool st).1 = ResOK
  · rw [if_neg (not_not.mpr hok)]
    obtain ⟨found, -, htook⟩ := o1 hok
    exact htook.1
  · rw [if_pos hok]
    exact (o2 hok).1

/-- What `ArenaAlloc` without permit comes to when Plan A is tried and gives
`ResOK`. -/
theorem ArenaAlloc_planA {cls : ArenaClass} {rsv : ReservoirOps} (hrsv : ReservoirIdle rsv)
    {pref : SegPrefStruct} {size pool : Nat} {st : State} (hz : pref.zones ≠ ZoneSetEMPTY)
    (hok : (arenaAllocFromCBS cls pref.zones size pool st).1 = ResOK) :
    ArenaAlloc cls rsv pref size pool false st
      = if commitGate st.arena size then (ResCOMMIT_LIMIT, none, st)
        else arenaAllocDone ((arenaAllocFromCBS cls pref.zones size pool st).2.1.getD default).tract
          (arenaAllocFromCBS cls pref.zones size pool st).2.2 := by
  rw [ArenaAlloc_body hrsv]
  unfold arenaAllocBody arenaAllocPolicy
  by_cases hg : commitGate st.arena size = true
  · simp only [hg, if_true]
    rw [if_pos (by decide)]
    rfl
  · have hplan : policyPlanA cls pref size pool st = arenaAllocFromCBS cls pref.zones size pool st := by
      unfold policyPlanA
      simp only
      rw [if_pos hz]
      unfold orTry
      rw [if_pos hok]
    have hg1 : commitGate st.arena size = false := by
      cases h : commitGate st.arena size with
      | false => rfl
      | true => exact absurd h hg
    simp only [hg1, Bool.false_eq_true, if_false, hplan]
    rw [if_neg (not_not.mpr hok)]

theorem arenaUncache_sameIndices (base size : Nat) (st : State) :
    st.arena.SameIndices (arenaUncache base size st).arena := by
  unfold arenaUncache
  split_ifs
  · exact ⟨rfl, rfl, rfl, rfl, rfl, rfl, rfl, rfl⟩
  · exact ⟨rfl, rfl, rfl, rfl, rfl, rfl, rfl, rfl⟩

/-- The zone block set of the base after an `ArenaFree` whose insertion went
well is what `CBSInsert` made of it. -/
theorem ArenaFree_zone_list (cls : ArenaClass) (rsv : ReservoirOps) (base size pool : Nat)
    (st : State) (hcls : ClassKeepsIndices cls) (hrsv : ReservoirIdle rsv)
    (hok : (CBSInsert st.arena.cbsBlockPoolStruct.units
        (st.arena.zoneCBS (AddrZone st.arena.zoneShift base))
        ⟨base, AddrAdd base size⟩).1 = ResOK) :
    (ArenaFree cls rsv base size pool st).arena.zoneCBS (AddrZone st.arena.zoneShift base)
      = (CBSInsert st.arena.cbsBlockPoolStruct.units
          (st.arena.zoneCBS (AddrZone st.arena.zoneShift base)) ⟨base, AddrAdd base size⟩).2.2.1
    ∧ (ArenaFree cls rsv base size pool st).arena.alignment = st.arena.alignment
    ∧ (ArenaFree cls rsv base size pool st).arena.zoneShift = st.arena.zoneShift
    ∧ (st.arena.IndexAligned →
        BlockAligned st.arena.alignment (st.arena.chunkRing.map Chunk.geom)
          ⟨base, AddrAdd base size⟩ →
        (ArenaFree cls rsv base size pool st).arena.IndexAligned) := by
  obtain ⟨-, -, u3, u4, u5, u6, u7, -⟩ := arenaUncache_fields base size st
  have hsame := arenaUncache_sameIndices base size st
  rw [ArenaFree_idle cls hrsv]
  generalize arenaUncache base size st = s at u3 u4 u5 u6 u7 hsame
  rw [← u3, ← u4, ← u6] at hok
  rw [← u3, ← u4, ← u5, ← u6, ← u7]
  have hins : (arenaCBSInsert (.zone (AddrZone s.arena.zoneShift base))
      ⟨base, AddrAdd base size⟩ s).1 = ResOK := hok
  have hres : arenaFreeInsert cls base size (AddrAdd base size) pool s
      = callFree cls base size pool
          (arenaCBSInsert (.zone (AddrZone s.arena.zoneShift base))
            ⟨base, AddrAdd base size⟩ s).2.2 := by
    unfold arenaFreeInsert
    simp only
    rw [if_neg (not_not.mpr hins)]
  have hfree := hcls.2.2
    (arenaCBSInsert (.zone (AddrZone s.arena.zoneShift base))
      ⟨base, AddrAdd base size⟩ s).2.2.arena base size pool
  obtain ⟨-, e2, -, -, -, e6, e7, -⟩ := hfree
  obtain ⟨i1, -, -, i4⟩ := arenaCBSInsert_effect (addrZone_valid s.arena.zoneShift base)
    ⟨base, AddrAdd base size⟩ s hins
  rw [hres]
  have hcbs : (callFree cls base size pool (arenaCBSInsert
      (.zone (AddrZone s.arena.zoneShift base)) ⟨base, AddrAdd base size⟩ s).2.2).arena.zoneCBS
      = (arenaCBSInsert (.zone (AddrZone s.arena.zoneShift base))
          ⟨base, AddrAdd base size⟩ s).2.2.arena.zoneCBS := e2
  have hal : (callFree cls base size pool (arenaCBSInsert
      (.zone (AddrZone s.arena.zoneShift base)) ⟨base, AddrAdd base size⟩ s).2.2).arena.alignment
      = (arenaCBSInsert (.zone (AddrZone s.arena.zoneShift base))
          ⟨base, AddrAdd base size⟩ s).2.2.arena.alignment := e7
  have hzs : (callFree cls base size pool (arenaCBSInsert
      (.zone (AddrZone s.arena.zoneShift base)) ⟨base, AddrAdd base size⟩ s).2.2).arena.zoneShift
      = (arenaCBSInsert (.zone (AddrZone s.arena.zoneShift base))
          ⟨base, AddrAdd base size⟩ s).2.2.arena.zoneShift := e6
  refine ⟨?_, ?_, ?_, fun hwf hblock => ?_⟩
  · rw [hcbs]
    show (if AddrZone s.arena.zoneShift base = AddrZone s.arena.zoneShift base then _
      else _) = _
    rw [if_pos rfl]
    rfl
  · rw [hal]
    exact (setCBS_fields s.arena _ _ _).1
  · rw [hzs]
    exact i1
  · exact sameIndices_aligned (hcls.2.2 _ base size pool)
      (i4 (sameIndices_aligned hsame hwf) hblock)

/-- With a class whose `pagesMarkAllocated` succeeds and no spare pages on the
free rings, `arenaAllocFromCBS` gives the low end of the first block large
enough in the first zone block set of the mask that has one. -/
theorem arenaAllocFromCBS_finds {cls : ArenaClass} {zones size pool z : Nat} {st : State}
    {blk : RangeStruct} (hmark : ClassAlwaysMarks cls) (hring : ∀ i, st.arena.freeRing i = [])
    (hz : z < MPS_WORD_WIDTH) (hm : ZoneSetIsMember zones z = true)
    (hnone : ∀ k, k < z → ZoneSetIsMember zones k = true →
      cbsFirstFit size (st.arena.zoneCBS k) = none)
    (hfit : cbsFirstFit size (st.arena.zoneCBS z) = some blk) :
    (arenaAllocFromCBS cls zones size pool st).1 = ResOK
    ∧ ∃ found, (arenaAllocFromCBS cls zones size pool st).2.1 = some found
        ∧ found.range = ⟨blk.base, blk.base + size⟩ := by
  have hspare : arenaAllocFindSpare (st.log (Call.search zones size)).arena zones size = none := by
    unfold arenaAllocFindSpare
    split_ifs
    · have hr : ∀ i, (st.log (Call.search zones size)).arena.freeRing i = [] := hring
      rw [findSpareFrom_none hr]
    · rfl
  have hfind : ∃ s1, findInZoneCBSFrom (st.log (Call.search zones size)) zones size
      MPS_WORD_WIDTH 0 = some (⟨blk.base, blk.base + size⟩, s1) :=
    @findInZoneCBSFrom_finds (st.log (Call.search zones size)) zones size z blk hm hfit
      MPS_WORD_WIDTH 0 (Nat.zero_le _) (by omega)
      (fun k _ hk hmk => hnone k hk hmk)
  obtain ⟨s1, hfind⟩ := hfind
  have hall : arenaAllocFind zones size (st.log (Call.search zones size))
      = some (CHUNK_OF_ADDR s1.arena blk.base,
          INDEX_OF_ADDR (s1.arena.chunk (CHUNK_OF_ADDR s1.arena blk.base)) blk.base,
          ChunkSizeToPages (s1.arena.chunk (CHUNK_OF_ADDR s1.arena blk.base))
            (RangeSize ⟨blk.base, blk.base + size⟩),
          ⟨blk.base, blk.base + size⟩, s1) := by
    unfold arenaAllocFind
    rw [hspare]
    simp only
    unfold arenaAllocFindInZoneCBS
    rw [hfind]
  unfold arenaAllocFromCBS
  rw [hall]
  simp only
  have hm1 : (callPagesMarkAllocated cls (CHUNK_OF_ADDR s1.arena blk.base)
      (INDEX_OF_ADDR (s1.arena.chunk (CHUNK_OF_ADDR s1.arena blk.base)) blk.base)
      (ChunkSizeToPages (s1.arena.chunk (CHUNK_OF_ADDR s1.arena blk.base))
        (RangeSize ⟨blk.base, blk.base + size⟩)) pool s1).1 = ResOK := hmark _ _ _ _ _
  rw [if_neg (not_not.mpr hm1)]
  exact ⟨rfl, _, rfl, rfl⟩

/-- C21, amended.  Let the free rings be empty and the block sets hold pages of
the chunks, the blocks of each zone block set lie in its zone, apart and in
address order, the class methods leave the indices alone, `pagesMarkAllocated`
always succeed, and the reservoir be full.  If `ArenaAlloc(pref, pageSize, p)`
without permit returns `b` out of Plan A (`pref.zones` is not empty and its
search gives `ResOK`), `ArenaFree(b, pageSize, p)` follows, the commit limit
does not stop the second `ArenaAlloc(pref, pageSize, p)`, and no `CBSInsert` on
record has reported `ResLIMIT`, then the second allocation gives `ResOK` and
the same base `b`. -/
theorem alloc_free_alloc_same_base (cls : ArenaClass) (rsv : ReservoirOps)
    (pref : SegPrefStruct) (size pool b : Nat) (st st1 : State)
    (hcls : ClassKeepsIndices cls) (hmark : ClassAlwaysMarks cls) (hrsv : ReservoirIdle rsv)
    (hwf : st.arena.IndexAligned) (hconf : st.arena.ZoneConfined)
    (hsep : ∀ z, CBS.Separated (st.arena.zoneCBS z))
    (hsize : size = st.arena.alignment)
    (hzones : pref.zones ≠ ZoneSetEMPTY)
    (hplan : (arenaAllocFromCBS cls pref.zones size pool st).1 = ResOK)
    (halloc : ArenaAlloc cls rsv pref size pool false st = (ResOK, some b, st1))
    (hgate : commitGate (ArenaFree cls rsv b size pool st1).arena size = false)
    (hlimit : NoLimit (ArenaAlloc cls rsv pref size pool false
      (ArenaFree cls rsv b size pool st1)).2.2.calls) :
    (ArenaAlloc cls rsv pref size pool false (ArenaFree cls rsv b size pool st1)).1 = ResOK
    ∧ (ArenaAlloc cls rsv pref size pool false (ArenaFree cls rsv b size pool st1)).2.1
        = some b := by
  subst hsize
  have hpos : 0 < st.arena.alignment := hwf.1
  -- the first allocation
  obtain ⟨found, hfound, htook⟩ :=
    (arenaAllocFromCBS_outcome cls pref.zones st.arena.alignment pool st hcls hpos).1 hplan
  have hr1 : arenaAllocFromCBS cls pref.zones st.arena.alignment pool st
      = (ResOK, some found, (arenaAllocFromCBS cls pref.zones st.arena.alignment pool st).2.2) :=
    Prod.ext hplan (Prod.ext hfound rfl)
  rw [ArenaAlloc_planA hrsv hzones hplan, hfound] at halloc
  generalize (arenaAllocFromCBS cls pref.zones st.arena.alignment pool st).2.2 = st2
    at hr1 htook halloc
  have hdone : arenaAllocDone found.tract st2 = (ResOK, some b, st1) := by
    by_cases hg : commitGate st.arena st.arena.alignment = true
    · rw [if_pos hg] at halloc
      cases halloc
    · rw [if_neg hg] at halloc
      exact halloc
  unfold arenaAllocDone at hdone
  simp only [Prod.mk.injEq, Option.some.injEq, true_and] at hdone
  obtain ⟨hb, hst1⟩ := hdone
  have hsame1 : st2.arena.SameIndices st1.arena := by
    rw [← hst1]
    exact ⟨rfl, rfl, rfl, rfl, rfl, rfl, rfl, rfl⟩
  have hcalls1 : st1.calls = st2.calls := by rw [← hst1]; rfl
  have hring1 : st1.arena.chunkRing = st2.arena.chunkRing := by rw [← hst1]; rfl
  obtain ⟨-, c2, -, -, -, c6, c7, -⟩ := id hsame1
  -- the record
  have hn4 : NoLimit (ArenaFree cls rsv b st.arena.alignment pool st1).calls :=
    noLimit_of_suffix (ArenaAlloc_suffix hcls hrsv pref hpos pool _) hlimit
  obtain ⟨u1, -, u3, u4, -, u6, -, -⟩ := arenaUncache_fields b st.arena.alignment st1
  have hsuf := arenaFreeInsert_calls cls b st.arena.alignment (AddrAdd b st.arena.alignment) pool
    (arenaUncache b st.arena.alignment st1)
  rw [← ArenaFree_idle cls hrsv] at hsuf
  have hins := arenaCBSInsert_ok (noLimit_of_suffix hsuf hn4)
  have hok : (CBSInsert st1.arena.cbsBlockPoolStruct.units
      (st1.arena.zoneCBS (AddrZone st1.arena.zoneShift b))
      ⟨b, AddrAdd b st.arena.alignment⟩).1 = ResOK := by
    rw [← u3, ← u4, ← u6]
    exact hins
  have hn2 : NoLimit st2.calls := by
    rw [← hcalls1, ← u1]
    refine noLimit_of_suffix (List.IsSuffix.trans ?_ hsuf) hn4
    rw [arenaCBSInsert_calls]
    exact List.suffix_cons _ _
  -- what the first allocation took
  obtain ⟨t1, t2, -, -, t5, t6, t7⟩ := htook.2 hn2 hwf (dvd_refl _)
  obtain ⟨hret, hal2, hblock⟩ := arenaAllocFromCBS_returnable hcls hwf hconf hsep hr1 hn2
  have hbase : found.range.base = b := by rw [← hb, t5]
  have hlim : AddrAdd b st.arena.alignment = found.range.limit := by
    unfold AddrAdd
    rw [t6, hbase]
    exact Nat.mod_eq_of_lt (by rw [← hbase, ← t6]; exact t7)
  have hrange : (⟨b, AddrAdd b st.arena.alignment⟩ : RangeStruct) = found.range := by
    rw [hlim, ← hbase]
  have hwf1 : st1.arena.IndexAligned := sameIndices_aligned hsame1 t1
  -- the state after the free
  obtain ⟨z1, z2, z3, z4⟩ :=
    ArenaFree_zone_list cls rsv b st.arena.alignment pool st1 hcls hrsv hok
  obtain ⟨-, -, q3, -⟩ :=
    ArenaFree_zone_insert cls rsv b st.arena.alignment pool st1 hcls hrsv hok
  have hwf4 : (ArenaFree cls rsv b st.arena.alignment pool st1).arena.IndexAligned := by
    apply z4 hwf1
    rw [hrange, c7, hring1]
    exact hblock
  unfold Arena.Returnable at hret
  rw [hbase, ← c6, ← c2] at hret
  obtain ⟨r1, r2, r3⟩ := hret
  have hok1 : (CBSInsert st1.arena.cbsBlockPoolStruct.units
      (st1.arena.zoneCBS (AddrZone st1.arena.zoneShift b)) found.range).1 = ResOK := by
    rw [← hrange]; exact hok
  obtain ⟨blk, hfit, hblk⟩ := r3 st1.arena.cbsBlockPoolStruct.units
    (by rw [hok1]; exact fun h => by cases h)
  rw [← hrange, ← z1] at hfit
  -- the second allocation
  obtain ⟨hok2, found2, hf2, hr2⟩ := @arenaAllocFromCBS_finds cls pref.zones
    st.arena.alignment pool _ _ _ hmark
    hwf4.2.2.2.2.2 (addrZone_lt st1.arena.zoneShift b) r1
    (fun k hk hmk => by
      rw [q3 k (by omega)]
      exact r2 k hk hmk) hfit
  obtain ⟨found3, hf3, htook2⟩ :=
    (arenaAllocFromCBS_outcome cls pref.zones st.arena.alignment pool
      (ArenaFree cls rsv b st.arena.alignment pool st1) hcls hpos).1 hok2
  have hsame : found3 = found2 := by
    rw [hf2] at hf3
    exact (Option.some.inj hf3).symm
  rw [ArenaAlloc_planA hrsv hzones hok2, hgate] at hlimit ⊢
  simp only [Bool.false_eq_true, if_false] at hlimit ⊢
  have hn5 : NoLimit (arenaAllocFromCBS cls pref.zones st.arena.alignment pool
      (ArenaFree cls rsv b st.arena.alignment pool st1)).2.2.calls := hlimit
  obtain ⟨-, -, -, -, w5, -, -⟩ := htook2.2 hn5 hwf4 (by rw [z2, c7, hal2])
  rw [hf2]
  unfold arenaAllocDone
  refine ⟨rfl, ?_⟩
  show some (TractBase _ found2.tract) = some b
  rw [hsame] at w5
  rw [w5, hr2]
  exact congrArg some hblk

/-- C21 fails as stated, for an allocation that Plan B satisfies.  In the
fresh arena the preference names zone 0 alone and avoids nothing.  Plan A
searches zone 0 and finds nothing; Plan B searches every zone and gives the
page at `0x12000`, of zone 9, which leaves the free zones.  The page is freed
into the block set of zone 9.  The second allocation again finds nothing with
Plan A, and its Plan B searches the zones of the preference and the free
zones, which no longer have zone 9: it gives the page at `0x14000`. -/
theorem scenario4_planB_counterexample :
    (ArenaAlloc plainClass noReservoir ⟨1, 0, false⟩ 4096 7 false freshArena).1 = ResOK
    ∧ (ArenaAlloc plainClass noReservoir ⟨1, 0, false⟩ 4096 7 false freshArena).2.1
        = some 0x12000
    ∧ ladderSteps
        (ArenaAlloc plainClass noReservoir ⟨1, 0, false⟩ 4096 7 false freshArena).2.2.calls
        = [some 1, some ZoneSetUNIV]
    ∧ AddrZone freshArena.arena.zoneShift 0x12000 = 9
    ∧ (ArenaAlloc plainClass noReservoir ⟨1, 0, false⟩ 4096 7 false
        freshArena).2.2.arena.freeZones = ZoneSetUNIV - 2 ^ 9
    ∧ (ArenaFree plainClass noReservoir 0x12000 4096 7
        (ArenaAlloc plainClass noReservoir ⟨1, 0, false⟩ 4096 7 false
          freshArena).2.2).arena.zoneCBS 9 = [⟨0x12000, 0x14000⟩]
    ∧ (ArenaAlloc plainClass noReservoir ⟨1, 0, false⟩ 4096 7 false
        (ArenaFree plainClass noReservoir 0x12000 4096 7
          (ArenaAlloc plainClass noReservoir ⟨1, 0, false⟩ 4096 7 false
            freshArena).2.2)).1 = ResOK
    ∧ (ArenaAlloc plainClass noReservoir ⟨1, 0, false⟩ 4096 7 false
        (ArenaFree plainClass noReservoir 0x12000 4096 7
          (ArenaAlloc plainClass noReservoir ⟨1, 0, false⟩ 4096 7 false
            freshArena).2.2)).2.1 = some 0x14000
    ∧ (ArenaAlloc plainClass noReservoir ⟨1, 0, false⟩ 4096 7 false
        (ArenaFree plainClass noReservoir 0x12000 4096 7
          (ArenaAlloc plainClass noReservoir ⟨1, 0, false⟩ 4096 7 false
            freshArena).2.2)).2.2.calls
        = [Call.pagesMarkAllocated 0 4 1 7,
           Call.cbsInsert (.zone 10) ⟨0x15000, 0x16000⟩ ResOK,
           Call.cbsDelete .free ⟨0x15000, 0x16000⟩ ResOK,
           Call.search (ZoneSetUNIV - 2 ^ 9) 4096,
           Call.search 1 4096,
           Call.free 0x12000 4096 7,
           Call.cbsInsert (.zone 9) ⟨0x12000, 0x13000⟩ ResOK,
           Call.pagesMarkAllocated 0 2 1 7,
           Call.cbsInsert (.zone 9) ⟨0x13000, 0x14000⟩ ResOK,
           Call.cbsDelete .free ⟨0x13000, 0x14000⟩ ResOK,
           Call.search ZoneSetUNIV 4096,
           Call.search 1 4096] := by
  refine ⟨by decide, by decide, by decide, by decide, by decide, by decide, by decide,
    by decide, by decide⟩

theorem plainClass_alwaysMarks : ClassAlwaysMarks plainClass := fun _ _ _ _ _ => rfl

theorem freshArena_separated (z : Nat) : CBS.Separated (freshArena.arena.zoneCBS z) :=
  ⟨fun b hb => absurd hb (List.not_mem_nil b), List.Pairwise.nil⟩

theorem freshPlanA_noLimit :
    NoLimit (ArenaAlloc plainClass noReservoir ⟨2 ^ 9, 0, false⟩ 4096 7 false
      (ArenaFree plainClass noReservoir 0x12000 4096 7
        (ArenaAlloc plainClass noReservoir ⟨2 ^ 9, 0, false⟩ 4096 7 false
          freshArena).2.2)).2.2.calls := by
  have h : (ArenaAlloc plainClass noReservoir ⟨2 ^ 9, 0, false⟩ 4096 7 false
      (ArenaFree plainClass noReservoir 0x12000 4096 7
        (ArenaAlloc plainClass noReservoir ⟨2 ^ 9, 0, false⟩ 4096 7 false
          freshArena).2.2)).2.2.calls
      = [Call.pagesMarkAllocated 0 2 1 7,
         Call.search (2 ^ 9) 4096,
         Call.free 0x12000 4096 7,
         Call.cbsInsert (.zone 9) ⟨0x12000, 0x13000⟩ ResOK,
         Call.pagesMarkAllocated 0 2 1 7,
         Call.cbsInsert (.zone 9) ⟨0x13000, 0x14000⟩ ResOK,
         Call.cbsDelete .free ⟨0x13000, 0x14000⟩ ResOK,
         Call.search (2 ^ 9) 4096] := by decide
  intro w r hm
  rw [h] at hm
  simp at hm

/-- C21 amended, at the fresh arena with a preference for zone 9: the page at
`0x12000` is allocated by Plan A, freed, and allocated again. -/
theorem alloc_free_alloc_same_base_witness :
    (ClassKeepsIndices plainClass ∧ ClassAlwaysMarks plainClass ∧ ReservoirIdle noReservoir
      ∧ freshArena.arena.IndexAligned ∧ freshArena.arena.ZoneConfined
      ∧ (∀ z, CBS.Separated (freshArena.arena.zoneCBS z))
      ∧ 4096 = freshArena.arena.alignment
      ∧ (arenaAllocFromCBS plainClass (2 ^ 9) 4096 7 freshArena).1 = ResOK
      ∧ (ArenaAlloc plainClass noReservoir ⟨2 ^ 9, 0, false⟩ 4096 7 false freshArena).2.1
          = some 0x12000)
    ∧ (ArenaAlloc plainClass noReservoir ⟨2 ^ 9, 0, false⟩ 4096 7 false
        (ArenaFree plainClass noReservoir 0x12000 4096 7
          (ArenaAlloc plainClass noReservoir ⟨2 ^ 9, 0, false⟩ 4096 7 false
            freshArena).2.2)).1 = ResOK
    ∧ (ArenaAlloc plainClass noReservoir ⟨2 ^ 9, 0, false⟩ 4096 7 false
        (ArenaFree plainClass noReservoir 0x12000 4096 7
          (ArenaAlloc plainClass noReservoir ⟨2 ^ 9, 0, false⟩ 4096 7 false
            freshArena).2.2)).2.1 = some 0x12000 :=
  ⟨⟨plainClass_keepsIndices, plainClass_alwaysMarks, noReservoir_idle, freshArena_indexAligned,
    freshArena_zoneConfined, freshArena_separated, by decide, by decide, by decide⟩,
   alloc_free_alloc_same_base plainClass noReservoir ⟨2 ^ 9, 0, false⟩ 4096 7 0x12000
     freshArena
     (ArenaAlloc plainClass noReservoir ⟨2 ^ 9, 0, false⟩ 4096 7 false freshArena).2.2
     plainClass_keepsIndices plainClass_alwaysMarks noReservoir_idle freshArena_indexAligned
     freshArena_zoneConfined freshArena_separated (by decide) (by decide) (by decide)
     (Prod.ext (by decide) (Prod.ext (by decide) rfl)) (by decide) freshPlanA_noLimit⟩

/-! ## C22: `ArenaCreate` -/

theorem sameIndices_refl (a : Arena) : a.SameIndices a :=
  ⟨rfl, rfl, rfl, rfl, rfl, rfl, rfl, rfl⟩

theorem sameIndices_trans {a a1 a2 : Arena} (h1 : a.SameIndices a1) (h2 : a1.SameIndices a2) :
    a.SameIndices a2 := by
  obtain ⟨e1, e2, e3, e4, e5, e6, e7, e8⟩ := h1
  obtain ⟨f1, f2, f3, f4, f5, f6, f7, f8⟩ := h2
  exact ⟨f1.trans e1, f2.trans e2, f3.trans e3, f4.trans e4, f5.trans e5, f6.trans e6,
    f7.trans e7, f8.trans e8⟩

theorem arenaAllocPageInChunk_frame {cls : ArenaClass} (hcls : ClassKeepsIndices cls)
    (chunk pool : Nat) (st : State) :
    st.arena.SameIndices (arenaAllocPageInChunk cls chunk pool st).2.2.arena
    ∧ st.calls <:+ (arenaAllocPageInChunk cls chunk pool st).2.2.calls := by
  have hmark : ∀ index, st.arena.SameIndices
      (callPagesMarkAllocated cls chunk index 1 pool st).2.arena
      ∧ st.calls <:+ (callPagesMarkAllocated cls chunk index 1 pool st).2.calls :=
    fun index => ⟨hcls.2.1 _ _ _ _ _, List.suffix_cons _ _⟩
  unfold arenaAllocPageInChunk
  simp only
  split
  · exact ⟨sameIndices_refl _, List.suffix_refl _⟩
  · split
    · exact hmark _
    · exact hmark _

theorem arenaAllocPageRing_frame {cls : ArenaClass} (hcls : ClassKeepsIndices cls)
    (pool primary : Nat) (st : State) :
    ∀ (ring : List Nat) (acc : Res × Nat × State),
      (st.arena.SameIndices acc.2.2.arena ∧ st.calls <:+ acc.2.2.calls) →
      st.arena.SameIndices (arenaAllocPageRing cls pool primary ring acc).2.2.arena
      ∧ st.calls <:+ (arenaAllocPageRing cls pool primary ring acc).2.2.calls := by
  intro ring
  induction ring with
  | nil => intro acc h; exact h
  | cons i is ih =>
    intro acc h
    have hstep := arenaAllocPageInChunk_frame hcls i pool acc.2.2
    have hnext : st.arena.SameIndices (arenaAllocPageInChunk cls i pool acc.2.2).2.2.arena
        ∧ st.calls <:+ (arenaAllocPageInChunk cls i pool acc.2.2).2.2.calls :=
      ⟨sameIndices_trans h.1 hstep.1, h.2.trans hstep.2⟩
    unfold arenaAllocPageRing
    split
    · simp only
      split
      · exact hnext
      · exact ih _ hnext
    · exact ih _ h

/-- `arenaAllocPage`, with a class that leaves the indices alone, leaves them
alone and only adds to the record of calls. -/
theorem arenaAllocPage_frame {cls : ArenaClass} (hcls : ClassKeepsIndices cls) (pool : Nat)
    (st : State) :
    st.arena.SameIndices (arenaAllocPage cls pool st).2.2.arena
    ∧ st.calls <:+ (arenaAllocPage cls pool st).2.2.calls := by
  unfold arenaAllocPage
  simp only
  split
  · exact arenaAllocPageRing_frame hcls pool _ st _ _ (arenaAllocPageInChunk_frame hcls _ pool st)
  · exact arenaAllocPageInChunk_frame hcls _ pool st

/-- What a successful `ArenaFreeCBSInsert` leaves, with a class that leaves the
indices alone and an empty record: the alignment and the zone shift are as they
were, the first call on record is the `CBSInsert` of the range into the free
block set, and, when a block fits in a page, an insertion of the range that
gave `ResOK` is on record. -/
theorem ArenaFreeCBSInsert_record {cls : ArenaClass} (hcls : ClassKeepsIndices cls)
    (base limit : Nat) (arena : Arena) :
    (ArenaFreeCBSInsert cls base limit ⟨arena, []⟩).2.arena.alignment = arena.alignment
    ∧ (ArenaFreeCBSInsert cls base limit ⟨arena, []⟩).2.arena.zoneShift = arena.zoneShift
    ∧ (∃ res, (ArenaFreeCBSInsert cls base limit ⟨arena, []⟩).2.calls.getLast?
        = some (Call.cbsInsert .free ⟨base, limit⟩ res))
    ∧ ((ArenaFreeCBSInsert cls base limit ⟨arena, []⟩).1 = ResOK →
        0 < arena.cbsBlockPoolStruct.unitSize →
        arena.cbsBlockPoolStruct.unitSize ≤ arena.alignment →
        Call.cbsInsert .free ⟨base, limit⟩ ResOK
          ∈ (ArenaFreeCBSInsert cls base limit ⟨arena, []⟩).2.calls) := by
  have hlast : ∀ (c : Call) (l : List Call), [c] <:+ l → l.getLast? = some c := by
    intro c l h
    obtain ⟨t, rfl⟩ := h
    simp
  have hdel : (∀ w r (s : State), (arenaCBSDelete w r s).2.2.arena.alignment = s.arena.alignment)
      ∧ ∀ w r (s : State), (arenaCBSDelete w r s).2.2.arena.zoneShift = s.arena.zoneShift :=
    ⟨fun _ _ _ => (setCBS_fields _ _ _ _).1, fun _ _ _ => (setCBS_fields _ _ _ _).2.1⟩
  have hinsf : (∀ w r (s : State), (arenaCBSInsert w r s).2.2.arena.alignment = s.arena.alignment)
      ∧ ∀ w r (s : State), (arenaCBSInsert w r s).2.2.arena.zoneShift = s.arena.zoneShift :=
    ⟨fun _ _ _ => (setCBS_fields _ _ _ _).1, fun _ _ _ => (setCBS_fields _ _ _ _).2.1⟩
  have hrest : ArenaFreeCBSInsert cls base limit ⟨arena, []⟩
      = arenaFreeCBSInsertRest cls arena.cbsBlockPoolStruct.pool
          (arenaCBSInsert .free ⟨base, limit⟩ ⟨arena, []⟩) := rfl
  rw [hrest]
  by_cases hlim : (CBSInsert arena.cbsBlockPoolStruct.units arena.freeCBS ⟨base, limit⟩).1
      = ResLIMIT
  · have hins := arenaCBSInsert_limit (w := .free) (r := ⟨base, limit⟩) (s := ⟨arena, []⟩) hlim
    rw [hins]
    obtain ⟨hsame, hsuf⟩ := arenaAllocPage_frame hcls arena.cbsBlockPoolStruct.pool
      ((⟨arena, []⟩ : State).log (Call.cbsInsert .free ⟨base, limit⟩ ResLIMIT))
    obtain ⟨-, -, e3, -, -, e6, e7, -⟩ := hsame
    have e3a : (arenaAllocPage cls arena.cbsBlockPoolStruct.pool
        ((⟨arena, []⟩ : State).log (Call.cbsInsert .free ⟨base, limit⟩
          ResLIMIT))).2.2.arena.cbsBlockPoolStruct = arena.cbsBlockPoolStruct := e3
    have e6a : (arenaAllocPage cls arena.cbsBlockPoolStruct.pool
        ((⟨arena, []⟩ : State).log (Call.cbsInsert .free ⟨base, limit⟩
          ResLIMIT))).2.2.arena.zoneShift = arena.zoneShift := e6
    have e7a : (arenaAllocPage cls arena.cbsBlockPoolStruct.pool
        ((⟨arena, []⟩ : State).log (Call.cbsInsert .free ⟨base, limit⟩
          ResLIMIT))).2.2.arena.alignment = arena.alignment := e7
    have hsuf1 : [Call.cbsInsert .free ⟨base, limit⟩ ResLIMIT]
        <:+ (arenaAllocPage cls arena.cbsBlockPoolStruct.pool
          ((⟨arena, []⟩ : State).log (Call.cbsInsert .free ⟨base, limit⟩
            ResLIMIT))).2.2.calls := hsuf
    clear e3 e6 e7 hsuf hins hrest
    unfold arenaFreeCBSInsertRest
    rw [if_pos rfl]
    simp only
    generalize arenaAllocPage cls arena.cbsBlockPoolStruct.pool
      ((⟨arena, []⟩ : State).log (Call.cbsInsert .free ⟨base, limit⟩ ResLIMIT)) = page
      at e3a e6a e7a hsuf1 ⊢
    by_cases hpage : page.1 ≠ ResOK
    · rw [if_pos hpage]
      exact ⟨e7a, e6a, ⟨ResLIMIT, hlast _ _ hsuf1⟩, fun hok => absurd hok hpage⟩
    · rw [if_neg hpage]
      refine ⟨?_, ?_, ⟨ResLIMIT, hlast _ _ ?_⟩, fun _ h0 hle => ?_⟩
      · show (arenaCBSDelete _ _ _).2.2.arena.alignment = _
        rw [hdel.1, hinsf.1]
        exact e7a
      · show (arenaCBSDelete _ _ _).2.2.arena.zoneShift = _
        rw [hdel.2, hinsf.2]
        exact e6a
      · exact hsuf1.trans ((List.suffix_cons _ _).trans
          ((List.suffix_cons _ _).trans (List.suffix_cons _ _)))
      · have hunits : 0 < (arenaMFSExtend page.2.1 page.2.2.arena.alignment
            page.2.2).arena.cbsBlockPoolStruct.units := by
          show 0 < (MFSExtend page.2.2.arena.cbsBlockPoolStruct
            page.2.2.arena.alignment).units
          rw [e3a, e7a]
          unfold MFSExtend
          have := Nat.div_pos hle h0
          show 0 < arena.cbsBlockPoolStruct.units
            + arena.alignment / arena.cbsBlockPoolStruct.unitSize
          omega
        have hok : (arenaCBSInsert .free ⟨base, limit⟩
            (arenaMFSExtend page.2.1 page.2.2.arena.alignment page.2.2)).1 = ResOK :=
          CBSInsert_units _ _ hunits
        show Call.cbsInsert .free ⟨base, limit⟩ ResOK
          ∈ Call.cbsDelete _ _ _ :: Call.cbsInsert .free ⟨base, limit⟩
              (arenaCBSInsert .free ⟨base, limit⟩
                (arenaMFSExtend page.2.1 page.2.2.arena.alignment page.2.2)).1 :: _
        rw [hok]
        exact List.mem_cons_of_mem _ (List.mem_cons_self _ _)
  · have hok : (arenaCBSInsert .free ⟨base, limit⟩ ⟨arena, []⟩).1 = ResOK := by
      rcases (CBSInsert_effect arena.cbsBlockPoolStruct.units arena.freeCBS ⟨base, limit⟩).1
        with h | h
      · exact h
      · exact absurd h.1 hlim
    have hne : (arenaCBSInsert .free ⟨base, limit⟩ ⟨arena, []⟩).1 ≠ ResLIMIT := hlim
    unfold arenaFreeCBSInsertRest
    rw [if_neg hne]
    refine ⟨(setCBS_fields _ _ _ _).1, (setCBS_fields _ _ _ _).2.1, ⟨_, rfl⟩, fun _ _ _ => ?_⟩
    show Call.cbsInsert .free ⟨base, limit⟩ ResOK
      ∈ [Call.cbsInsert .free ⟨base, limit⟩ (arenaCBSInsert .free ⟨base, limit⟩ ⟨arena, []⟩).1]
    rw [hok]
    exact List.mem_cons_self _ _

/-- Taking a range out of a block set leaves every address of the set that is
not in the range. -/
theorem cbsTake_keeps {r old : RangeStruct} :
    ∀ (cbs rest : CBS), cbsTake r cbs = some (old, rest) →
      ∀ x, CBS.Mem cbs x → CBS.Mem rest x ∨ r.Mem x := by
  intro cbs
  induction cbs with
  | nil => intro rest h; simp [cbsTake] at h
  | cons c cs ih =>
    intro rest h
    unfold cbsTake at h
    split_ifs at h with hc
    · simp only [Option.some.injEq, Prod.mk.injEq] at h
      obtain ⟨e1, e2⟩ := h
      subst e1
      subst e2
      rintro x ⟨b, hb, hx⟩
      rcases List.mem_cons.mp hb with hb | hb
      · subst hb
        rcases cbsCut_cover (r := r) hx with h | ⟨p, hp, hpx⟩
        · exact Or.inr h
        · exact Or.inl ⟨p, List.mem_append_left _ hp, hpx⟩
      · exact Or.inl ⟨b, List.mem_append_right _ hb, hx⟩
    · cases ht : cbsTake r cs with
      | none => rw [ht] at h; simp at h
      | some out =>
        obtain ⟨old1, rest1⟩ := out
        rw [ht] at h
        simp only [Option.some.injEq, Prod.mk.injEq] at h
        obtain ⟨e1, e2⟩ := h
        subst e1
        subst e2
        rintro x ⟨b, hb, hx⟩
        rcases List.mem_cons.mp hb with hb | hb
        · subst hb
          exact Or.inl ⟨b, List.mem_cons_self _ _, hx⟩
        · rcases ih rest1 ht x ⟨b, hb, hx⟩ with ⟨b1, hb1, hx1⟩ | h
          · exact Or.inl ⟨b1, List.mem_cons_of_mem _ hb1, hx1⟩
          · exact Or.inr h

/-- `CBSDelete`, whatever it reports, leaves every address of the set that is
not in the range. -/
theorem CBSDelete_keeps (units : Nat) (cbs : CBS) (r : RangeStruct) (x : Nat)
    (hx : CBS.Mem cbs x) : CBS.Mem (CBSDelete units cbs r).2.2.1 x ∨ r.Mem x := by
  cases ht : cbsTake r cbs with
  | none =>
    have e : CBSDelete units cbs r = (ResFAIL, r, cbs, units) := by
      unfold CBSDelete
      simp only [ht]
    rw [e]
    exact Or.inl hx
  | some out =>
    obtain ⟨old, rest⟩ := out
    have hkeep := cbsTake_keeps cbs rest ht x hx
    have e : CBSDelete units cbs r
        = if (cbsCut old r).length = 2 then
            if units = 0 then (ResLIMIT, old, cbs, units) else (ResOK, old, rest, units - 1)
          else (ResOK, old, rest, units + (1 - (cbsCut old r).length)) := by
      unfold CBSDelete
      simp only [ht]
    rw [e]
    split_ifs
    · exact Or.inl hx
    · exact hkeep
    · exact hkeep

/-- What a successful `ArenaFreeCBSInsert` leaves in the free block set.  When
the first `CBSInsert` does not report `ResLIMIT`, the addresses of the free
block set are those it had and those of the range.  When it does, and a block
of the block pool fits in a page, every address of the range is in the free
block set or in the page taken for the block pool. -/
theorem ArenaFreeCBSInsert_cover {cls : ArenaClass} (hcls : ClassKeepsIndices cls)
    (base limit : Nat) (st : State)
    (hok : (ArenaFreeCBSInsert cls base limit st).1 = ResOK) :
    ((arenaCBSInsert .free ⟨base, limit⟩ st).1 ≠ ResLIMIT →
        ∀ x, CBS.Mem (ArenaFreeCBSInsert cls base limit st).2.arena.freeCBS x
          ↔ CBS.Mem st.arena.freeCBS x ∨ RangeStruct.Mem ⟨base, limit⟩ x)
    ∧ (0 < st.arena.cbsBlockPoolStruct.unitSize →
        st.arena.cbsBlockPoolStruct.unitSize ≤ st.arena.alignment →
        ∀ x, RangeStruct.Mem ⟨base, limit⟩ x →
          CBS.Mem (ArenaFreeCBSInsert cls base limit st).2.arena.freeCBS x
          ∨ ((arenaCBSInsert .free ⟨base, limit⟩ st).1 = ResLIMIT
              ∧ (arenaFreeCBSInsertPage cls base limit st).Mem x)) := by
  have hfirst : (arenaCBSInsert .free ⟨base, limit⟩ st).1 ≠ ResLIMIT →
      ∀ x, CBS.Mem (ArenaFreeCBSInsert cls base limit st).2.arena.freeCBS x
        ↔ CBS.Mem st.arena.freeCBS x ∨ RangeStruct.Mem ⟨base, limit⟩ x := by
    intro hne x
    have hres : ArenaFreeCBSInsert cls base limit st
        = (ResOK, (arenaCBSInsert .free ⟨base, limit⟩ st).2.2) := by
      unfold ArenaFreeCBSInsert
      simp only
      rw [if_neg hne]
    have hins : (CBSInsert st.arena.cbsBlockPoolStruct.units st.arena.freeCBS
        ⟨base, limit⟩).1 = ResOK := by
      rcases (CBSInsert_effect st.arena.cbsBlockPoolStruct.units st.arena.freeCBS
        ⟨base, limit⟩).1 with h | h
      · exact h
      · exact absurd h.1 hne
    rw [hres]
    exact ((CBSInsert_effect st.arena.cbsBlockPoolStruct.units st.arena.freeCBS
      ⟨base, limit⟩).2 hins).1 x
  refine ⟨hfirst, fun h0 hle x hx => ?_⟩
  by_cases hlim : (arenaCBSInsert .free ⟨base, limit⟩ st).1 = ResLIMIT
  · have hlim1 : (CBSInsert st.arena.cbsBlockPoolStruct.units (st.arena.cbs .free)
        ⟨base, limit⟩).1 = ResLIMIT := hlim
    have hins := arenaCBSInsert_limit hlim1
    obtain ⟨hsame, -⟩ := arenaAllocPage_frame hcls st.arena.cbsBlockPoolStruct.pool
      (st.log (Call.cbsInsert .free ⟨base, limit⟩ ResLIMIT))
    obtain ⟨e1, -, e3, -, -, -, e7, -⟩ := hsame
    have e1a : (arenaAllocPage cls st.arena.cbsBlockPoolStruct.pool
        (st.log (Call.cbsInsert .free ⟨base, limit⟩ ResLIMIT))).2.2.arena.freeCBS
        = st.arena.freeCBS := e1
    have e3a : (arenaAllocPage cls st.arena.cbsBlockPoolStruct.pool
        (st.log (Call.cbsInsert .free ⟨base, limit⟩ ResLIMIT))).2.2.arena.cbsBlockPoolStruct
        = st.arena.cbsBlockPoolStruct := e3
    have e7a : (arenaAllocPage cls st.arena.cbsBlockPoolStruct.pool
        (st.log (Call.cbsInsert .free ⟨base, limit⟩ ResLIMIT))).2.2.arena.alignment
        = st.arena.alignment := e7
    clear e1 e3 e7
    refine Or.imp_right (fun h => ⟨hlim, h⟩) ?_
    unfold arenaFreeCBSInsertPage
    unfold ArenaFreeCBSInsert at hok ⊢
    simp only at hok ⊢
    rw [if_pos hlim] at hok ⊢
    rw [hins] at hok ⊢
    simp only at hok ⊢
    generalize arenaAllocPage cls st.arena.cbsBlockPoolStruct.pool
      (st.log (Call.cbsInsert .free ⟨base, limit⟩ ResLIMIT)) = page
      at e1a e3a e7a hok ⊢
    by_cases hpage : page.1 ≠ ResOK
    · rw [if_pos hpage] at hok
      exact absurd hok hpage
    · rw [if_neg hpage]
      have hunits : 0 < (arenaMFSExtend page.2.1 page.2.2.arena.alignment
          page.2.2).arena.cbsBlockPoolStruct.units := by
        show 0 < (MFSExtend page.2.2.arena.cbsBlockPoolStruct
          page.2.2.arena.alignment).units
        rw [e3a, e7a]
        unfold MFSExtend
        have := Nat.div_pos hle h0
        show 0 < st.arena.cbsBlockPoolStruct.units
          + st.arena.alignment / st.arena.cbsBlockPoolStruct.unitSize
        omega
      have hfree1 : (arenaMFSExtend page.2.1 page.2.2.arena.alignment page.2.2).arena.freeCBS
          = page.2.2.arena.freeCBS := rfl
      generalize arenaMFSExtend page.2.1 page.2.2.arena.alignment page.2.2 = s1
        at hunits hfree1 ⊢
      have hok1 : (CBSInsert s1.arena.cbsBlockPoolStruct.units s1.arena.freeCBS
          ⟨base, limit⟩).1 = ResOK := CBSInsert_units _ _ hunits
      have hmem := ((CBSInsert_effect s1.arena.cbsBlockPoolStruct.units s1.arena.freeCBS
        ⟨base, limit⟩).2 hok1).1 x
      have hfree2 : (arenaCBSInsert .free ⟨base, limit⟩ s1).2.2.arena.freeCBS
          = (CBSInsert s1.arena.cbsBlockPoolStruct.units s1.arena.freeCBS
              ⟨base, limit⟩).2.2.1 := rfl
      have hin : CBS.Mem (arenaCBSInsert .free ⟨base, limit⟩ s1).2.2.arena.freeCBS x := by
        rw [hfree2]
        exact hmem.mpr (Or.inr hx)
      generalize arenaCBSInsert .free ⟨base, limit⟩ s1 = ins1 at hin ⊢
      exact CBSDelete_keeps ins1.2.2.arena.cbsBlockPoolStruct.units ins1.2.2.arena.freeCBS
        ⟨page.2.1, AddrAdd page.2.1 ins1.2.2.arena.alignment⟩ x hin
  · exact Or.inl ((hfirst hlim x).mpr (Or.inr hx))

/-- The way to `ResOK` through the end of `ArenaCreate`: the insertion into the
free block set succeeded, `ControlInit` has set `poolReady`, and the steps are
those of a creation that nothing undid. -/
theorem arenaCreateRest_ok (env : CreateEnv) (ins : Res × State)
    (hok : (arenaCreateRest env ins).1 = ResOK) :
    ins.1 = ResOK
    ∧ (arenaCreateRest env ins).2.1 = ins.2.set { ins.2.arena with poolReady := true }
    ∧ (arenaCreateRest env ins).2.2
        = [CreateCall.globalsCompleteCreate, CreateCall.controlInit, CreateCall.classInit] := by
  unfold arenaCreateRest ControlInit at hok ⊢
  by_cases hins : ins.1 ≠ ResOK
  · exfalso
    rw [if_pos hins] at hok
    exact hins hok
  · rw [if_neg hins] at hok ⊢
    by_cases hctl : env.controlPoolInit ≠ ResOK
    · exfalso
      simp only [if_pos hctl] at hok
      exact hctl hok
    · simp only [if_neg hctl] at hok ⊢
      by_cases hglob : env.globalsCompleteCreate ≠ ResOK
      · exfalso
        simp only [if_pos hglob, ne_eq, not_true_eq_false, if_false] at hok
        exact hglob hok
      · rw [if_neg hglob]
        simp only [ne_eq, not_true_eq_false, if_false]
        exact ⟨not_not.mp hins, trivial, trivial⟩

/-- C22.  When the class `init` succeeds and leaves `alignment > 1 << zoneShift`,
`ArenaCreate` gives `ResMEMORY`: its steps are the `init` and the `finish` of
the class, no call is made on a block set, the control pool is not initialised
and the arena is as `init` left it.  When `ArenaCreate` gives `ResOK` (the class
leaving the indices alone), the arena has `1 << zoneShift ≥ alignment` and
`poolReady` set, the steps are the `init` of the class, `ControlInit` and
`GlobalsCompleteCreate`, and the range `[PageIndexBase(primary, allocBase),
primary.limit)` has been inserted into the free block set: the first call on
record is the `CBSInsert` of that range into the free block set, and in the
arena created the free block set holds the range.  More exactly, when that
first `CBSInsert` does not report `ResLIMIT` the addresses of the free block
set are those that `init` left in it and those of the range; when it does, and
a block of the block pool fits in a page, an insertion of the range that gave
`ResOK` is on record and every address of the range is in the free block set,
save those of the one page that `ArenaFreeCBSInsert` gave to the block pool and
took out of the free block set again. -/
theorem ArenaCreate_result (env : CreateEnv) (cls : ArenaClass)
    (hcls : ClassKeepsIndices cls) :
    (env.classInit.1 = ResOK →
      env.classInit.2.alignment > 2 ^ env.classInit.2.zoneShift % WordRange →
        ArenaCreate env cls
          = (ResMEMORY, ⟨env.classInit.2, []⟩,
             [CreateCall.classFinish, CreateCall.classInit]))
    ∧ ((ArenaCreate env cls).1 = ResOK →
        2 ^ (ArenaCreate env cls).2.1.arena.zoneShift % WordRange
          ≥ (ArenaCreate env cls).2.1.arena.alignment
        ∧ (ArenaCreate env cls).2.1.arena.poolReady = true
        ∧ (ArenaCreate env cls).2.2
            = [CreateCall.globalsCompleteCreate, CreateCall.controlInit, CreateCall.classInit]
        ∧ (∃ res, (ArenaCreate env cls).2.1.calls.getLast?
            = some (Call.cbsInsert .free
                ⟨PageIndexBase
                    (env.classInit.2.chunk
                      (env.classInit.2.primary.getD env.classInit.2.chunkRing.length))
                    (env.classInit.2.chunk
                      (env.classInit.2.primary.getD env.classInit.2.chunkRing.length)).allocBase,
                 (env.classInit.2.chunk
                    (env.classInit.2.primary.getD env.classInit.2.chunkRing.length)).limit⟩
                res))
        ∧ (0 < env.classInit.2.cbsBlockPoolStruct.unitSize →
            env.classInit.2.cbsBlockPoolStruct.unitSize ≤ env.classInit.2.alignment →
            Call.cbsInsert .free
                ⟨PageIndexBase
                    (env.classInit.2.chunk
                      (env.classInit.2.primary.getD env.classInit.2.chunkRing.length))
                    (env.classInit.2.chunk
                      (env.classInit.2.primary.getD env.classInit.2.chunkRing.length)).allocBase,
                 (env.classInit.2.chunk
                    (env.classInit.2.primary.getD env.classInit.2.chunkRing.length)).limit⟩
                ResOK
              ∈ (ArenaCreate env cls).2.1.calls)
        ∧ ((arenaCBSInsert .free
                ⟨PageIndexBase
                    (env.classInit.2.chunk
                      (env.classInit.2.primary.getD env.classInit.2.chunkRing.length))
                    (env.classInit.2.chunk
                      (env.classInit.2.primary.getD env.classInit.2.chunkRing.length)).allocBase,
                 (env.classInit.2.chunk
                    (env.classInit.2.primary.getD env.classInit.2.chunkRing.length)).limit⟩
                ⟨{ env.classInit.2 with hasFreeCBS := true }, []⟩).1 ≠ ResLIMIT →
            ∀ x, CBS.Mem (ArenaCreate env cls).2.1.arena.freeCBS x
              ↔ CBS.Mem env.classInit.2.freeCBS x
                ∨ RangeStruct.Mem
                    ⟨PageIndexBase
                    (env.classInit.2.chunk
                      (env.classInit.2.primary.getD env.classInit.2.chunkRing.length))
                    (env.classInit.2.chunk
                      (env.classInit.2.primary.getD env.classInit.2.chunkRing.length)).allocBase,
                 (env.classInit.2.chunk
                    (env.classInit.2.primary.getD env.classInit.2.chunkRing.length)).limit⟩ x)
        ∧ (0 < env.classInit.2.cbsBlockPoolStruct.unitSize →
            env.classInit.2.cbsBlockPoolStruct.unitSize ≤ env.classInit.2.alignment →
            ∀ x, RangeStruct.Mem
                ⟨PageIndexBase
                    (env.classInit.2.chunk
                      (env.classInit.2.primary.getD env.classInit.2.chunkRing.length))
                    (env.classInit.2.chunk
                      (env.classInit.2.primary.getD env.classInit.2.chunkRing.length)).allocBase,
                 (env.classInit.2.chunk
                    (env.classInit.2.primary.getD env.classInit.2.chunkRing.length)).limit⟩ x →
              CBS.Mem (ArenaCreate env cls).2.1.arena.freeCBS x
              ∨ ((arenaCBSInsert .free
                    ⟨PageIndexBase
                    (env.classInit.2.chunk
                      (env.classInit.2.primary.getD env.classInit.2.chunkRing.length))
                    (env.classInit.2.chunk
                      (env.classInit.2.primary.getD env.classInit.2.chunkRing.length)).allocBase,
                 (env.classInit.2.chunk
                    (env.classInit.2.primary.getD env.classInit.2.chunkRing.length)).limit⟩
                    ⟨{ env.classInit.2 with hasFreeCBS := true }, []⟩).1 = ResLIMIT
                  ∧ (arenaFreeCBSInsertPage cls
                      (PageIndexBase
                  (env.classInit.2.chunk
                    (env.classInit.2.primary.getD env.classInit.2.chunkRing.length))
                  (env.classInit.2.chunk
                    (env.classInit.2.primary.getD env.classInit.2.chunkRing.length)).allocBase)
                (env.classInit.2.chunk
                  (env.classInit.2.primary.getD env.classInit.2.chunkRing.length)).limit
                      ⟨{ env.classInit.2 with hasFreeCBS := true }, []⟩).Mem x))) := by
  constructor
  · intro hinit hstripe
    unfold ArenaCreate
    simp only
    rw [if_neg (not_not.mpr hinit), if_pos hstripe]
  · intro hok
    by_cases hinit : env.classInit.1 ≠ ResOK
    · exfalso
      unfold ArenaCreate at hok
      simp only at hok
      rw [if_pos hinit] at hok
      exact hinit hok
    · by_cases hstripe : env.classInit.2.alignment > 2 ^ env.classInit.2.zoneShift % WordRange
      · exfalso
        unfold ArenaCreate at hok
        simp only at hok
        rw [if_neg hinit, if_pos hstripe] at hok
        cases hok
      · obtain ⟨r1, r2, r3, r4⟩ := ArenaFreeCBSInsert_record hcls
          (PageIndexBase
            (env.classInit.2.chunk
              (env.classInit.2.primary.getD env.classInit.2.chunkRing.length))
            (env.classInit.2.chunk
              (env.classInit.2.primary.getD env.classInit.2.chunkRing.length)).allocBase)
          (env.classInit.2.chunk
            (env.classInit.2.primary.getD env.classInit.2.chunkRing.length)).limit
          { env.classInit.2 with hasFreeCBS := true }
        have hcreate : ArenaCreate env cls = arenaCreateRest env
            (ArenaFreeCBSInsert cls
              (PageIndexBase
                (env.classInit.2.chunk
                  (env.classInit.2.primary.getD env.classInit.2.chunkRing.length))
                (env.classInit.2.chunk
                  (env.classInit.2.primary.getD env.classInit.2.chunkRing.length)).allocBase)
              (env.classInit.2.chunk
                (env.classInit.2.primary.getD env.classInit.2.chunkRing.length)).limit
              ⟨{ env.classInit.2 with hasFreeCBS := true }, []⟩) := by
          unfold ArenaCreate
          simp only
          rw [if_neg hinit, if_neg hstripe]
          rfl
        rw [hcreate] at hok ⊢
        obtain ⟨k1, k2, k3⟩ := arenaCreateRest_ok env _ hok
        obtain ⟨c1, c2⟩ := ArenaFreeCBSInsert_cover hcls
          (PageIndexBase
            (env.classInit.2.chunk
              (env.classInit.2.primary.getD env.classInit.2.chunkRing.length))
            (env.classInit.2.chunk
              (env.classInit.2.primary.getD env.classInit.2.chunkRing.length)).allocBase)
          (env.classInit.2.chunk
            (env.classInit.2.primary.getD env.classInit.2.chunkRing.length)).limit
          ⟨{ env.classInit.2 with hasFreeCBS := true }, []⟩ k1
        rw [k2, k3]
        refine ⟨?_, rfl, rfl, r3, r4 k1, c1, c2⟩
        show 2 ^ (ArenaFreeCBSInsert cls _ _ _).2.arena.zoneShift % WordRange
          ≥ (ArenaFreeCBSInsert cls _ _ _).2.arena.alignment
        rw [r1, r2]
        exact Nat.le_of_not_gt hstripe

/-- A class whose `init` leaves pages of 4096 bytes and an empty block pool:
with stripes of 2048 bytes the creation gives `ResMEMORY` after the `finish` of
the class; with stripes of 8192 bytes it succeeds, the pool is ready and the
free space of the primary chunk, `[0x11000, 0x20000)`, has been inserted: the
first insertion reported `ResLIMIT`, the page at `0x11000` went to the block
pool, and the free block set of the arena created is `[0x12000, 0x20000)`, so
that the address `0x1F000` of the range is in it. -/
theorem ArenaCreate_result_witness :
    ArenaCreate (plainCreateEnv 11 16) plainClass
      = (ResMEMORY, ⟨(plainCreateEnv 11 16).classInit.2, []⟩,
         [CreateCall.classFinish, CreateCall.classInit])
    ∧ (ArenaCreate (plainCreateEnv 13 16) plainClass).2.1.arena.poolReady = true
    ∧ Call.cbsInsert .free ⟨0x11000, 0x20000⟩ ResOK
        ∈ (ArenaCreate (plainCreateEnv 13 16) plainClass).2.1.calls
    ∧ (ArenaCreate (plainCreateEnv 13 16) plainClass).2.1.arena.freeCBS
        = [⟨0x12000, 0x20000⟩]
    ∧ arenaFreeCBSInsertPage plainClass 0x11000 0x20000
        ⟨{ (plainCreateEnv 13 16).classInit.2 with hasFreeCBS := true }, []⟩
        = ⟨0x11000, 0x12000⟩
    ∧ (CBS.Mem (ArenaCreate (plainCreateEnv 13 16) plainClass).2.1.arena.freeCBS 0x1F000
        ∨ ((arenaCBSInsert .free ⟨0x11000, 0x20000⟩
              ⟨{ (plainCreateEnv 13 16).classInit.2 with hasFreeCBS := true }, []⟩).1
              = ResLIMIT
            ∧ (arenaFreeCBSInsertPage plainClass 0x11000 0x20000
                ⟨{ (plainCreateEnv 13 16).classInit.2 with hasFreeCBS := true }, []⟩).Mem
                0x1F000)) :=
  ⟨(ArenaCreate_result (plainCreateEnv 11 16) plainClass plainClass_keepsIndices).1
      (by decide) (by decide),
   ((ArenaCreate_result (plainCreateEnv 13 16) plainClass plainClass_keepsIndices).2
      (by decide)).2.1,
   ((ArenaCreate_result (plainCreateEnv 13 16) plainClass plainClass_keepsIndices).2
      (by decide)).2.2.2.2.1 (by decide) (by decide),
   by decide, by decide,
   ((ArenaCreate_result (plainCreateEnv 13 16) plainClass plainClass_keepsIndices).2
      (by decide)).2.2.2.2.2.2 (by decide) (by decide) 0x1F000 (by decide)⟩

/-! ## C23: the result of `ArenaFreeCBSInsert` -/

/-- The result of `arenaAllocPageInChunk` is `ResOK`, `ResRESOURCE` or the
result of the class method `pagesMarkAllocated`. -/
theorem arenaAllocPageInChunk_code (cls : ArenaClass) (chunk pool : Nat) (st : State) :
    (arenaAllocPageInChunk cls chunk pool st).1 = ResOK
    ∨ (arenaAllocPageInChunk cls chunk pool st).1 = ResRESOURCE
    ∨ ∃ arena c index,
        (arenaAllocPageInChunk cls chunk pool st).1
          = (cls.pagesMarkAllocated arena c index 1 pool).1 := by
  unfold arenaAllocPageInChunk
  simp only
  split
  · exact Or.inr (Or.inl rfl)
  · split
    · exact Or.inr (Or.inr ⟨_, _, _, rfl⟩)
    · exact Or.inl rfl

theorem arenaAllocPageRing_code (cls : ArenaClass) (pool primary : Nat) :
    ∀ (ring : List Nat) (acc : Res × Nat × State),
      (acc.1 = ResOK ∨ acc.1 = ResRESOURCE
        ∨ ∃ arena c index, acc.1 = (cls.pagesMarkAllocated arena c index 1 pool).1) →
      ((arenaAllocPageRing cls pool primary ring acc).1 = ResOK
        ∨ (arenaAllocPageRing cls pool primary ring acc).1 = ResRESOURCE
        ∨ ∃ arena c index, (arenaAllocPageRing cls pool primary ring acc).1
            = (cls.pagesMarkAllocated arena c index 1 pool).1) := by
  intro ring
  induction ring with
  | nil => intro acc h; exact h
  | cons i is ih =>
    intro acc h
    unfold arenaAllocPageRing
    split
    · simp only
      split
      · rename_i hok
        exact Or.inl hok
      · exact ih _ (arenaAllocPageInChunk_code cls i pool acc.2.2)
    · exact ih _ h

/-- The result of `arenaAllocPage` is `ResOK`, `ResRESOURCE` or the result of
the class method `pagesMarkAllocated`: the block sets have no part in it. -/
theorem arenaAllocPage_code (cls : ArenaClass) (pool : Nat) (st : State) :
    (arenaAllocPage cls pool st).1 = ResOK
    ∨ (arenaAllocPage cls pool st).1 = ResRESOURCE
    ∨ ∃ arena c index,
        (arenaAllocPage cls pool st).1 = (cls.pagesMarkAllocated arena c index 1 pool).1 := by
  unfold arenaAllocPage
  simp only
  split
  · exact arenaAllocPageRing_code cls pool _ _ _ (arenaAllocPageInChunk_code cls _ pool st)
  · exact arenaAllocPageInChunk_code cls _ pool st

/-- C23.  `ArenaFreeCBSInsert` is its first `CBSInsert` followed by
`arenaFreeCBSInsertRest`.  Whatever result other than `ResLIMIT` that insertion
gives, a failure included, the function gives `ResOK` and leaves the state as the
insertion left it.  It gives a result other than `ResOK` only when the insertion
reported `ResLIMIT` and `arenaAllocPage` failed; the result and the state are then
those of `arenaAllocPage`, whose result is `ResRESOURCE` or that of the class
method `pagesMarkAllocated`.  When the insertion reports `ResLIMIT` and
`arenaAllocPage` succeeds, the function gives `ResOK` whatever the second
insertion and the deletion give. -/
theorem ArenaFreeCBSInsert_result (cls : ArenaClass) (pool : Nat)
    (ins : Res × RangeStruct × State) :
    (∀ base limit st, ArenaFreeCBSInsert cls base limit st
        = arenaFreeCBSInsertRest cls st.arena.cbsBlockPoolStruct.pool
            (arenaCBSInsert .free ⟨base, limit⟩ st))
    ∧ (ins.1 ≠ ResLIMIT → arenaFreeCBSInsertRest cls pool ins = (ResOK, ins.2.2))
    ∧ ((arenaFreeCBSInsertRest cls pool ins).1 ≠ ResOK →
        ins.1 = ResLIMIT
        ∧ (arenaAllocPage cls pool ins.2.2).1 ≠ ResOK
        ∧ (arenaFreeCBSInsertRest cls pool ins).1 = (arenaAllocPage cls pool ins.2.2).1
        ∧ (arenaFreeCBSInsertRest cls pool ins).2 = (arenaAllocPage cls pool ins.2.2).2.2
        ∧ ((arenaFreeCBSInsertRest cls pool ins).1 = ResRESOURCE
            ∨ ∃ arena c index, (arenaFreeCBSInsertRest cls pool ins).1
                = (cls.pagesMarkAllocated arena c index 1 pool).1))
    ∧ (ins.1 = ResLIMIT → (arenaAllocPage cls pool ins.2.2).1 = ResOK →
        (arenaFreeCBSInsertRest cls pool ins).1 = ResOK) := by
  refine ⟨fun _ _ _ => rfl, fun hne => ?_, fun hfail => ?_, fun hlim hpage => ?_⟩
  · unfold arenaFreeCBSInsertRest
    rw [if_neg hne]
  · by_cases hlim : ins.1 = ResLIMIT
    · by_cases hpage : (arenaAllocPage cls pool ins.2.2).1 ≠ ResOK
      · have e : arenaFreeCBSInsertRest cls pool ins
            = ((arenaAllocPage cls pool ins.2.2).1, (arenaAllocPage cls pool ins.2.2).2.2) := by
          unfold arenaFreeCBSInsertRest
          rw [if_pos hlim]
          simp only
          rw [if_pos hpage]
        refine ⟨hlim, hpage, by rw [e], by rw [e], ?_⟩
        rw [e]
        rcases arenaAllocPage_code cls pool ins.2.2 with h | h | h
        · exact absurd h hpage
        · exact Or.inl h
        · exact Or.inr h
      · exfalso
        apply hfail
        unfold arenaFreeCBSInsertRest
        rw [if_pos hlim]
        simp only
        rw [if_neg hpage]
    · exfalso
      apply hfail
      unfold arenaFreeCBSInsertRest
      rw [if_neg hlim]
  · unfold arenaFreeCBSInsertRest
    rw [if_pos hlim]
    simp only
    rw [if_neg (not_not.mpr hpage)]

/-- An insertion that fails with `ResFAIL` is reported as `ResOK`; and in an
arena whose only chunk has no page left, the insertion reports `ResLIMIT`,
`arenaAllocPage` gives `ResRESOURCE` and so does `ArenaFreeCBSInsert`. -/
theorem ArenaFreeCBSInsert_result_witness :
    arenaFreeCBSInsertRest plainClass 1001 (ResFAIL, ⟨0x11000, 0x20000⟩, freshArena)
      = (ResOK, freshArena)
    ∧ (arenaCBSInsert .free ⟨0x11000, 0x11000⟩ ⟨classInitArena 13 1, []⟩).1 = ResLIMIT
    ∧ (ArenaFreeCBSInsert plainClass 0x11000 0x11000 ⟨classInitArena 13 1, []⟩).1
        = ResRESOURCE :=
  ⟨(ArenaFreeCBSInsert_result plainClass 1001 (ResFAIL, ⟨0x11000, 0x20000⟩, freshArena)).2.1
      (by decide),
   by decide, by decide⟩

end MPS
